import Mathlib

/-!
# client-nest: the reminder scheduler

A shallow embedding of `clients/nats.go` (the reminder scheduler built on a
JetStream key-value bucket and an in-memory `container/heap`), of the reminder
handlers of `handlers/ticket.go` and of the ticket consumers of `consumers/`,
followed by theorems about them.

Modelling conventions

* `time.Time` is an instant: an integer count of nanoseconds since the zero
  `time.Time` (January 1 of year 1, UTC).  `UTC()` changes only the location
  of a `time.Time`, never the instant, so it is the identity.
* A byte slice is a list of numbers.
* The bytes held in the KV bucket are seen through `encoding/json`, the only
  way the program looks at them (`Value`).  The payload of a reminder is a
  `json.RawMessage`: the encoder checks it with the scanner of `encoding/json`
  and writes it in compact form (`validJSON`, `compactJSON`).
* Every call that leaves the process (KV `Get`/`Create`/`Update`/`Put`, the
  JetStream publish) is appended to a trace (`NATSClient.calls`), and may fail
  for transport reasons as decided by an environment (`Env`).
-/

namespace ClientNest

/-! ## Data model (`data/payloads.go`) -/

/-- An instant, in nanoseconds since the zero `time.Time`. -/
abbrev Time := Int

/-- A `time.Duration`, in nanoseconds. -/
abbrev Duration := Int

/-- A byte slice. -/
abbrev Bytes := List Nat

/-- The struct `data.Reminder`. -/
structure Reminder where
  Key : String
  EventData : Bytes
  RemindTime : Time
  Status : String
  Revision : Nat
deriving DecidableEq, Repr

/-- The zero value of `data.Reminder`, what `var reminder data.Reminder` holds. -/
def Reminder.zero : Reminder := ⟨"", [], 0, "", 0⟩

instance : Inhabited Reminder := ⟨Reminder.zero⟩

/-- The bytes of a KV value, as `encoding/json` and `len` see them:
`empty` is the zero-length value, `json r` is a document that
`json.Unmarshal` decodes without error into `r`, `malformed r` is a non-empty value on which `json.Unmarshal`
returns an error after having filled the target struct up to `r`. -/
inductive Value where
  | empty
  | json (r : Reminder)
  | malformed (leftover : Reminder)
deriving DecidableEq, Repr

/-- The test `len(rawValue) == 0`. -/
def Value.isEmpty : Value → Bool
  | .empty => true
  | _ => false

/-! ## The encoder of `encoding/json`, as far as `data.Reminder` needs it -/

/-- Whether `Time.MarshalJSON` accepts the instant: its year, in UTC, lies in
0..9999.  The year 0 starts 366 days before the zero `time.Time`, the year
10000 starts 315537897600 seconds after it. -/
def yearInRange (t : Time) : Bool :=
  decide (-31622400000000000 ≤ t ∧ t < 315537897600000000000)

/-- An entry of the scanner's stack `parseState`. -/
inductive ParseState where
  | objectKey
  | objectValue
  | arrayValue
deriving DecidableEq, Repr

/-- The state function the scanner applies to the next byte (`scanner.step`);
`literal rest` stands for the states that read the rest of `true`, `false`
or `null`, and `inStringEscU k` for the states that read the last `k` hex
digits of a `\u` escape. -/
inductive ScanStep where
  | beginValue
  | beginValueOrEmpty
  | beginStringOrEmpty
  | beginString
  | endValue
  | endTop
  | inString
  | inStringEsc
  | inStringEscU (k : Nat)
  | neg
  | zero
  | one
  | dot
  | dot0
  | e
  | eSign
  | e0
  | literal (rest : Bytes)
deriving DecidableEq, Repr

/-- The struct `scanner` of `encoding/json`: the state function and the stack,
its top first. -/
structure Scanner where
  step : ScanStep
  parseState : List ParseState
deriving DecidableEq, Repr

/-- The function `isSpace`: space, tab, carriage return, line feed. -/
def isSpace (c : Nat) : Bool := c = 32 || c = 9 || c = 13 || c = 10

/-- Whether the byte is a decimal digit. -/
def isDigit (c : Nat) : Bool := decide (48 ≤ c ∧ c ≤ 57)

/-- Whether the byte is a hexadecimal digit. -/
def isHexDigit (c : Nat) : Bool :=
  isDigit c || decide (97 ≤ c ∧ c ≤ 102) || decide (65 ≤ c ∧ c ≤ 70)

/-- The method `popParseState`, on the stack below the popped entry. -/
def popParseState (below : List ParseState) : Scanner :=
  if below.isEmpty then ⟨.endTop, below⟩ else ⟨.endValue, below⟩

/-- The method `pushParseState`: `none` when the nesting exceeds
`maxNestingDepth`. -/
def pushParseState (ps : List ParseState) (newParseState : ParseState)
    (successState : ScanStep) : Option Scanner :=
  if ps.length + 1 ≤ 10000 then some ⟨successState, newParseState :: ps⟩ else none

/-- The state function `stateEndValue` (with `stateEndTop`, which it calls at
the top level): `none` is `scanError`. -/
def stateEndValue (ps : List ParseState) (c : Nat) : Option Scanner :=
  match ps with
  | [] => if isSpace c then some ⟨.endTop, []⟩ else none
  | top :: below =>
    if isSpace c then some ⟨.endValue, ps⟩
    else
      match top with
      | .objectKey =>
        if c = 58 then some ⟨.beginValue, .objectValue :: below⟩ else none
      | .objectValue =>
        if c = 44 then some ⟨.beginString, .objectKey :: below⟩
        else if c = 125 then some (popParseState below)
        else none
      | .arrayValue =>
        if c = 44 then some ⟨.beginValue, ps⟩
        else if c = 93 then some (popParseState below)
        else none

/-- The state function `stateBeginValue`, on a byte that is not a space. -/
def stateBeginValue (ps : List ParseState) (c : Nat) : Option Scanner :=
  if c = 123 then pushParseState ps .objectKey .beginStringOrEmpty
  else if c = 91 then pushParseState ps .arrayValue .beginValueOrEmpty
  else if c = 34 then some ⟨.inString, ps⟩
  else if c = 45 then some ⟨.neg, ps⟩
  else if c = 48 then some ⟨.zero, ps⟩
  else if c = 116 then some ⟨.literal [114, 117, 101], ps⟩
  else if c = 102 then some ⟨.literal [97, 108, 115, 101], ps⟩
  else if c = 110 then some ⟨.literal [117, 108, 108], ps⟩
  else if decide (49 ≤ c ∧ c ≤ 57) then some ⟨.one, ps⟩
  else none

/-- The state function `state0`, after the digits of an integer part. -/
def state0 (ps : List ParseState) (c : Nat) : Option Scanner :=
  if c = 46 then some ⟨.dot, ps⟩
  else if c = 101 || c = 69 then some ⟨.e, ps⟩
  else stateEndValue ps c

/-- One call `scan.step(scan, c)`: the scanner afterwards, `none` for
`scanError`. -/
def scanStep (s : Scanner) (c : Nat) : Option Scanner :=
  match s.step with
  | .beginValue => if isSpace c then some s else stateBeginValue s.parseState c
  | .beginValueOrEmpty =>
    if isSpace c then some s
    else if c = 93 then stateEndValue s.parseState c
    else stateBeginValue s.parseState c
  | .beginStringOrEmpty =>
    if isSpace c then some s
    else if c = 125 then stateEndValue (.objectValue :: s.parseState.tail) c
    else if c = 34 then some ⟨.inString, s.parseState⟩
    else none
  | .beginString =>
    if isSpace c then some s
    else if c = 34 then some ⟨.inString, s.parseState⟩
    else none
  | .endValue => stateEndValue s.parseState c
  | .endTop => if isSpace c then some s else none
  | .inString =>
    if c = 34 then some ⟨.endValue, s.parseState⟩
    else if c = 92 then some ⟨.inStringEsc, s.parseState⟩
    else if c < 32 then none
    else some s
  | .inStringEsc =>
    if c = 98 || c = 102 || c = 110 || c = 114 || c = 116 || c = 92 || c = 47 || c = 34 then
      some ⟨.inString, s.parseState⟩
    else if c = 117 then some ⟨.inStringEscU 4, s.parseState⟩
    else none
  | .inStringEscU k =>
    if isHexDigit c then
      some ⟨if k ≤ 1 then .inString else .inStringEscU (k - 1), s.parseState⟩
    else none
  | .neg =>
    if c = 48 then some ⟨.zero, s.parseState⟩
    else if decide (49 ≤ c ∧ c ≤ 57) then some ⟨.one, s.parseState⟩
    else none
  | .zero => state0 s.parseState c
  | .one => if isDigit c then some s else state0 s.parseState c
  | .dot => if isDigit c then some ⟨.dot0, s.parseState⟩ else none
  | .dot0 =>
    if isDigit c then some s
    else if c = 101 || c = 69 then some ⟨.e, s.parseState⟩
    else stateEndValue s.parseState c
  | .e =>
    if c = 43 || c = 45 then some ⟨.eSign, s.parseState⟩
    else if isDigit c then some ⟨.e0, s.parseState⟩
    else none
  | .eSign => if isDigit c then some ⟨.e0, s.parseState⟩ else none
  | .e0 => if isDigit c then some s else stateEndValue s.parseState c
  | .literal rest =>
    match rest with
    | [] => none
    | x :: more =>
      if c = x then some ⟨if more.isEmpty then .endValue else .literal more, s.parseState⟩
      else none

/-- The scanner after the bytes, `none` once a byte gave `scanError`. -/
def scanBytes : Scanner → Bytes → Option Scanner
  | s, [] => some s
  | s, c :: rest =>
    match scanStep s c with
    | none => none
    | some s1 => scanBytes s1 rest

/-- The method `scanner.eof`: whether the input that ends here is a complete
JSON value. -/
def Scanner.eof (s : Scanner) : Bool :=
  if s.step = .endTop then true
  else
    match scanStep s 32 with
    | some s1 => decide (s1.step = .endTop)
    | none => false

/-- Whether the bytes are a JSON document, as the scanner of `encoding/json`
decides it. -/
def validJSON (b : Bytes) : Bool :=
  match scanBytes ⟨.beginValue, []⟩ b with
  | some s => s.eof
  | none => false

/-- The hexadecimal digit of a number below 16, from `0123456789abcdef`. -/
def hexDigit (d : Nat) : Nat := if d < 10 then 48 + d else 87 + d

/-- The loop of `appendCompact` with `escape` set, on a document the scanner
accepts: a space outside a string is dropped, the bytes `<`, `>` and `&` are
written as the escapes `\u003c`, `\u003e` and `\u0026`, the sequences
`E2 80 A8` and `E2 80 A9` as the escapes `\u2028` and `\u2029`, every other
byte is copied.  `skip` counts the bytes of such a sequence that are still to
be passed over. -/
def compactLoop : Scanner → Nat → Bytes → Bytes
  | _, _, [] => []
  | s, skip, c :: rest =>
    let s1 := (scanStep s c).getD s
    if 0 < skip then compactLoop s1 (skip - 1) rest
    else if c = 60 || c = 62 || c = 38 then
      [92, 117, 48, 48, hexDigit (c / 16), hexDigit (c % 16)] ++ compactLoop s1 0 rest
    else if c = 226 && rest.head? = some 128 &&
        (rest.tail.head? = some 168 || rest.tail.head? = some 169) then
      [92, 117, 50, 48, 50, hexDigit (rest.tail.headD 0 % 16)] ++ compactLoop s1 2 rest
    else if isSpace c && !decide (s.step = .inString) then compactLoop s1 0 rest
    else c :: compactLoop s1 0 rest

/-- The bytes `appendCompact` writes for a document the scanner accepts. -/
def compactJSON (b : Bytes) : Bytes := compactLoop ⟨.beginValue, []⟩ 0 b

/-- The text `null`. -/
def nullJSON : Bytes := [110, 117, 108, 108]

/-- The encoding of a `json.RawMessage` field: `null` for a nil slice (here: a
slice of length 0), the compact form of any other slice that is a JSON
document, and `none`, an error, for a slice that is not. -/
def jsonRawMessage (b : Bytes) : Option Bytes :=
  if b = [] then some nullJSON
  else if validJSON b then some (compactJSON b)
  else none

/-- The call `json.Marshal(reminder)`: the encoded document, or `none` for an
error.  The encoder returns an error when the year of `RemindTime` is outside
0..9999 and when `EventData` is not a JSON document; the payload that
`json.Unmarshal` reads back from the document is the encoding of `EventData`. -/
def jsonMarshal (r : Reminder) : Option Value :=
  if !yearInRange r.RemindTime then none
  else
    match jsonRawMessage r.EventData with
    | none => none
    | some stored => some (.json { r with EventData := stored })

/-- The call `json.Marshal(reminder)` on a reminder that `json.Unmarshal` read
from the bucket and of which the program has since changed the status, the
revision or the time.  Its payload is the compact text that was copied out of
the stored document, which the encoder accepts and copies back; the model
takes the time to be within the years 0..9999 still, as a stored time is, so
this call always returns a document. -/
def jsonMarshalStored (r : Reminder) : Option Value := some (.json r)

/-- The call `json.Unmarshal(value, &reminder)` on a fresh `reminder`: the
struct after the call and whether the call returned a nil error. -/
def jsonUnmarshal : Value → Reminder × Bool
  | .empty => (Reminder.zero, false)
  | .json r => (r, true)
  | .malformed r => (r, false)

/-! ## The key-value bucket (`jetstream.KeyValue`) -/

/-- One entry of the bucket: the value and the revision the bucket gave it. -/
structure KVEntry where
  value : Value
  revision : Nat
deriving DecidableEq, Repr

/-- The bucket `ticket_reminders`: its entries, in the order `Keys` lists
them, and the sequence number of the last committed write. -/
structure KVStore where
  entries : List (String × KVEntry)
  seq : Nat
deriving DecidableEq, Repr

/-- Replace the entry stored under `key`, or append one when there is none. -/
def upsert : List (String × KVEntry) → String → KVEntry → List (String × KVEntry)
  | [], key, e => [(key, e)]
  | (k, x) :: rest, key, e =>
    if k = key then (key, e) :: rest else (k, x) :: upsert rest key e

/-- The entry stored under `key`. -/
def lookupEntry : List (String × KVEntry) → String → Option KVEntry
  | [], _ => none
  | (k, x) :: rest, key => if k = key then some x else lookupEntry rest key

/-- The entry of the bucket under `key`. -/
def KVStore.find (kv : KVStore) (key : String) : Option KVEntry :=
  lookupEntry kv.entries key

/-- A committed write: the value is stored under the next sequence number,
which becomes its revision. -/
def KVStore.write (kv : KVStore) (key : String) (v : Value) : KVStore :=
  ⟨upsert kv.entries key ⟨v, kv.seq + 1⟩, kv.seq + 1⟩

/-- The keys of the bucket, as `KV.Keys` lists them. -/
def KVStore.keys (kv : KVStore) : List String := kv.entries.map Prod.fst

/-- What the program does not control: transport failures of the calls that
leave the process, and the writes other clients of the bucket commit while
`StoreReminderInKV` runs, before its `Create` or `Update` reaches the
bucket. -/
structure Env where
  keysFails : Bool
  getFails : String → Bool
  writeFails : Bool
  publishFails : Bool
  concurrent : KVStore → KVStore

/-- The environment in which every call succeeds and no other client writes. -/
def Env.calm : Env := ⟨false, fun _ => false, false, false, id⟩

/-- The call `KV.Get(ctx, key)`: the entry, or `none` for an error (key not
found, or transport failure). -/
def kvGet (env : Env) (kv : KVStore) (key : String) : Option KVEntry :=
  if env.getFails key then none else kv.find key

/-- The call `KV.Create(ctx, key, value)`: fails when the key already has a
value. -/
def kvCreate (env : Env) (kv : KVStore) (key : String) (v : Value) : Option KVStore :=
  if env.writeFails then none
  else match kv.find key with
    | some _ => none
    | none => some (kv.write key v)

/-- The call `KV.Update(ctx, key, value, revision)`: fails unless `revision`
is the current revision of the key (0 for a key that has no value). -/
def kvUpdate (env : Env) (kv : KVStore) (key : String) (v : Value) (revision : Nat) :
    Option KVStore :=
  if env.writeFails then none
  else match kv.find key with
    | some e => if e.revision = revision then some (kv.write key v) else none
    | none => if revision = 0 then some (kv.write key v) else none

/-- The call `KV.Put(ctx, key, value)`: the unconditional write. -/
def kvPut (env : Env) (kv : KVStore) (key : String) (v : Value) : Option KVStore :=
  if env.writeFails then none else some (kv.write key v)

/-! ## The client -/

/-- A call that leaves the process. -/
inductive Call where
  | kvKeys
  | kvGet (key : String)
  | kvCreate (key : String) (v : Value)
  | kvUpdate (key : String) (v : Value) (revision : Nat)
  | kvPut (key : String) (v : Value)
  | publish (subject : String) (payload : Bytes)
deriving DecidableEq, Repr

/-- The type `ReminderPriorityQueue`, a slice of reminders. -/
abbrev ReminderPriorityQueue := List Reminder

/-- The struct `NATSClient`: the bucket it talks to, its priority queue, the
trace of the calls it has made, and whether `logger.Fatal` has ended the
process. -/
structure NATSClient where
  KV : KVStore
  pq : ReminderPriorityQueue
  calls : List Call
  exited : Bool
deriving DecidableEq, Repr

/-! ## The priority queue (`ReminderPriorityQueue` and `container/heap`) -/

/-- The entry `pq[i]`. -/
def entryAt (pq : ReminderPriorityQueue) (i : Nat) : Reminder := pq.getD i Reminder.zero

/-- The method `Less`: `pq[i].RemindTime.Before(pq[j].RemindTime)`. -/
def Less (pq : ReminderPriorityQueue) (i j : Nat) : Bool :=
  decide ((entryAt pq i).RemindTime < (entryAt pq j).RemindTime)

/-- The method `Swap`: `pq[i], pq[j] = pq[j], pq[i]`. -/
def Swap (pq : ReminderPriorityQueue) (i j : Nat) : ReminderPriorityQueue :=
  (pq.set i (entryAt pq j)).set j (entryAt pq i)

/-- The loop of `heap.up`, run for at most `fuel` rounds: `j` moves to its
parent `(j - 1) / 2` as long as it is smaller than it. -/
def upLoop : Nat → ReminderPriorityQueue → Nat → ReminderPriorityQueue
  | 0, pq, _ => pq
  | fuel + 1, pq, j =>
    let i := (j - 1) / 2
    if i = j || !Less pq j i then pq
    else upLoop fuel (Swap pq i j) i

/-- The function `heap.up(h, j)`.  Each round at least halves `j`, and the loop
stops at `j = 0`, so `j` rounds are enough. -/
def up (pq : ReminderPriorityQueue) (j : Nat) : ReminderPriorityQueue := upLoop j pq j

/-- The child `heap.down` compares with: the left child `j1`, or the right
child `j2 = j1 + 1` when it is in range and smaller. -/
def smallerChild (pq : ReminderPriorityQueue) (j1 n : Nat) : Nat :=
  if j1 + 1 < n && Less pq (j1 + 1) j1 then j1 + 1 else j1

/-- The loop of `heap.down`, run for at most `fuel` rounds, on the first `n`
entries: `i` moves to its smaller child as long as that child is smaller than
it.  Returns the queue and the last position of `i`. -/
def downLoop : Nat → ReminderPriorityQueue → Nat → Nat → ReminderPriorityQueue × Nat
  | 0, pq, i, _ => (pq, i)
  | fuel + 1, pq, i, n =>
    let j1 := 2 * i + 1
    if j1 ≥ n then (pq, i)
    else
      let j := smallerChild pq j1 n
      if !Less pq j i then (pq, i)
      else downLoop fuel (Swap pq i j) j n

/-- The function `heap.down(h, i0, n)`: the queue after the loop and whether
the entry moved (`i > i0`).  Each round increases `i`, and the loop stops when
`2 * i + 1 ≥ n`, so `n` rounds are enough. -/
def down (pq : ReminderPriorityQueue) (i0 n : Nat) : ReminderPriorityQueue × Bool :=
  let r := downLoop n pq i0 n
  (r.1, decide (r.2 > i0))

/-- The function `heap.Push(&pq, x)`: the method `Push` appends, then
`up(h, h.Len() - 1)`. -/
def heapPush (pq : ReminderPriorityQueue) (x : Reminder) : ReminderPriorityQueue :=
  let pq1 := pq ++ [x]
  up pq1 (pq1.length - 1)

/-- The function `heap.Pop(&pq)`: swap the first and the last entry, `down`
on the others, then the method `Pop` takes the last entry off.  `none` is the
panic on an empty queue. -/
def heapPop (pq : ReminderPriorityQueue) : Option (Reminder × ReminderPriorityQueue) :=
  if pq.length = 0 then none
  else
    let n := pq.length - 1
    let pq1 := Swap pq 0 n
    let pq2 := (down pq1 0 n).1
    some (entryAt pq2 n, pq2.take n)

/-- The function `heap.Remove(&pq, i)`.  `none` is the panic on an index out
of range. -/
def heapRemove (pq : ReminderPriorityQueue) (i : Nat) :
    Option (Reminder × ReminderPriorityQueue) :=
  if pq.length ≤ i then none
  else
    let n := pq.length - 1
    let pq2 :=
      if n ≠ i then
        let pq1 := Swap pq i n
        let d := down pq1 i n
        if !d.2 then up d.1 i else d.1
      else pq
    some (entryAt pq2 n, pq2.take n)

/-- The index of the first entry whose `Key` is `key`, what the loop
`for i, item := range n.pq { if item.Key == key { ...; break } }` stops at. -/
def findKey : ReminderPriorityQueue → String → Option Nat
  | [], _ => none
  | item :: rest, key =>
    if item.Key = key then some 0 else (findKey rest key).map (· + 1)

/-- The loop that removes the first entry whose `Key` is `key` with
`heap.Remove`, and leaves the queue alone when there is none. -/
def removeKey (pq : ReminderPriorityQueue) (key : String) : ReminderPriorityQueue :=
  match findKey pq key with
  | none => pq
  | some i =>
    match heapRemove pq i with
    | some r => r.2
    | none => pq

/-- Append a call to the trace. -/
def NATSClient.record (n : NATSClient) (c : Call) : NATSClient :=
  { n with calls := n.calls ++ [c] }

/-- The call `strings.TrimPrefix` on lists of characters. -/
def trimPrefixChars : List Char → List Char → Option (List Char)
  | s, [] => some s
  | [], _ :: _ => none
  | c :: s, p :: ps => if c = p then trimPrefixChars s ps else none

/-- The call `strings.TrimPrefix(s, p)`: `s` without the leading `p`, or `s`
itself when it does not start with `p`. -/
def TrimPrefix (s p : String) : String :=
  match trimPrefixChars s.data p.data with
  | some rest => ⟨rest⟩
  | none => s

/-- The method `PublishEvent`: a failed publish is logged with `logger.Fatal`,
which ends the process. -/
def PublishEvent (env : Env) (n : NATSClient) (subject : String) (payload : Bytes) :
    Bool × NATSClient :=
  let n1 := n.record (.publish subject payload)
  if env.publishFails then (false, { n1 with exited := true }) else (true, n1)

/-- The method `triggerReminder`. -/
def triggerReminder (env : Env) (n : NATSClient) (key : String) (eventData : Bytes) :
    NATSClient :=
  let ticketID := TrimPrefix key "reminder_"
  let subject := "crm.tickets.reminder." ++ ticketID
  (PublishEvent env n subject eventData).2

/-- The method `markReminderCompleted`. -/
def markReminderCompleted (env : Env) (n : NATSClient) (key : String) : NATSClient :=
  let n1 := n.record (.kvGet key)
  match kvGet env n.KV key with
  | none => n1
  | some entry =>
    -- the decode error is logged and the function goes on
    let reminder := (jsonUnmarshal entry.value).1
    let reminder := { reminder with Status := "completed", Revision := entry.revision }
    match jsonMarshalStored reminder with
    | none => n1
    | some updatedData =>
      let n2 := n1.record (.kvPut key updatedData)
      match kvPut env n.KV key updatedData with
      | none => n2
      | some kv => triggerReminder env { n2 with KV := kv } key reminder.EventData

/-- A Go `error` value: the error a KV call, `json.Marshal`, `json.Unmarshal`
or a database query returned, or one made with `fmt.Errorf` / `errors.New`. -/
inductive GoError where
  | kv
  | marshal
  | unmarshal
  | query
  | text (msg : String)
deriving DecidableEq, Repr

/-- The method `StoreReminderInKV`: the returned error (`none` is `nil`) and
the client afterwards. -/
def StoreReminderInKV (env : Env) (n : NATSClient) (key : String) (timestamp : Time)
    (eventData : Bytes) : Option GoError × NATSClient :=
  let reminder : Reminder :=
    { Key := key, EventData := eventData, RemindTime := timestamp,
      Status := "pending", Revision := 0 }
  match jsonMarshal reminder with
  | none => (some .marshal, { n with KV := env.concurrent n.KV })
  | some reminderJSON =>
    let n1 := n.record (.kvGet key)
    let got := kvGet env n.KV key
    -- other clients may write before the second call reaches the bucket
    let kv := env.concurrent n.KV
    match got with
    | none =>
      let n2 := { n1.record (.kvCreate key reminderJSON) with KV := kv }
      match kvCreate env kv key reminderJSON with
      | none => (some .kv, n2)
      | some kv1 => (none, { n2 with KV := kv1 })
    | some entry =>
      let n2 := { n1.record (.kvUpdate key reminderJSON entry.revision) with KV := kv }
      match kvUpdate env kv key reminderJSON entry.revision with
      | none => (some .kv, n2)
      | some kv1 => (none, { n2 with KV := kv1 })

/-- The method `CancelReminder`; the argument `eventData` is not used by the
source.  Every path returns `nil`. -/
def CancelReminder (env : Env) (n : NATSClient) (key : String) (_eventData : Bytes)
    (reminderEntry : Reminder) : Option GoError × NATSClient :=
  let n1 := { n with pq := removeKey n.pq key }
  let reminderEntry := { reminderEntry with Status := "canceled" }
  match jsonMarshalStored reminderEntry with
  | none => (none, n1)
  | some updatedData =>
    let n2 := n1.record (.kvPut key updatedData)
    match kvPut env n1.KV key updatedData with
    | none => (none, n2)
    | some kv => (none, { n2 with KV := kv })

/-- The method `SnoozeReminder`. -/
def SnoozeReminder (env : Env) (n : NATSClient) (key : String) (snoozeDuration : Duration) :
    Option GoError × NATSClient :=
  let n1 := n.record (.kvGet key)
  match kvGet env n.KV key with
  | none => (some (.text "reminder not found"), n1)
  | some entry =>
    let dec := jsonUnmarshal entry.value
    if !dec.2 then (some (.text "invalid reminder data"), n1)
    else
      let reminder := { dec.1 with RemindTime := dec.1.RemindTime + snoozeDuration }
      match jsonMarshalStored reminder with
      | none => (some (.text "failed to update reminder"), n1)
      | some updatedData =>
        let n2 := n1.record (.kvPut key updatedData)
        match kvPut env n.KV key updatedData with
        | none => (some (.text "failed to save updated reminder"), n2)
        | some kv =>
          (none, { n2 with KV := kv, pq := heapPush (removeKey n2.pq key) reminder })

/-- The body of the loop of `loadExistingReminders`, for one key. -/
def loadExistingReminder (env : Env) (n : NATSClient) (key : String) : NATSClient :=
  let n1 := n.record (.kvGet key)
  match kvGet env n.KV key with
  | none => n1
  | some entry =>
    let dec := jsonUnmarshal entry.value
    if !dec.2 then n1
    else if dec.1.Status = "pending" then { n1 with pq := heapPush n1.pq dec.1 }
    else n1

/-- The method `loadExistingReminders`. -/
def loadExistingReminders (env : Env) (n : NATSClient) : NATSClient :=
  let n1 := n.record .kvKeys
  if env.keysFails then n1
  else n.KV.keys.foldl (loadExistingReminder env) n1

/-- The body of the loop of `watchKVUpdates`, for one update: `none` is the
nil update, otherwise the key and the value of the update. -/
def watchKVUpdate (n : NATSClient) : Option (String × Value) → NATSClient
  | none => n
  | some (key, rawValue) =>
    let n1 := { n with pq := removeKey n.pq key }
    if rawValue.isEmpty then n1
    else
      let dec := jsonUnmarshal rawValue
      if !dec.2 then n1
      else if dec.1.Status = "pending" then { n1 with pq := heapPush n1.pq dec.1 }
      else n1

/-- The method `watchKVUpdates` on the updates the watcher delivers. -/
def watchKVUpdates (n : NATSClient) (updates : List (Option (String × Value))) : NATSClient :=
  updates.foldl watchKVUpdate n

/-- The smallest and the largest `time.Duration`. -/
def minDuration : Int := -(2 ^ 63)

/-- The largest `time.Duration`. -/
def maxDuration : Int := 2 ^ 63 - 1

/-- The method `Time.Sub`: the difference, saturated to the range of
`time.Duration`. -/
def Sub (t u : Time) : Duration :=
  if t - u < minDuration then minDuration
  else if t - u > maxDuration then maxDuration
  else t - u

/-- One round of the loop of `processReminders` with the clock reading `now`
and nothing else running in between: the key handed to
`markReminderCompleted`, if the round fired, and the client afterwards. -/
def processRemindersRound (env : Env) (now : Time) (n : NATSClient) :
    Option String × NATSClient :=
  if n.pq.length = 0 then (none, n)
  else
    let reminder := entryAt n.pq 0
    let timeUntilReminder := Sub reminder.RemindTime now
    if timeUntilReminder ≤ 0 then
      match heapPop n.pq with
      | none => (none, { n with exited := true })
      | some r => (some reminder.Key, markReminderCompleted env { n with pq := r.2 } reminder.Key)
    else (none, n)

/-- The method `processReminders`, one round per clock reading, until the
process exits: the keys it fired, in order, and the client afterwards. -/
def processReminders (env : Env) : List Time → NATSClient → List String × NATSClient
  | [], n => ([], n)
  | now :: later, n =>
    if n.exited then ([], n)
    else
      let r := processRemindersRound env now n
      let rest := processReminders env later r.2
      (r.1.toList ++ rest.1, rest.2)

/-! ## The reminder handlers (`handlers/ticket.go`) -/

/-- The struct `data.ReminderRequest`. -/
structure ReminderRequest where
  ReminderAt : Time
  Message : String
  Recipients : List String
deriving DecidableEq, Repr

/-- The struct `data.CancelReminderRequest`. -/
structure CancelReminderRequest where
  ReminderID : String
deriving DecidableEq, Repr

/-- The struct `data.Actor`. -/
structure Actor where
  UserID : String
deriving DecidableEq, Repr

/-- The struct `data.TicketDetails`. -/
structure TicketDetails where
  TicketID : String
  Status : String
  Priority : String
  CreatedAt : String
  AssignedTo : String
deriving DecidableEq, Repr

/-- The struct `data.Changes`. -/
structure Changes where
  Status : String
  AssignedTo : String
deriving DecidableEq, Repr

/-- The struct `data.ReminderDetails`. -/
structure ReminderDetails where
  ScheduledTime : String
  Message : String
  Recipients : List String
deriving DecidableEq, Repr

/-- The struct `data.TicketEvent`. -/
structure TicketEvent where
  EventID : String
  EventType : String
  Timestamp : String
  Actor : Actor
  Ticket : TicketDetails
  ReminderDetails : ReminderDetails
  Changes : Changes
deriving DecidableEq, Repr

/-- The columns of a ticket row that the handlers read. -/
structure TicketRow where
  ID : String
  Status : String
  Priority : String
  CreatedAt : Time
  AssignedTo : String
deriving DecidableEq, Repr

/-- What a handler gets from its surroundings: the URL parameter `id`, the
clock, the ticket row `GetTicketByID` returns, the logged-in user, the ULID
`GetUlid` returns (`none` where the call fails), and the library functions
`Time.Format(time.RFC3339)` and `json.Marshal` on events. -/
structure HandlerCtx where
  ticketID : String
  now : Time
  ticket : Option TicketRow
  loggedInUser : Option String
  ulid : Option String
  format : Time → String
  marshalEvent : TicketEvent → Bytes

/-- The response a handler sends. -/
inductive Response where
  | badRequest (msg : String)
  | forbidden (msg : String)
  | unauthorized (msg : String)
  | applicationError (msg : String)
  | success (msg : String)
deriving DecidableEq, Repr

/-- The handler `SetTicketReminder`; `req` is `none` when `ShouldBindJSON`
fails. -/
def SetTicketReminder (env : Env) (c : HandlerCtx) (n : NATSClient)
    (req : Option ReminderRequest) : Response × NATSClient :=
  match req with
  | none => (.badRequest "invalid request payload", n)
  | some req =>
    let ticketID := c.ticketID
    if ticketID = "" then (.badRequest "ticket ID is required", n)
    else
      let reminderTimeUTC := req.ReminderAt
      if reminderTimeUTC < c.now then (.badRequest "reminder time must be in the future", n)
      else
        match c.ticket with
        | none => (.applicationError "internal server error", n)
        | some ticket =>
          match c.loggedInUser with
          | none => (.unauthorized "unauthorized", n)
          | some loggedInUser =>
            match c.ulid with
            | none => (.applicationError "internal server error", n)
            | some eventId =>
              let recipients :=
                if req.Recipients.length = 0 || !req.Recipients.contains loggedInUser
                then req.Recipients ++ [loggedInUser] else req.Recipients
              let ticketReminderEvent : TicketEvent :=
                { EventID := eventId, EventType := "ticket.reminder",
                  Timestamp := c.format c.now,
                  Actor := ⟨loggedInUser⟩,
                  Ticket := ⟨ticket.ID, ticket.Status, ticket.Priority,
                    c.format ticket.CreatedAt, ticket.AssignedTo⟩,
                  ReminderDetails := ⟨c.format reminderTimeUTC, req.Message, recipients⟩,
                  Changes := ⟨"", ""⟩ }
              let reminderKey := "reminder_" ++ ticketID ++ "_" ++ loggedInUser
              let eventData := c.marshalEvent ticketReminderEvent
              match StoreReminderInKV env n reminderKey reminderTimeUTC eventData with
              | (some _, n1) => (.applicationError "failed to save reminder", n1)
              | (none, n1) => (.success "Reminder set successfully", n1)

/-- The handler `CancelTicketReminder`; `req` is `none` when `ShouldBindJSON`
fails. -/
def CancelTicketReminder (env : Env) (c : HandlerCtx) (n : NATSClient)
    (req : Option CancelReminderRequest) : Response × NATSClient :=
  match req with
  | none => (.badRequest "invalid request payload", n)
  | some req =>
    let ticketID := c.ticketID
    if ticketID = "" then (.badRequest "ticket ID is required", n)
    else
      match c.ticket with
      | none => (.applicationError "internal server error", n)
      | some ticket =>
        match c.loggedInUser with
        | none => (.unauthorized "unauthorized", n)
        | some loggedInUser =>
          let n1 := n.record (.kvGet req.ReminderID)
          match kvGet env n.KV req.ReminderID with
          | none => (.forbidden "reminder not found", n1)
          | some reminderEntry =>
            match c.ulid with
            | none => (.applicationError "internal server error", n1)
            | some eventId =>
              let cancelEvent : TicketEvent :=
                { EventID := eventId, EventType := "ticket.reminder.cancel",
                  Timestamp := c.format c.now,
                  Actor := ⟨loggedInUser⟩,
                  Ticket := ⟨ticket.ID, "", "", "", ""⟩,
                  ReminderDetails := ⟨"", "", []⟩,
                  Changes := ⟨"cancel reminder", ""⟩ }
              let eventData := c.marshalEvent cancelEvent
              let dec := jsonUnmarshal reminderEntry.value
              if !dec.2 then (.applicationError "internal server error", n1)
              else
                match CancelReminder env n1 req.ReminderID eventData dec.1 with
                | (some _, n2) => (.applicationError "internal server error", n2)
                | (none, n2) => (.success "Reminder canceled successfully", n2)

/-! ## Concrete clients used by the examples -/

/-- A client whose bucket holds a canceled reminder under `reminder_T1_U1`. -/
def canceledClient : NATSClient :=
  ⟨⟨[("reminder_T1_U1", ⟨.json ⟨"reminder_T1_U1", [1, 2], 100, "canceled", 0⟩, 1⟩)], 1⟩,
    [], [], false⟩

/-- A client whose bucket holds a completed reminder under `reminder_T1_U1`. -/
def completedClient : NATSClient :=
  ⟨⟨[("reminder_T1_U1", ⟨.json ⟨"reminder_T1_U1", [1, 2], 100, "completed", 1⟩, 2⟩)], 2⟩,
    [], [], false⟩

/-- A client with an empty bucket and an empty queue. -/
def emptyClient : NATSClient := ⟨⟨[], 0⟩, [], [], false⟩

/-- A request context: ticket `T1`, the clock reads 1000, the logged-in user is
`U1`, and the event encodes as `{}`. -/
def sampleCtx : HandlerCtx :=
  ⟨"T1", 1000, some ⟨"T1", "open", "high", 0, "U2"⟩, some "U1", some "01H",
    fun _ => "", fun _ => [123, 125]⟩

/-- The reminder that `SetTicketReminder` stores for `sampleCtx` and the time
3000. -/
def sampleReminder : Reminder := ⟨"reminder_T1_U1", [123, 125], 3000, "pending", 0⟩

/-- An environment in which another client rewrites `reminder_T1_U1` between
the `Get` and the `Update` of `StoreReminderInKV`. -/
def racingEnv : Env :=
  ⟨false, fun _ => false, false, false,
    fun kv => kv.write "reminder_T1_U1" (.json ⟨"reminder_T1_U1", [9], 700, "pending", 0⟩)⟩

/-! ## Heap order -/

/-- The remind time of the entry `pq[i]`. -/
def timeAt (pq : ReminderPriorityQueue) (i : Nat) : Time := (entryAt pq i).RemindTime

/-- The first `n` entries are in heap order: no entry is before its parent,
the entry at `(c - 1) / 2`. -/
def HeapOrdered (pq : ReminderPriorityQueue) (n : Nat) : Prop :=
  ∀ c, 0 < c → c < n → timeAt pq ((c - 1) / 2) ≤ timeAt pq c

/-! ## Sequences of heap calls -/

/-- A call of `container/heap` on the queue. -/
inductive HeapOp where
  | push (x : Reminder)
  | pop
  | remove (i : Nat)
deriving DecidableEq, Repr

/-- The queue after one heap call; `none` when the call panics. -/
def applyHeapOp (pq : ReminderPriorityQueue) : HeapOp → Option ReminderPriorityQueue
  | .push x => some (heapPush pq x)
  | .pop => (heapPop pq).map (·.2)
  | .remove i => (heapRemove pq i).map (·.2)

/-- The queue after a sequence of heap calls; `none` when one of them panics. -/
def runHeapOps : ReminderPriorityQueue → List HeapOp → Option ReminderPriorityQueue
  | pq, [] => some pq
  | pq, op :: ops =>
    match applyHeapOp pq op with
    | none => none
    | some pq1 => runHeapOps pq1 ops

/-- A reminder for `key` at time `t`. -/
def pendingAt (key : String) (t : Time) : Reminder := ⟨key, [], t, "pending", 0⟩

/-! ## Keys in the queue -/

/-- The number of entries of the queue whose `Key` is `key`. -/
def keyCount (pq : ReminderPriorityQueue) (key : String) : Nat :=
  pq.countP (fun x => decide (x.Key = key))

/-- A client with an empty queue whose bucket holds a pending, a completed, an
undecodable and a second pending record. -/
def coldClient : NATSClient :=
  ⟨⟨[("reminder_T1_U1", ⟨.json ⟨"reminder_T1_U1", [1], 300, "pending", 0⟩, 1⟩),
      ("reminder_T2_U1", ⟨.json ⟨"reminder_T2_U1", [2], 100, "completed", 2⟩, 3⟩),
      ("reminder_T3_U1", ⟨.malformed Reminder.zero, 4⟩),
      ("reminder_T4_U1", ⟨.json ⟨"reminder_T4_U1", [4], 200, "pending", 0⟩, 5⟩)], 5⟩,
    [], [], false⟩

/-- A client whose bucket holds a pending reminder under `reminder_T1_U1` that
is also in the queue, next to a reminder of another key. -/
def pendingClient : NATSClient :=
  ⟨⟨[("reminder_T1_U1", ⟨.json ⟨"reminder_T1_U1", [1], 300, "pending", 0⟩, 1⟩)], 1⟩,
    [⟨"reminder_T2_U1", [2], 200, "pending", 0⟩, ⟨"reminder_T1_U1", [1], 300, "pending", 0⟩],
    [], false⟩

/-! ## Create, then cancel -/

/-- The watch loop processes the update that carries the current value of
`key`. -/
def watchCurrent (n : NATSClient) (key : String) : NATSClient :=
  match n.KV.find key with
  | some e => watchKVUpdate n (some (key, e.value))
  | none => n

/-- The client after `StoreReminderInKV` for `key` and the processing of its
watch event. -/
def afterCreate (env : Env) (n : NATSClient) (key : String) (t : Time) (payload : Bytes) :
    NATSClient :=
  watchCurrent (StoreReminderInKV env n key t payload).2 key

/-- The client after the cancel path for `key` has followed the creation:
`CancelTicketReminder` for the reminder id `key`, and then, when `seen`, the
processing of the watch event of the cancel. -/
def afterCancel (env1 env2 : Env) (c : HandlerCtx) (n : NATSClient) (key : String) (t : Time)
    (payload : Bytes) (seen : Bool) : NATSClient :=
  let canceled := (CancelTicketReminder env2 c (afterCreate env1 n key t payload) (some ⟨key⟩)).2
  if seen then watchCurrent canceled key else canceled

/-! ## The mutex-protected sections of the scheduler -/

/-- A section of the scheduler that runs with `pqMutex` held: the removal and
the push of the watch loop (two sections: the mutex is released in between),
`SnoozeReminder` and `CancelReminder` (one section each), and the `heap.Pop`
of the fire loop. -/
inductive SchedulerStep where
  | watchRemove (key : String)
  | watchPush (rawValue : Value)
  | snooze (env : Env) (key : String) (snoozeDuration : Duration)
  | cancel (env : Env) (key : String) (eventData : Bytes) (reminderEntry : Reminder)
  | firePop

/-- The client after one section. -/
def stepScheduler (n : NATSClient) : SchedulerStep → NATSClient
  | .watchRemove key => { n with pq := removeKey n.pq key }
  | .watchPush rawValue =>
    if rawValue.isEmpty then n
    else
      let dec := jsonUnmarshal rawValue
      if !dec.2 then n
      else if dec.1.Status = "pending" then { n with pq := heapPush n.pq dec.1 }
      else n
  | .snooze env key snoozeDuration => (SnoozeReminder env n key snoozeDuration).2
  | .cancel env key eventData reminderEntry =>
    (CancelReminder env n key eventData reminderEntry).2
  | .firePop =>
    match heapPop n.pq with
    | none => { n with exited := true }
    | some r => { n with pq := r.2 }

/-- The client after a sequence of sections. -/
def runScheduler (n : NATSClient) (steps : List SchedulerStep) : NATSClient :=
  steps.foldl stepScheduler n

/-- The client after this run from a cold start on the bucket of
`pendingClient`: recovery pushes the record of `reminder_T1_U1` (time 300); the
watch loop takes up the update that carries this record and removes the entry;
before it pushes, a snooze by 500 writes the record with time 800 and pushes
it; the watch loop then pushes the record of time 300 it holds, and goes on to
process the update of the snooze.  The queue holds two entries for
`reminder_T1_U1`. -/
def duplicatedClient : NATSClient :=
  runScheduler (loadExistingReminders Env.calm { pendingClient with pq := [] })
    [.watchRemove "reminder_T1_U1", .snooze Env.calm "reminder_T1_U1" 500,
     .watchPush (.json ⟨"reminder_T1_U1", [1], 300, "pending", 0⟩),
     .watchRemove "reminder_T1_U1",
     .watchPush (.json ⟨"reminder_T1_U1", [1], 800, "pending", 0⟩)]

/-! ## The ticket consumers (`consumers/`) -/

/-- The struct `data.DLQEvent`. -/
structure DLQEvent where
  EventID : String
  OriginalEvent : String
  Timestamp : String
  Event : TicketEvent
  FailureReason : String
  RetryAttempts : Nat
deriving DecidableEq, Repr

/-- A row of `GetWatchersEmailsAndRoles` as the consumers read it: the email,
and the dynamically typed role, `some s` when it holds the string `s`. -/
structure Watcher where
  Email : String
  Role : Option String
deriving DecidableEq, Repr

/-- A call of `EmailClient.SendEmail`. -/
structure EmailCall where
  recipient : String
  subject : String
  body : String
deriving DecidableEq, Repr

/-- An acknowledgement sent for a message: the `+ACK` of `msg.Ack()` or the
`-NAK` of `msg.Nak()`. -/
inductive AckCall where
  | ack
  | nak
deriving DecidableEq, Repr

/-- The struct `nats.Msg`: subject, data, and the acknowledgements sent for it
so far, in order.  The message counts as acknowledged once one has been sent. -/
structure Msg where
  Subject : String
  Data : Bytes
  acks : List AckCall
deriving DecidableEq, Repr

/-- The call `msg.Ack()`: the acknowledgement is sent, unless the message has
been acknowledged already; `nats.Msg` then sends nothing and returns an error,
which the callers here do not look at. -/
def Msg.Ack (m : Msg) : Msg :=
  if m.acks.isEmpty then { m with acks := m.acks ++ [.ack] } else m

/-- The call `msg.Nak()`: the negative acknowledgement is sent, unless the
message has been acknowledged already. -/
def Msg.Nak (m : Msg) : Msg :=
  if m.acks.isEmpty then { m with acks := m.acks ++ [.nak] } else m

/-- The struct `clients.Clients`: the NATS client (`none` is nil) and the trace
of the calls made on the email client. -/
structure Clients where
  NATSClient : Option NATSClient
  emails : List EmailCall
deriving DecidableEq, Repr

/-- Whether `logger.Fatal` has ended the process. -/
def Clients.exited (cl : Clients) : Bool :=
  match cl.NATSClient with
  | some n => n.exited
  | none => false

/-- What a consumer gets from its surroundings: `json.Unmarshal` on the data of
a message (the struct after the call and whether the error is nil), the rows
`GetWatchersEmailsAndRoles` returns for a ticket id (`none` for an error),
whether `SendEmail` fails for the watcher at a position of the list and its
email, the ULID `GetUlid` returns, the clock, `Time.Format(time.RFC3339)` and
`json.Marshal` on a `DLQEvent`. -/
structure ConsumerEnv where
  unmarshalEvent : Bytes → TicketEvent × Bool
  watchers : String → Option (List Watcher)
  sendFails : Nat → String → Bool
  ulid : Option String
  now : Time
  format : Time → String
  marshalDLQ : DLQEvent → Bytes

/-- The verb `%v` on a `[]string`: the elements between brackets, separated by
spaces. -/
def formatStrings (l : List String) : String := "[" ++ " ".intercalate l ++ "]"

/-- The method `moveToDLQ`, the same in the three consumers; `err` is the
message of the error, `none` for a nil error. -/
def moveToDLQ (env : Env) (ce : ConsumerEnv) (cl : Clients) (msg : Option Msg)
    (event : TicketEvent) (err : Option String) : Clients :=
  let err := match err with
    | none => "unknown failure"
    | some e => e
  match cl.NATSClient with
  | none => cl
  | some n =>
    let originalEvent := match msg with
      | some m => m.Subject
      | none => ""
    let ticketID := if event.Ticket.TicketID ≠ "" then event.Ticket.TicketID else "unknown_ticket"
    match ce.ulid with
    | none => cl
    | some eventId =>
      let dlqEvent : DLQEvent :=
        { EventID := eventId, OriginalEvent := originalEvent,
          Timestamp := ce.format ce.now, Event := event,
          FailureReason := err, RetryAttempts := 5 }
      let eventData := ce.marshalDLQ dlqEvent
      let subject := "crm.dlq." ++ ticketID
      -- a failed publish is only logged here
      { cl with NATSClient := some (PublishEvent env n subject eventData).2 }

/-- The loop `for _, watcher := range watchers` of the three consumers, from
the watcher at position `i` on, with the clients and `failedWatchers` so far;
`skipCustomer` is set for the assigned and the reassigned consumer, whose loop
has the branch `if roleStr == "customer" { continue }`. -/
def notifyWatchers (ce : ConsumerEnv) (skipCustomer : Bool) (subject message : String) :
    Nat → List Watcher → Clients → List String → Clients × List String
  | _, [], cl, failedWatchers => (cl, failedWatchers)
  | i, watcher :: rest, cl, failedWatchers =>
    let roleStr := match watcher.Role with
      | some s => s
      | none => "unknown"
    if skipCustomer && roleStr = "customer" then
      notifyWatchers ce skipCustomer subject message (i + 1) rest cl failedWatchers
    else
      let cl1 := { cl with emails := cl.emails ++ [⟨watcher.Email, subject, message⟩] }
      if ce.sendFails i watcher.Email then
        notifyWatchers ce skipCustomer subject message (i + 1) rest cl1
          (failedWatchers ++ [watcher.Email])
      else notifyWatchers ce skipCustomer subject message (i + 1) rest cl1 failedWatchers

/-- What follows the loop in the three consumers: with failed recipients, the
DLQ and the error; otherwise nil. -/
def finishNotify (env : Env) (ce : ConsumerEnv) (msg : Msg) (event : TicketEvent)
    (r : Clients × List String) : Option GoError × Clients :=
  if r.2.length > 0 then
    let err := "failed to send email to: " ++ formatStrings r.2
    (some (.text err), moveToDLQ env ce r.1 (some msg) event (some err))
  else (none, r.1)

/-- The method `processTicketCreated`. -/
def processTicketCreated (env : Env) (ce : ConsumerEnv) (cl : Clients) (msg : Msg) :
    Option GoError × Clients :=
  let dec := ce.unmarshalEvent msg.Data
  if !dec.2 then (some .unmarshal, cl)
  else
    let event := dec.1
    match ce.watchers event.Ticket.TicketID with
    | none => (some .query, cl)
    | some watchers =>
      let subject := "[Ticket ID: " ++ event.Ticket.TicketID ++ "] Status Update"
      let message := "A new support ticket has been created.\n\nTicket ID: " ++
        event.Ticket.TicketID ++ "\nStatus: " ++ event.Ticket.Status ++ "\nPriority: " ++
        event.Ticket.Priority ++ "."
      finishNotify env ce msg event (notifyWatchers ce false subject message 0 watchers cl [])

/-- The method `processTicketAssigned`. -/
def processTicketAssigned (env : Env) (ce : ConsumerEnv) (cl : Clients) (msg : Msg) :
    Option GoError × Clients :=
  let dec := ce.unmarshalEvent msg.Data
  if !dec.2 then (some .unmarshal, cl)
  else
    let event := dec.1
    match ce.watchers event.Ticket.TicketID with
    | none => (some .query, cl)
    | some watchers =>
      let subject := "[Ticket ID: " ++ event.Ticket.TicketID ++ "] Assignment Update"
      let message := "The ticket with ID " ++ event.Ticket.TicketID ++
        " has been assigned.\n\nStatus: " ++ event.Ticket.Status ++ "\nPriority: " ++
        event.Ticket.Priority ++ "\nAssigned To: " ++ event.Changes.AssignedTo ++ "."
      finishNotify env ce msg event (notifyWatchers ce true subject message 0 watchers cl [])

/-- The method `processTicketReassigned`. -/
def processTicketReassigned (env : Env) (ce : ConsumerEnv) (cl : Clients) (msg : Msg) :
    Option GoError × Clients :=
  let dec := ce.unmarshalEvent msg.Data
  if !dec.2 then (some .unmarshal, cl)
  else
    let event := dec.1
    match ce.watchers event.Ticket.TicketID with
    | none => (some .query, cl)
    | some watchers =>
      let subject := "[Ticket ID: " ++ event.Ticket.TicketID ++ "] Reassignment Update"
      let message := "The ticket with ID " ++ event.Ticket.TicketID ++
        " has been reassigned.\n\nPrevious Assignee: " ++ event.Ticket.AssignedTo ++
        "\nNew Assignee: " ++ event.Changes.AssignedTo ++ "\nStatus: " ++
        event.Ticket.Status ++ "\nPriority: " ++ event.Ticket.Priority ++ "."
      finishNotify env ce msg event (notifyWatchers ce true subject message 0 watchers cl [])

/-- The handler a consumer passes to `QueueSubscribe`, around its processing
function: `Nak` on an error, `Ack` otherwise; nothing more happens once the
process has exited. -/
def consumerHandler (process : Clients → Msg → Option GoError × Clients) (cl : Clients)
    (msg : Msg) : Clients × Msg :=
  let r := process cl msg
  if r.2.exited then (r.2, msg)
  else
    match r.1 with
    | some _ => (r.2, msg.Nak)
    | none => (r.2, msg.Ack)

/-- The callback `QueueSubscribe` registers with `nc.QueueSubscribe`, on one
delivered message: `handler(msg)` and then `msg.Ack()`. -/
def QueueSubscribe (handler : Clients → Msg → Clients × Msg) (cl : Clients) (msg : Msg) :
    Clients × Msg :=
  let r := handler cl msg
  if r.1.exited then r else (r.1, r.2.Ack)

/-- One delivery of a message to the subscription of `StartTicketCreatedConsumer`. -/
def StartTicketCreatedConsumer (env : Env) (ce : ConsumerEnv) (cl : Clients) (msg : Msg) :
    Clients × Msg :=
  QueueSubscribe (consumerHandler (processTicketCreated env ce)) cl msg

/-- One delivery of a message to the subscription of `StartTicketAssignedConsumer`. -/
def StartTicketAssignedConsumer (env : Env) (ce : ConsumerEnv) (cl : Clients) (msg : Msg) :
    Clients × Msg :=
  QueueSubscribe (consumerHandler (processTicketAssigned env ce)) cl msg

/-- One delivery of a message to the subscription of
`StartTicketReassignedConsumer`. -/
def StartTicketReassignedConsumer (env : Env) (ce : ConsumerEnv) (cl : Clients) (msg : Msg) :
    Clients × Msg :=
  QueueSubscribe (consumerHandler (processTicketReassigned env ce)) cl msg

/-- The subscription that `QueueSubscribe` sets up, at work on the messages
published on its subject, in order.  The callback is registered with
`nc.QueueSubscribe`, a plain NATS queue subscription: every published message
is handed to the callback once, and what the callback acknowledges has no
effect on it.  The durable consumer that `CreateOrUpdateConsumer` declares
with `MaxDeliver: 5` is never read from, so no message is delivered again. -/
def deliverPublished (callback : Clients → Msg → Clients × Msg) (cl : Clients)
    (published : List Msg) : Clients :=
  published.foldl (fun c msg => (callback c msg).1) cl

/-- The publishes made on `subject`, among the calls of the NATS client. -/
def publishedOn (cl : Clients) (subject : String) : List Call :=
  match cl.NATSClient with
  | none => []
  | some n => n.calls.filter (fun c =>
      match c with
      | .publish s _ => decide (s = subject)
      | _ => false)

/-- A ticket-created event for ticket `T2`. -/
def sampleEvent : TicketEvent :=
  ⟨"01E", "ticket_created", "t0", ⟨"U1"⟩, ⟨"T2", "open", "high", "t0", "U2"⟩,
    ⟨"", "", []⟩, ⟨"", "U3"⟩⟩

/-- The zero value of `data.TicketEvent`. -/
def TicketEvent.zero : TicketEvent :=
  ⟨"", "", "", ⟨""⟩, ⟨"", "", "", "", ""⟩, ⟨"", "", []⟩, ⟨"", ""⟩⟩

/-- Surroundings of a consumer: the data `[1]` decodes to `sampleEvent` and
nothing else decodes; ticket `T2` has three watchers, an employee, a customer
and one whose role is not a string; the send to `a@x.io` fails. -/
def sampleConsumerEnv : ConsumerEnv :=
  { unmarshalEvent := fun b => if b = [1] then (sampleEvent, true) else (TicketEvent.zero, false),
    watchers := fun _ =>
      some [⟨"a@x.io", some "employee"⟩, ⟨"b@x.io", some "customer"⟩, ⟨"c@x.io", none⟩],
    sendFails := fun _ email => decide (email = "a@x.io"),
    ulid := some "01D",
    now := 1000,
    format := fun _ => "t1",
    marshalDLQ := fun d => [d.RetryAttempts, d.FailureReason.length] }

/-- The surroundings `sampleConsumerEnv`, with every send succeeding. -/
def quietConsumerEnv : ConsumerEnv :=
  { sampleConsumerEnv with sendFails := fun _ _ => false }

/-- The clients of a consumer, nothing sent or published yet. -/
def sampleClients : Clients := ⟨some emptyClient, []⟩

/-- A message on `crm.tickets.created.T2` carrying `sampleEvent`. -/
def sampleMsg : Msg := ⟨"crm.tickets.created.T2", [1], []⟩

/-- An environment in which the JetStream publish fails. -/
def publishDownEnv : Env := ⟨false, fun _ => false, false, true, id⟩

/-- An environment in which the KV writes fail. -/
def writeDownEnv : Env := ⟨false, fun _ => false, true, false, id⟩

/-- An environment in which the KV `Get` fails. -/
def getDownEnv : Env := ⟨false, fun _ => true, false, false, id⟩

/-! ## The two sections of the fire loop -/

/-- The first section of a round of `processReminders` (lock, length check,
`reminder := n.pq[0]`, delay, unlock): the peeked reminder when the queue is not
empty and its delay is not positive. -/
def firePeek (now : Time) (n : NATSClient) : Option Reminder :=
  if n.pq.length = 0 then none
  else
    let reminder := entryAt n.pq 0
    if Sub reminder.RemindTime now ≤ 0 then some reminder else none

/-- How a round of the fire loop ends: without firing, with the panic of
`heap.Pop` on an empty queue, or having removed the entry `popped` from the
heap and called `markReminderCompleted(key)`. -/
inductive FireOutcome where
  | idle (n : NATSClient)
  | panicked (n : NATSClient)
  | fired (key : String) (popped : Reminder) (n : NATSClient)
deriving DecidableEq, Repr

/-- The second section of the round (lock, `heap.Pop`, unlock) and the call
`markReminderCompleted(reminder.Key)` that follows it, for the reminder the
first section peeked. -/
def fireAfterPeek (env : Env) (n : NATSClient) (reminder : Reminder) : FireOutcome :=
  match heapPop n.pq with
  | none => .panicked { n with exited := true }
  | some r => .fired reminder.Key r.1 (markReminderCompleted env { n with pq := r.2 } reminder.Key)

/-- A round of the fire loop with the sections `gap` of the other goroutines
running between its two sections. -/
def fireRoundInterleaved (env : Env) (now : Time) (n : NATSClient) (gap : List SchedulerStep) :
    FireOutcome :=
  match firePeek now n with
  | none => .idle (runScheduler n gap)
  | some reminder => fireAfterPeek env (runScheduler n gap) reminder

/-! ## The mutex and the calls -/

/-- An event of a goroutine: taking `pqMutex`, releasing it, or a call that
leaves the process. -/
inductive MutexEvent where
  | lock
  | unlock
  | call (c : Call)
deriving DecidableEq, Repr

/-- The blocking KV operations: `Get`, `Create`, `Update`, `Put`. -/
def Call.isKV : Call → Bool
  | .kvGet _ => true
  | .kvCreate _ _ => true
  | .kvUpdate _ _ _ => true
  | .kvPut _ _ => true
  | _ => false

/-- The calls a client made since it was `before`. -/
def newCalls (before after : NATSClient) : List Call :=
  after.calls.drop before.calls.length

/-- Whether a KV operation is issued while the mutex is held, `held` telling
whether it is held at the start. -/
def heldAcross : Bool → List MutexEvent → Bool
  | _, [] => false
  | _, .lock :: rest => heldAcross true rest
  | _, .unlock :: rest => heldAcross false rest
  | held, .call c :: rest => (held && c.isKV) || heldAcross held rest

/-- The events of `SnoozeReminder`: `n.pqMutex.Lock()` and
`defer n.pqMutex.Unlock()` are its first two statements, so all its calls fall
between the lock and the unlock. -/
def SnoozeReminderEvents (env : Env) (n : NATSClient) (key : String) (d : Duration) :
    List MutexEvent :=
  [.lock] ++ (newCalls n (SnoozeReminder env n key d).2).map .call ++ [.unlock]

/-- The events of `CancelReminder`, which also starts with `n.pqMutex.Lock()`
and `defer n.pqMutex.Unlock()`. -/
def CancelReminderEvents (env : Env) (n : NATSClient) (key : String) (eventData : Bytes)
    (reminderEntry : Reminder) : List MutexEvent :=
  [.lock] ++ (newCalls n (CancelReminder env n key eventData reminderEntry).2).map .call ++
    [.unlock]

/-- The events of `StoreReminderInKV`, which never takes the mutex. -/
def StoreReminderInKVEvents (env : Env) (n : NATSClient) (key : String) (t : Time)
    (payload : Bytes) : List MutexEvent :=
  (newCalls n (StoreReminderInKV env n key t payload).2).map .call

/-- The events of `markReminderCompleted`, which never takes the mutex. -/
def markReminderCompletedEvents (env : Env) (n : NATSClient) (key : String) :
    List MutexEvent :=
  (newCalls n (markReminderCompleted env n key)).map .call

/-- The events of the body of the loop of `loadExistingReminders` for one key:
the `Get`, and then lock and unlock around the `heap.Push` of a pending
record. -/
def loadExistingReminderEvents (env : Env) (n : NATSClient) (key : String) : List MutexEvent :=
  [.call (.kvGet key)] ++
    match kvGet env n.KV key with
    | none => []
    | some entry =>
      let dec := jsonUnmarshal entry.value
      if !dec.2 then []
      else if dec.1.Status = "pending" then [.lock, .unlock]
      else []

/-- The events of the body of the loop of `watchKVUpdates` for one update: lock
and unlock around the removal, and lock and unlock around the `heap.Push` of a
pending value. -/
def watchKVUpdateEvents : Option (String × Value) → List MutexEvent
  | none => []
  | some (_, rawValue) =>
    [.lock, .unlock] ++
      if rawValue.isEmpty then []
      else
        let dec := jsonUnmarshal rawValue
        if !dec.2 then []
        else if dec.1.Status = "pending" then [.lock, .unlock]
        else []

/-- The events of one round of `processReminders`: lock and unlock around the
peek, and for a due reminder lock and unlock around `heap.Pop`, followed by the
events of `markReminderCompleted`. -/
def processRemindersRoundEvents (env : Env) (now : Time) (n : NATSClient) : List MutexEvent :=
  [.lock, .unlock] ++
    match firePeek now n with
    | none => []
    | some reminder =>
      [.lock, .unlock] ++
        match heapPop n.pq with
        | none => []
        | some r => markReminderCompletedEvents env { n with pq := r.2 } reminder.Key

/-! ## Records stored under their own key -/

/-- Every record of the bucket decodes and has its `Key` field equal to the key
it is stored under. -/
def KeysMatch (kv : KVStore) : Prop :=
  ∀ key e, kv.find key = some e → ∃ r, e.value = .json r ∧ r.Key = key

/-- A client whose bucket and queue hold the pending reminder of
`reminder_T1_U1`, due at 300, and nothing else. -/
def dueClient : NATSClient :=
  ⟨⟨[("reminder_T1_U1", ⟨.json ⟨"reminder_T1_U1", [1], 300, "pending", 0⟩, 1⟩)], 1⟩,
    [⟨"reminder_T1_U1", [1], 300, "pending", 0⟩], [], false⟩

/-- A client whose bucket holds an undecodable value under `reminder_T3_U1`. -/
def malformedClient : NATSClient :=
  ⟨⟨[("reminder_T3_U1", ⟨.malformed ⟨"", [3], 0, "", 0⟩, 4⟩)], 4⟩, [], [], false⟩

/-! # Theorems -/

/-! ## The bucket: reading after a write -/

theorem lookupEntry_upsert_self (l : List (String × KVEntry)) (key : String) (e : KVEntry) :
    lookupEntry (upsert l key e) key = some e := by
  induction l with
  | nil => simp [upsert, lookupEntry]
  | cons p rest ih =>
    obtain ⟨k, x⟩ := p
    by_cases h : k = key
    · simp [upsert, lookupEntry, h]
    · simp [upsert, lookupEntry, h, ih]

theorem lookupEntry_upsert_other (l : List (String × KVEntry)) (key other : String)
    (e : KVEntry) (h : other ≠ key) :
    lookupEntry (upsert l key e) other = lookupEntry l other := by
  induction l with
  | nil => simp [upsert, lookupEntry, Ne.symm h]
  | cons p rest ih =>
    obtain ⟨k, x⟩ := p
    by_cases hk : k = key
    · subst hk
      simp [upsert, lookupEntry, Ne.symm h]
    · by_cases ho : k = other
      · subst ho
        simp [upsert, lookupEntry, hk]
      · simp [upsert, lookupEntry, hk, ho, ih]

theorem find_write_self (kv : KVStore) (key : String) (v : Value) :
    (kv.write key v).find key = some ⟨v, kv.seq + 1⟩ := by
  simp [KVStore.find, KVStore.write, lookupEntry_upsert_self]

theorem find_write_other (kv : KVStore) (key other : String) (v : Value) (h : other ≠ key) :
    (kv.write key v).find other = kv.find other := by
  simp [KVStore.find, KVStore.write, lookupEntry_upsert_other _ _ _ _ h]

/-! ## The encoder -/

/-- What `json.Marshal` returns when it returns a document. -/
theorem jsonMarshal_eq_some (r : Reminder) (v : Value) (h : jsonMarshal r = some v) :
    ∃ stored, jsonRawMessage r.EventData = some stored ∧ yearInRange r.RemindTime = true ∧
      v = .json { r with EventData := stored } := by
  unfold jsonMarshal at h
  cases ht : yearInRange r.RemindTime with
  | false => simp [ht] at h
  | true =>
    cases hp : jsonRawMessage r.EventData with
    | none => simp [ht, hp] at h
    | some stored =>
      simp only [ht, hp, Bool.not_true, Bool.false_eq_true, if_false, Option.some.injEq] at h
      exact ⟨stored, rfl, rfl, h.symm⟩

/-- A reminder encodes when its payload and its time do. -/
theorem jsonMarshal_of (r : Reminder) (stored : Bytes)
    (hp : jsonRawMessage r.EventData = some stored) (ht : yearInRange r.RemindTime = true) :
    jsonMarshal r = some (.json { r with EventData := stored }) := by
  simp [jsonMarshal, hp, ht]

/-- A reminder does not encode when its payload or its time does not. -/
theorem jsonMarshal_eq_none (r : Reminder)
    (h : jsonRawMessage r.EventData = none ∨ yearInRange r.RemindTime = false) :
    jsonMarshal r = none := by
  unfold jsonMarshal
  cases ht : yearInRange r.RemindTime with
  | false => simp
  | true =>
    rcases h with h | h
    · simp [h]
    · rw [ht] at h; cases h

/-- A payload that is a JSON document in compact form is encoded as it is. -/
theorem jsonRawMessage_compact (b : Bytes) (hne : b ≠ []) (hv : validJSON b = true)
    (hc : compactJSON b = b) : jsonRawMessage b = some b := by
  simp [jsonRawMessage, hne, hv, hc]

/-- The bucket after `StoreReminderInKV`: as the other clients left it, or
with the new record written over that. -/
theorem KV_StoreReminderInKV (env : Env) (n : NATSClient) (key : String) (t : Time)
    (payload : Bytes) :
    (StoreReminderInKV env n key t payload).2.KV = env.concurrent n.KV ∨
    ∃ stored, jsonRawMessage payload = some stored ∧
      (StoreReminderInKV env n key t payload).2.KV =
        (env.concurrent n.KV).write key (.json ⟨key, stored, t, "pending", 0⟩) := by
  unfold StoreReminderInKV
  simp only []
  cases hm : jsonMarshal ⟨key, payload, t, "pending", 0⟩ with
  | none => left; rfl
  | some v =>
    obtain ⟨stored, hp, -, hv⟩ := jsonMarshal_eq_some _ _ hm
    subst hv
    simp only [NATSClient.record]
    cases hg : kvGet env n.KV key with
    | none =>
      simp only []
      cases hc : kvCreate env (env.concurrent n.KV) key
          (.json ⟨key, stored, t, "pending", 0⟩) with
      | none => left; rfl
      | some kv1 =>
        right
        refine ⟨stored, hp, ?_⟩
        simp only []
        unfold kvCreate at hc
        split at hc
        · cases hc
        · split at hc
          · cases hc
          · cases hc; rfl
    | some entry =>
      simp only []
      cases hc : kvUpdate env (env.concurrent n.KV) key
          (.json ⟨key, stored, t, "pending", 0⟩) entry.revision with
      | none => left; rfl
      | some kv1 =>
        right
        refine ⟨stored, hp, ?_⟩
        simp only []
        unfold kvUpdate at hc
        split at hc
        · cases hc
        · split at hc
          · split at hc
            · cases hc; rfl
            · cases hc
          · split at hc
            · cases hc; rfl
            · cases hc

/-! ## C1: the fire operation on a missing or non-pending record -/

/-- C1, as stated, fails: the record under `reminder_T1_U1` has status
`canceled`, and `markReminderCompleted` still makes a KV `Put` (of a
`completed` record) and publishes the event. -/
theorem markReminderCompleted_fires_canceled :
    (canceledClient.KV.find "reminder_T1_U1").map
        (fun e => (jsonUnmarshal e.value).1.Status) = some "canceled" ∧
    (markReminderCompleted Env.calm canceledClient "reminder_T1_U1").calls =
      [.kvGet "reminder_T1_U1",
       .kvPut "reminder_T1_U1" (.json ⟨"reminder_T1_U1", [1, 2], 100, "completed", 1⟩),
       .publish "crm.tickets.reminder.T1_U1" [1, 2]] := by
  decide

/-- C1, amended: when the KV `Get` for the key fails (the record is absent),
`markReminderCompleted` drops the reminder: the only call it makes is that
`Get`, so no `Put` and no publish, and the bucket and the queue are as
before. -/
theorem markReminderCompleted_absent_drops (env : Env) (n : NATSClient) (key : String)
    (h : kvGet env n.KV key = none) :
    markReminderCompleted env n key = n.record (.kvGet key) ∧
    (markReminderCompleted env n key).calls = n.calls ++ [.kvGet key] ∧
    (markReminderCompleted env n key).KV = n.KV ∧
    (markReminderCompleted env n key).pq = n.pq := by
  simp [markReminderCompleted, h, NATSClient.record]

theorem markReminderCompleted_absent_drops_witness :
    kvGet Env.calm canceledClient.KV "reminder_T9_U9" = none ∧
    (markReminderCompleted Env.calm canceledClient "reminder_T9_U9").calls =
      canceledClient.calls ++ [.kvGet "reminder_T9_U9"] :=
  ⟨by decide,
   (markReminderCompleted_absent_drops Env.calm canceledClient "reminder_T9_U9"
      (by decide)).2.1⟩

theorem kvGet_eq_some {env : Env} {kv : KVStore} {key : String} {e : KVEntry}
    (h : kvGet env kv key = some e) : kv.find key = some e := by
  unfold kvGet at h
  split at h
  · cases h
  · exact h

theorem kvPut_eq_some {env : Env} {kv kv1 : KVStore} {key : String} {v : Value}
    (h : kvPut env kv key v = some kv1) : kv1 = kv.write key v := by
  unfold kvPut at h
  split at h
  · cases h
  · exact (Option.some.inj h).symm

/-- The status of the record under `key` in the bucket, read through
`json.Unmarshal`. -/
theorem find_write_status (kv : KVStore) (key other : String) (r : Reminder) (e : KVEntry)
    (s : String) (h : kv.find other = some e) (hs : (jsonUnmarshal e.value).1.Status = s)
    (hr : other = key → r.Status = s) :
    ∃ e1, (kv.write key (.json r)).find other = some e1 ∧
      (jsonUnmarshal e1.value).1.Status = s := by
  by_cases hk : other = key
  · subst hk
    exact ⟨_, find_write_self kv other _, by simpa [jsonUnmarshal] using hr rfl⟩
  · exact ⟨e, by rw [find_write_other _ _ _ _ hk]; exact h, hs⟩

/-! ## C2: terminal statuses -/

/-- C2, as stated, fails: the record under `reminder_T1_U1` is `completed`,
and after `StoreReminderInKV` for that key it is `pending`. -/
theorem StoreReminderInKV_resurrects_completed :
    (completedClient.KV.find "reminder_T1_U1").map
        (fun e => (jsonUnmarshal e.value).1.Status) = some "completed" ∧
    (StoreReminderInKV Env.calm completedClient "reminder_T1_U1" 500 [55]).1 = none ∧
    ((StoreReminderInKV Env.calm completedClient "reminder_T1_U1" 500 [55]).2.KV.find
        "reminder_T1_U1").map (fun e => (jsonUnmarshal e.value).1.Status) = some "pending" := by
  decide

/-- C2, amended: for a record stored under `other` with status `s`,
`SnoozeReminder` leaves the status `s` whatever it is; `markReminderCompleted`
leaves a `completed` record `completed`; `CancelReminder` leaves a `canceled`
record `canceled`; and each of the four operations on a key different from
`other` leaves the record under `other` as it was (for `StoreReminderInKV`: as
the other clients of the bucket left it). -/
theorem terminal_status_kept (env : Env) (n : NATSClient) (key other : String) (e : KVEntry)
    (s : String) (h : n.KV.find other = some e)
    (hs : (jsonUnmarshal e.value).1.Status = s) :
    (∀ d, ∃ e1, (SnoozeReminder env n key d).2.KV.find other = some e1 ∧
        (jsonUnmarshal e1.value).1.Status = s) ∧
    (s = "completed" → ∃ e1, (markReminderCompleted env n key).KV.find other = some e1 ∧
        (jsonUnmarshal e1.value).1.Status = s) ∧
    (s = "canceled" → ∀ eventData r,
        ∃ e1, (CancelReminder env n key eventData r).2.KV.find other = some e1 ∧
          (jsonUnmarshal e1.value).1.Status = s) ∧
    (other ≠ key →
      (∀ d, (SnoozeReminder env n key d).2.KV.find other = some e) ∧
      (markReminderCompleted env n key).KV.find other = some e ∧
      (∀ eventData r, (CancelReminder env n key eventData r).2.KV.find other = some e) ∧
      (∀ t payload, (StoreReminderInKV env n key t payload).2.KV.find other =
        (env.concurrent n.KV).find other)) := by
  refine ⟨?_, ?_, ?_, ?_⟩
  · intro d
    unfold SnoozeReminder
    cases hg : kvGet env n.KV key with
    | none => exact ⟨e, h, hs⟩
    | some entry =>
      have hf := kvGet_eq_some hg
      cases hd : (jsonUnmarshal entry.value).2 with
      | false => simpa [hd, NATSClient.record] using ⟨e, h, hs⟩
      | true =>
        cases hp : kvPut env n.KV key
            (.json { (jsonUnmarshal entry.value).1 with
              RemindTime := (jsonUnmarshal entry.value).1.RemindTime + d }) with
        | none => simpa [hd, hp, jsonMarshalStored, NATSClient.record] using ⟨e, h, hs⟩
        | some kv =>
          simp only [hd, hp, jsonMarshalStored, NATSClient.record]
          simp only [Bool.not_true, Bool.false_eq_true, if_false]
          rw [kvPut_eq_some hp]
          apply find_write_status _ _ _ _ _ _ h hs
          intro hk
          subst hk
          rw [hf] at h
          cases h
          exact hs
  · intro hc
    unfold markReminderCompleted
    cases hg : kvGet env n.KV key with
    | none => exact ⟨e, h, hs⟩
    | some entry =>
      cases hp : kvPut env n.KV key
          (.json { (jsonUnmarshal entry.value).1 with
            Status := "completed", Revision := entry.revision }) with
      | none => simpa [hp, jsonMarshalStored, NATSClient.record] using ⟨e, h, hs⟩
      | some kv =>
        simp only [hp, jsonMarshalStored, NATSClient.record, triggerReminder, PublishEvent]
        rw [kvPut_eq_some hp]
        have := find_write_status n.KV key other
          { (jsonUnmarshal entry.value).1 with
            Status := "completed", Revision := entry.revision } e s h hs (fun _ => hc.symm)
        split <;> simpa using this
  · intro hc eventData r
    unfold CancelReminder
    cases hp : kvPut env n.KV key (.json { r with Status := "canceled" }) with
    | none => simpa [hp, jsonMarshalStored, NATSClient.record] using ⟨e, h, hs⟩
    | some kv =>
      simp only [hp, jsonMarshalStored, NATSClient.record]
      rw [kvPut_eq_some hp]
      exact find_write_status n.KV key other _ e s h hs (fun _ => hc.symm)
  · intro hk
    refine ⟨?_, ?_, ?_, ?_⟩
    · intro d
      unfold SnoozeReminder
      cases hg : kvGet env n.KV key with
      | none => exact h
      | some entry =>
        cases hd : (jsonUnmarshal entry.value).2 with
        | false => simpa [hd, NATSClient.record] using h
        | true =>
          cases hp : kvPut env n.KV key
              (.json { (jsonUnmarshal entry.value).1 with
                RemindTime := (jsonUnmarshal entry.value).1.RemindTime + d }) with
          | none => simpa [hd, hp, jsonMarshalStored, NATSClient.record] using h
          | some kv =>
            simp only [hd, hp, jsonMarshalStored, NATSClient.record]
            simp only [Bool.not_true, Bool.false_eq_true, if_false]
            rw [kvPut_eq_some hp, find_write_other _ _ _ _ hk]
            exact h
    · unfold markReminderCompleted
      cases hg : kvGet env n.KV key with
      | none => exact h
      | some entry =>
        cases hp : kvPut env n.KV key
            (.json { (jsonUnmarshal entry.value).1 with
              Status := "completed", Revision := entry.revision }) with
        | none => simpa [hp, jsonMarshalStored, NATSClient.record] using h
        | some kv =>
          simp only [hp, jsonMarshalStored, NATSClient.record, triggerReminder, PublishEvent]
          rw [kvPut_eq_some hp]
          have := find_write_other n.KV key other
            (.json { (jsonUnmarshal entry.value).1 with
              Status := "completed", Revision := entry.revision }) hk
          split <;> simpa [this] using h
    · intro eventData r
      unfold CancelReminder
      cases hp : kvPut env n.KV key (.json { r with Status := "canceled" }) with
      | none => simpa [hp, jsonMarshalStored, NATSClient.record] using h
      | some kv =>
        simp only [hp, jsonMarshalStored, NATSClient.record]
        rw [kvPut_eq_some hp, find_write_other _ _ _ _ hk]
        exact h
    · intro t payload
      rcases KV_StoreReminderInKV env n key t payload with hkv | ⟨stored, -, hkv⟩
      · rw [hkv]
      · rw [hkv]
        exact find_write_other _ _ _ _ hk

theorem terminal_status_kept_witness :
    ∃ e1, (markReminderCompleted Env.calm completedClient "reminder_T1_U1").KV.find
        "reminder_T1_U1" = some e1 ∧ (jsonUnmarshal e1.value).1.Status = "completed" :=
  (terminal_status_kept Env.calm completedClient "reminder_T1_U1" "reminder_T1_U1"
    ⟨.json ⟨"reminder_T1_U1", [1, 2], 100, "completed", 1⟩, 2⟩ "completed"
    (by decide) (by decide)).2.1 rfl

/-! ## C3: the boundary of the time check of `SetTicketReminder` -/

/-- C3 at the boundary: with the clock reading 1000, a request whose
`reminderAt` is exactly 1000 is not rejected: the handler answers with success
and the reminder is stored as pending; only a time strictly before the clock
reading (999) is answered with the bad-request error, nothing being stored. -/
theorem SetTicketReminder_accepts_now :
    sampleCtx.now = 1000 ∧
    (SetTicketReminder Env.calm sampleCtx emptyClient (some ⟨1000, "", []⟩)).1 =
      .success "Reminder set successfully" ∧
    (SetTicketReminder Env.calm sampleCtx emptyClient (some ⟨1000, "", []⟩)).2.KV.find
      "reminder_T1_U1" = some ⟨.json ⟨"reminder_T1_U1", [123, 125], 1000, "pending", 0⟩, 1⟩ ∧
    SetTicketReminder Env.calm sampleCtx emptyClient (some ⟨999, "", []⟩) =
      (.badRequest "reminder time must be in the future", emptyClient) := by
  decide

/-! ## C4: the subject a reminder fires on -/

/-- C4 on `reminder_T1_U1`: `SetTicketReminder` for ticket `T1` and user `U1`
stores the reminder under `reminder_T1_U1`; once the watch loop has pushed it
and its time has come, the fire loop fires that key, and the event is
published on `crm.tickets.reminder.T1_U1`, not on `crm.tickets.reminder.T1`. -/
theorem fires_on_subject_with_user :
    (SetTicketReminder Env.calm sampleCtx emptyClient (some ⟨3000, "", []⟩)).2.KV.find
      "reminder_T1_U1" = some ⟨.json sampleReminder, 1⟩ ∧
    (processReminders Env.calm [3000]
      (watchKVUpdate (SetTicketReminder Env.calm sampleCtx emptyClient (some ⟨3000, "", []⟩)).2
        (some ("reminder_T1_U1", .json sampleReminder)))).1 = ["reminder_T1_U1"] ∧
    (processReminders Env.calm [3000]
      (watchKVUpdate (SetTicketReminder Env.calm sampleCtx emptyClient (some ⟨3000, "", []⟩)).2
        (some ("reminder_T1_U1", .json sampleReminder)))).2.calls =
      [.kvGet "reminder_T1_U1",
       .kvCreate "reminder_T1_U1" (.json sampleReminder),
       .kvGet "reminder_T1_U1",
       .kvPut "reminder_T1_U1" (.json ⟨"reminder_T1_U1", [123, 125], 3000, "completed", 1⟩),
       .publish "crm.tickets.reminder.T1_U1" [123, 125]] ∧
    "crm.tickets.reminder.T1_U1" ≠ "crm.tickets.reminder.T1" := by
  decide

/-! ## C7: the status `SnoozeReminder` writes -/

/-- C7, as stated, fails: the record under `reminder_T1_U1` is `completed`,
`SnoozeReminder` succeeds on it, and the record it writes is `completed`, not
`pending`. -/
theorem SnoozeReminder_writes_completed :
    (SnoozeReminder Env.calm completedClient "reminder_T1_U1" 5).1 = none ∧
    (SnoozeReminder Env.calm completedClient "reminder_T1_U1" 5).2.calls =
      [.kvGet "reminder_T1_U1",
       .kvPut "reminder_T1_U1" (.json ⟨"reminder_T1_U1", [1, 2], 105, "completed", 1⟩)] ∧
    (SnoozeReminder Env.calm completedClient "reminder_T1_U1" 5).2.KV.find "reminder_T1_U1" =
      some ⟨.json ⟨"reminder_T1_U1", [1, 2], 105, "completed", 1⟩, 3⟩ := by
  decide

/-- C7, amended: the record that a successful `SnoozeReminder(key, d)` writes
to KV has the status of the record it read, whatever that status is: it is
`pending` exactly when the prior record was. -/
theorem SnoozeReminder_keeps_status (env : Env) (n : NATSClient) (key : String) (d : Duration)
    (r : Reminder) (rev : Nat) (h : n.KV.find key = some ⟨.json r, rev⟩)
    (hok : (SnoozeReminder env n key d).1 = none) :
    ∃ w : Reminder,
      (SnoozeReminder env n key d).2.calls = n.calls ++ [.kvGet key, .kvPut key (.json w)] ∧
      (SnoozeReminder env n key d).2.KV.find key = some ⟨.json w, n.KV.seq + 1⟩ ∧
      w.Status = r.Status := by
  unfold SnoozeReminder at hok ⊢
  cases hg : kvGet env n.KV key with
  | none => simp [hg] at hok
  | some entry =>
    have hf := kvGet_eq_some hg
    rw [h] at hf
    cases hf
    cases hp : kvPut env n.KV key (.json { r with RemindTime := r.RemindTime + d }) with
    | none => simp [hg, hp, jsonUnmarshal, jsonMarshalStored] at hok
    | some kv =>
      refine ⟨{ r with RemindTime := r.RemindTime + d }, ?_, ?_, rfl⟩
      · simp [hp, jsonUnmarshal, jsonMarshalStored, NATSClient.record]
      · simp only [hp, jsonUnmarshal, jsonMarshalStored, NATSClient.record]
        simp only [Bool.not_true, Bool.false_eq_true, if_false]
        rw [kvPut_eq_some hp]
        exact find_write_self _ _ _

theorem SnoozeReminder_keeps_status_witness :
    ∃ w : Reminder,
      (SnoozeReminder Env.calm canceledClient "reminder_T1_U1" 5).2.calls =
        canceledClient.calls ++
          [.kvGet "reminder_T1_U1", .kvPut "reminder_T1_U1" (.json w)] ∧
      (SnoozeReminder Env.calm canceledClient "reminder_T1_U1" 5).2.KV.find "reminder_T1_U1" =
        some ⟨.json w, canceledClient.KV.seq + 1⟩ ∧
      w.Status = "canceled" :=
  SnoozeReminder_keeps_status Env.calm canceledClient "reminder_T1_U1" 5
    ⟨"reminder_T1_U1", [1, 2], 100, "canceled", 0⟩ 1 (by decide) (by decide)

/-! ## C9: `StoreReminderInKV` -/

/-- C9, as stated, fails: the payload `[7]` is not a JSON document, and
`StoreReminderInKV` returns the error of `json.Marshal` for it without any KV
call, so no record is written; the same happens for a time in the year 10000.
The payload ` 7` (a space, then `7`) is a JSON document and is written in its
compact form `7`, and an empty payload is written as `null`: the `EventData`
of the record is not the payload. -/
theorem StoreReminderInKV_rejects_payload :
    StoreReminderInKV Env.calm completedClient "reminder_T1_U1" 500 [7] =
      (some .marshal, completedClient) ∧
    StoreReminderInKV Env.calm completedClient "reminder_T1_U1" 315537897600000000000 [55] =
      (some .marshal, completedClient) ∧
    (StoreReminderInKV Env.calm completedClient "reminder_T1_U1" 500 [32, 55]).2.KV.find
      "reminder_T1_U1" = some ⟨.json ⟨"reminder_T1_U1", [55], 500, "pending", 0⟩, 3⟩ ∧
    (StoreReminderInKV Env.calm completedClient "reminder_T1_U1" 500 []).2.KV.find
      "reminder_T1_U1" =
      some ⟨.json ⟨"reminder_T1_U1", [110, 117, 108, 108], 500, "pending", 0⟩, 3⟩ := by
  decide

/-- C9, amended: for a payload that `json.Marshal` encodes as `stored` and a
time whose year is in 0..9999, `StoreReminderInKV(key, t, payload)` makes a
`Get` and then writes the record `(key, stored, t, pending)`, by `Create` when
the `Get` found no entry and otherwise by `Update` with the revision the `Get`
returned.  When it returns nil the bucket holds that pending record under
`key`, whatever was there before; when it returns an error the bucket is as it
was at the time of the write.  It returns nil when no call fails and no other
client has touched the key in between, and an error when the revision has
moved on.  A payload that is a JSON document in compact form, as `json.Marshal`
produces it, is encoded as itself.  For a payload that is not a JSON document
and for a time whose year is outside 0..9999 the method returns the error of
`json.Marshal` and makes no KV call. -/
theorem StoreReminderInKV_spec (env : Env) (n : NATSClient) (key : String) (t : Time)
    (payload : Bytes) :
    (∀ stored, jsonRawMessage payload = some stored → yearInRange t = true →
      (StoreReminderInKV env n key t payload).2.calls =
        n.calls ++ [.kvGet key,
          match kvGet env n.KV key with
          | none => .kvCreate key (.json ⟨key, stored, t, "pending", 0⟩)
          | some e => .kvUpdate key (.json ⟨key, stored, t, "pending", 0⟩) e.revision] ∧
      ((StoreReminderInKV env n key t payload).1 = none →
        (StoreReminderInKV env n key t payload).2.KV.find key =
          some ⟨.json ⟨key, stored, t, "pending", 0⟩, (env.concurrent n.KV).seq + 1⟩) ∧
      ((StoreReminderInKV env n key t payload).1 ≠ none →
        (StoreReminderInKV env n key t payload).2.KV = env.concurrent n.KV) ∧
      (env.getFails key = false → env.writeFails = false →
        (env.concurrent n.KV).find key = n.KV.find key →
        (StoreReminderInKV env n key t payload).1 = none) ∧
      (∀ e e1, kvGet env n.KV key = some e → (env.concurrent n.KV).find key = some e1 →
        e1.revision ≠ e.revision →
        (StoreReminderInKV env n key t payload).1 = some .kv)) ∧
    (payload ≠ [] → validJSON payload = true → compactJSON payload = payload →
      jsonRawMessage payload = some payload) ∧
    (jsonRawMessage payload = none ∨ yearInRange t = false →
      StoreReminderInKV env n key t payload =
        (some .marshal, { n with KV := env.concurrent n.KV })) := by
  refine ⟨?_, jsonRawMessage_compact payload, ?_⟩
  · intro stored hp ht
    have hm : jsonMarshal ⟨key, payload, t, "pending", 0⟩ =
        some (.json ⟨key, stored, t, "pending", 0⟩) := jsonMarshal_of _ stored hp ht
    unfold StoreReminderInKV
    simp only [hm, NATSClient.record]
    cases hg : kvGet env n.KV key with
    | none =>
      simp only []
      cases hc : kvCreate env (env.concurrent n.KV) key
          (.json ⟨key, stored, t, "pending", 0⟩) with
      | none =>
        refine ⟨by simp, by simp, by simp, ?_, by simp⟩
        intro h1 h2 h3
        simp [kvCreate, h2, h3] at hc
        simp [kvGet, h1] at hg
        simp [hg] at hc
      | some kv1 =>
        refine ⟨by simp, ?_, by simp, by simp, by simp⟩
        intro _
        unfold kvCreate at hc
        split at hc
        · cases hc
        · split at hc
          · cases hc
          · cases hc
            exact find_write_self _ _ _
    | some entry =>
      simp only []
      cases hc : kvUpdate env (env.concurrent n.KV) key
          (.json ⟨key, stored, t, "pending", 0⟩) entry.revision with
      | none =>
        refine ⟨by simp, by simp, by simp, ?_, by simp⟩
        intro h1 h2 h3
        have hf := kvGet_eq_some hg
        simp [kvUpdate, h2, h3, hf] at hc
      | some kv1 =>
        refine ⟨by simp, ?_, by simp, by simp, ?_⟩
        · intro _
          unfold kvUpdate at hc
          split at hc
          · cases hc
          · split at hc
            · split at hc
              · cases hc
                exact find_write_self _ _ _
              · cases hc
            · split at hc
              · cases hc
                exact find_write_self _ _ _
              · cases hc
        · intro e e1 he he1 hne
          cases he
          unfold kvUpdate at hc
          split at hc
          · cases hc
          · simp [he1, hne] at hc
  · intro h
    have hm : jsonMarshal ⟨key, payload, t, "pending", 0⟩ = none := jsonMarshal_eq_none _ h
    unfold StoreReminderInKV
    simp only [hm]

theorem StoreReminderInKV_spec_witness :
    (StoreReminderInKV Env.calm completedClient "reminder_T1_U1" 500 [123, 125]).2.KV.find
        "reminder_T1_U1" =
      some ⟨.json ⟨"reminder_T1_U1", [123, 125], 500, "pending", 0⟩, 3⟩ ∧
    (StoreReminderInKV racingEnv completedClient "reminder_T1_U1" 500 [123, 125]).1 =
      some .kv ∧
    (StoreReminderInKV racingEnv completedClient "reminder_T1_U1" 500 [123, 125]).2.KV =
      racingEnv.concurrent completedClient.KV ∧
    StoreReminderInKV Env.calm completedClient "reminder_T1_U1" 500 [123] =
      (some .marshal, completedClient) :=
  ⟨((StoreReminderInKV_spec Env.calm completedClient "reminder_T1_U1" 500 [123, 125]).1
      [123, 125] (by decide) (by decide)).2.1 (by decide),
   ((StoreReminderInKV_spec racingEnv completedClient "reminder_T1_U1" 500 [123, 125]).1
      [123, 125] (by decide) (by decide)).2.2.2.2
      ⟨.json ⟨"reminder_T1_U1", [1, 2], 100, "completed", 1⟩, 2⟩
      ⟨.json ⟨"reminder_T1_U1", [9], 700, "pending", 0⟩, 3⟩ (by decide) (by decide)
      (by decide),
   ((StoreReminderInKV_spec racingEnv completedClient "reminder_T1_U1" 500 [123, 125]).1
      [123, 125] (by decide) (by decide)).2.2.1 (by decide),
   (StoreReminderInKV_spec Env.calm completedClient "reminder_T1_U1" 500 [123]).2.2
      (by decide)⟩

theorem length_Swap (pq : ReminderPriorityQueue) (i j : Nat) :
    (Swap pq i j).length = pq.length := by
  simp [Swap]

theorem entryAt_eq_getElem (pq : ReminderPriorityQueue) (i : Nat) (h : i < pq.length) :
    entryAt pq i = pq[i] := by
  simp [entryAt, List.getD_eq_getElem?_getD, List.getElem?_eq_getElem h]

theorem entryAt_Swap (pq : ReminderPriorityQueue) (i j c : Nat) (hi : i < pq.length)
    (hj : j < pq.length) :
    entryAt (Swap pq i j) c =
      if c = j then entryAt pq i else if c = i then entryAt pq j else entryAt pq c := by
  unfold Swap
  simp only [entryAt, List.getD_eq_getElem?_getD, List.getElem?_set, List.length_set]
  by_cases h1 : j = c
  · subst h1
    simp [hj]
  · by_cases h2 : i = c
    · subst h2
      simp [h1, hi, Ne.symm h1]
    · simp [h1, h2, Ne.symm h1, Ne.symm h2]

theorem Swap_perm (pq : ReminderPriorityQueue) (i j : Nat) (hi : i < pq.length)
    (hj : j < pq.length) : (Swap pq i j).Perm pq := by
  rw [List.perm_iff_count]
  intro a
  unfold Swap
  rw [List.count_set _ _ _ _ (by simpa using hj), List.count_set _ _ _ _ hi]
  rw [entryAt_eq_getElem _ _ hi, entryAt_eq_getElem _ _ hj]
  simp only [List.getElem_set]
  have h1 : (if (pq[i] == a) = true then 1 else 0) ≤ pq.count a := by
    split
    · rename_i h
      have : a = pq[i] := by simpa using (beq_iff_eq.mp h).symm
      rw [this]
      exact List.count_pos_iff.mpr (List.getElem_mem _)
    · omega
  have h2 : (if (pq[j] == a) = true then 1 else 0) ≤ pq.count a := by
    split
    · rename_i h
      have : a = pq[j] := by simpa using (beq_iff_eq.mp h).symm
      rw [this]
      exact List.count_pos_iff.mpr (List.getElem_mem _)
    · omega
  by_cases hij : i = j
  · subst hij
    simp only [if_true]
    omega
  · simp only [hij, if_false]
    omega

theorem timeAt_Swap (pq : ReminderPriorityQueue) (i j c : Nat) (hi : i < pq.length)
    (hj : j < pq.length) :
    timeAt (Swap pq i j) c =
      if c = j then timeAt pq i else if c = i then timeAt pq j else timeAt pq c := by
  unfold timeAt
  rw [entryAt_Swap pq i j c hi hj]
  split
  · rfl
  · split <;> rfl

theorem Less_iff (pq : ReminderPriorityQueue) (i j : Nat) :
    Less pq i j = true ↔ timeAt pq i < timeAt pq j := by
  simp [Less, timeAt]

/-! ### `heap.up` -/

theorem length_upLoop (fuel : Nat) (pq : ReminderPriorityQueue) (j : Nat) :
    (upLoop fuel pq j).length = pq.length := by
  induction fuel generalizing pq j with
  | zero => rfl
  | succ fuel ih =>
    unfold upLoop
    simp only []
    split
    · rfl
    · rw [ih, length_Swap]

theorem upLoop_perm (fuel : Nat) (pq : ReminderPriorityQueue) (j : Nat) (hj : j < pq.length) :
    (upLoop fuel pq j).Perm pq := by
  induction fuel generalizing pq j with
  | zero => exact List.Perm.refl _
  | succ fuel ih =>
    unfold upLoop
    simp only []
    split
    · exact List.Perm.refl _
    · have hi : (j - 1) / 2 < pq.length := by omega
      exact (ih _ _ (by rw [length_Swap]; exact hi)).trans (Swap_perm pq _ _ hi hj)

theorem upLoop_frame (fuel : Nat) (pq : ReminderPriorityQueue) (j m : Nat) (hj : j < pq.length)
    (hm : j < m) : entryAt (upLoop fuel pq j) m = entryAt pq m := by
  induction fuel generalizing pq j with
  | zero => rfl
  | succ fuel ih =>
    unfold upLoop
    simp only []
    split
    · rfl
    · have hi : (j - 1) / 2 < pq.length := by omega
      rw [ih _ _ (by rw [length_Swap]; exact hi) (by omega), entryAt_Swap pq _ _ _ hi hj]
      rw [if_neg (by omega), if_neg (by omega)]

theorem upLoop_ordered (fuel : Nat) (pq : ReminderPriorityQueue) (j n : Nat) (hf : j ≤ fuel)
    (hj : j < n) (hn : n ≤ pq.length)
    (ha : ∀ c, 0 < c → c < n → c ≠ j → timeAt pq ((c - 1) / 2) ≤ timeAt pq c)
    (hb : ∀ c, 0 < c → c < n → (c - 1) / 2 = j → 0 < j →
      timeAt pq ((j - 1) / 2) ≤ timeAt pq c) :
    HeapOrdered (upLoop fuel pq j) n := by
  induction fuel generalizing pq j with
  | zero =>
    intro c hc hcn
    exact ha c hc hcn (by omega)
  | succ fuel ih =>
    unfold upLoop
    simp only []
    split
    · rename_i hstop
      intro c hc hcn
      by_cases hcj : c = j
      · subst hcj
        rcases Bool.or_eq_true _ _ |>.mp hstop with h | h
        · have : (c - 1) / 2 = c := by simpa using h
          omega
        · have hl : ¬ (timeAt pq c < timeAt pq ((c - 1) / 2)) := by
            rw [← Less_iff]
            simpa using h
          exact not_lt.mp hl
      · exact ha c hc hcn hcj
    · rename_i hgo
      have hgo2 : ¬ ((j - 1) / 2 = j) ∧ Less pq j ((j - 1) / 2) = true := by
        simpa using hgo
      obtain ⟨hne, hless⟩ := hgo2
      rw [Less_iff] at hless
      have hj0 : 0 < j := by omega
      have hjl : j < pq.length := by omega
      have hil : (j - 1) / 2 < pq.length := by omega
      apply ih
      · omega
      · omega
      · rw [length_Swap]; exact hn
      · intro c hc hcn hci
        rw [timeAt_Swap pq _ _ _ hil hjl, timeAt_Swap pq _ _ _ hil hjl]
        by_cases hcj : c = j
        · subst hcj
          rw [if_neg (by omega), if_pos rfl, if_pos rfl]
          exact le_of_lt hless
        · rw [if_neg hcj, if_neg hci]
          by_cases hp : (c - 1) / 2 = j
          · rw [if_pos hp]
            exact hb c hc hcn hp hj0
          · rw [if_neg hp]
            by_cases hp2 : (c - 1) / 2 = (j - 1) / 2
            · rw [if_pos hp2]
              have := ha c hc hcn hcj
              rw [hp2] at this
              exact le_trans (le_of_lt hless) this
            · rw [if_neg hp2]
              exact ha c hc hcn hcj
      · intro c hc hcn hp hi0
        rw [timeAt_Swap pq _ _ _ hil hjl, timeAt_Swap pq _ _ _ hil hjl]
        rw [if_neg (by omega), if_neg (by omega)]
        have h1 := ha ((j - 1) / 2) hi0 (by omega) (by omega)
        by_cases hcj : c = j
        · rw [if_pos hcj]
          exact h1
        · rw [if_neg hcj, if_neg (by omega)]
          have h2 := ha c hc hcn hcj
          rw [hp] at h2
          exact le_trans h1 h2

/-! ### `heap.down` -/

theorem smallerChild_cases (pq : ReminderPriorityQueue) (j1 n : Nat) :
    smallerChild pq j1 n = j1 ∨ (smallerChild pq j1 n = j1 + 1 ∧ j1 + 1 < n) := by
  unfold smallerChild
  split
  · rename_i h
    right
    exact ⟨rfl, by simpa using (Bool.and_eq_true _ _ |>.mp h).1⟩
  · left; rfl

theorem smallerChild_le (pq : ReminderPriorityQueue) (j1 n c : Nat)
    (hc : c = j1 ∨ (c = j1 + 1 ∧ c < n)) :
    timeAt pq (smallerChild pq j1 n) ≤ timeAt pq c := by
  unfold smallerChild
  split
  · rename_i h
    have h2 : timeAt pq (j1 + 1) < timeAt pq j1 := by
      rw [← Less_iff]
      exact (Bool.and_eq_true _ _ |>.mp h).2
    rcases hc with hc | ⟨hc, _⟩
    · subst hc; exact le_of_lt h2
    · subst hc; exact le_refl _
  · rename_i h
    rcases hc with hc | ⟨hc, hcn⟩
    · subst hc; exact le_refl _
    · subst hc
      have h2 : ¬ (timeAt pq (j1 + 1) < timeAt pq j1) := by
        rw [← Less_iff]
        intro hl
        apply h
        simp [hl, hcn]
      exact not_lt.mp h2

theorem length_downLoop (fuel : Nat) (pq : ReminderPriorityQueue) (i n : Nat) :
    (downLoop fuel pq i n).1.length = pq.length := by
  induction fuel generalizing pq i with
  | zero => rfl
  | succ fuel ih =>
    unfold downLoop
    simp only []
    split
    · rfl
    · split
      · rfl
      · rw [ih, length_Swap]

theorem downLoop_perm (fuel : Nat) (pq : ReminderPriorityQueue) (i n : Nat)
    (hn : n ≤ pq.length) : (downLoop fuel pq i n).1.Perm pq := by
  induction fuel generalizing pq i with
  | zero => exact List.Perm.refl _
  | succ fuel ih =>
    unfold downLoop
    simp only []
    split
    · exact List.Perm.refl _
    · split
      · exact List.Perm.refl _
      · have hj : smallerChild pq (2 * i + 1) n < pq.length := by
          rcases smallerChild_cases pq (2 * i + 1) n with h | ⟨h, h2⟩ <;> omega
        have hi : i < pq.length := by omega
        exact (ih _ _ (by rw [length_Swap]; exact hn)).trans (Swap_perm pq _ _ hi hj)

theorem downLoop_frame (fuel : Nat) (pq : ReminderPriorityQueue) (i n m : Nat)
    (hn : n ≤ pq.length) (hm : n ≤ m) :
    entryAt (downLoop fuel pq i n).1 m = entryAt pq m := by
  induction fuel generalizing pq i with
  | zero => rfl
  | succ fuel ih =>
    unfold downLoop
    simp only []
    split
    · rfl
    · split
      · rfl
      · have hj : smallerChild pq (2 * i + 1) n < n := by
          rcases smallerChild_cases pq (2 * i + 1) n with h | ⟨h, h2⟩ <;> omega
        have hi : i < pq.length := by omega
        rw [ih _ _ (by rw [length_Swap]; exact hn),
          entryAt_Swap pq _ _ _ hi (by omega)]
        rw [if_neg (by omega), if_neg (by omega)]

theorem downLoop_index (fuel : Nat) (pq : ReminderPriorityQueue) (i n : Nat) :
    i ≤ (downLoop fuel pq i n).2 ∧
    ((downLoop fuel pq i n).2 = i → (downLoop fuel pq i n).1 = pq) := by
  induction fuel generalizing pq i with
  | zero => exact ⟨le_refl _, fun _ => rfl⟩
  | succ fuel ih =>
    unfold downLoop
    simp only []
    split
    · exact ⟨le_refl _, fun _ => rfl⟩
    · split
      · exact ⟨le_refl _, fun _ => rfl⟩
      · have hj : i < smallerChild pq (2 * i + 1) n := by
          rcases smallerChild_cases pq (2 * i + 1) n with h | ⟨h, h2⟩ <;> omega
        have := (ih (Swap pq i (smallerChild pq (2 * i + 1) n))
          (smallerChild pq (2 * i + 1) n)).1
        exact ⟨by omega, fun h => by omega⟩

theorem downLoop_ordered (fuel : Nat) (pq : ReminderPriorityQueue) (i n : Nat)
    (hf : n ≤ i + fuel) (hn : n ≤ pq.length)
    (ha : ∀ c, 0 < c → c < n → (c - 1) / 2 ≠ i → timeAt pq ((c - 1) / 2) ≤ timeAt pq c)
    (hb : ∀ c, 0 < c → c < n → (c - 1) / 2 = i → 0 < i →
      timeAt pq ((i - 1) / 2) ≤ timeAt pq c) :
    HeapOrdered (downLoop fuel pq i n).1 n := by
  induction fuel generalizing pq i with
  | zero =>
    intro c hc hcn
    exact ha c hc hcn (by omega)
  | succ fuel ih =>
    unfold downLoop
    simp only []
    split
    · intro c hc hcn
      exact ha c hc hcn (by omega)
    · rename_i hj1
      have hmin := smallerChild_le pq (2 * i + 1) n
      have hcase := smallerChild_cases pq (2 * i + 1) n
      generalize smallerChild pq (2 * i + 1) n = j at hmin hcase ⊢
      have hjn : j < n := by omega
      have hjp : (j - 1) / 2 = i := by omega
      have hil : i < pq.length := by omega
      have hjl : j < pq.length := by omega
      split
      · rename_i hstop
        have hle : timeAt pq i ≤ timeAt pq j := by
          have : ¬ (timeAt pq j < timeAt pq i) := by
            rw [← Less_iff]
            simpa using hstop
          exact not_lt.mp this
        intro c hc hcn
        by_cases hp : (c - 1) / 2 = i
        · rw [hp]
          exact le_trans hle (hmin c (by omega))
        · exact ha c hc hcn hp
      · rename_i hgo
        have hless : timeAt pq j < timeAt pq i := by
          rw [← Less_iff]
          simpa using hgo
        apply ih
        · omega
        · rw [length_Swap]; exact hn
        · intro c hc hcn hp
          rw [timeAt_Swap pq _ _ _ hil hjl, timeAt_Swap pq _ _ _ hil hjl]
          rw [if_neg hp]
          by_cases hcj : c = j
          · subst hcj
            rw [if_pos hjp, if_pos rfl]
            exact le_of_lt hless
          · rw [if_neg hcj]
            by_cases hci : c = i
            · subst hci
              rw [if_neg (by omega), if_pos rfl]
              exact hb j (by omega) hjn hjp hc
            · rw [if_neg hci]
              by_cases hpi : (c - 1) / 2 = i
              · rw [if_pos hpi]
                exact hmin c (by omega)
              · rw [if_neg hpi]
                exact ha c hc hcn hpi
        · intro c hc hcn hp hj0
          rw [timeAt_Swap pq _ _ _ hil hjl, timeAt_Swap pq _ _ _ hil hjl]
          rw [hjp, if_neg (by omega), if_pos rfl, if_neg (by omega), if_neg (by omega)]
          have h3 := ha c hc hcn (by omega)
          rw [hp] at h3
          exact h3

/-! ### `heap.Push`, `heap.Pop`, `heap.Remove` -/

theorem entryAt_take (pq : ReminderPriorityQueue) (n c : Nat) (hc : c < n) :
    entryAt (pq.take n) c = entryAt pq c := by
  simp [entryAt, List.getD_eq_getElem?_getD, List.getElem?_take_of_lt hc]

theorem HeapOrdered_take (pq : ReminderPriorityQueue) (n : Nat) (h : HeapOrdered pq n) :
    HeapOrdered (pq.take n) n := by
  intro c hc hcn
  unfold timeAt
  rw [entryAt_take pq n _ (by omega), entryAt_take pq n _ hcn]
  exact h c hc hcn

theorem take_append_entryAt (pq : ReminderPriorityQueue) (n : Nat) (h : pq.length = n + 1) :
    pq.take n ++ [entryAt pq n] = pq := by
  rw [entryAt_eq_getElem pq n (by omega)]
  have := List.take_concat_get pq n (by omega)
  rw [List.concat_eq_append] at this
  rw [this, ← h, List.take_length]

theorem entryAt_append_left (pq : ReminderPriorityQueue) (x : Reminder) (c : Nat)
    (hc : c < pq.length) : entryAt (pq ++ [x]) c = entryAt pq c := by
  simp [entryAt, List.getD_eq_getElem?_getD, List.getElem?_append_left hc]

theorem length_heapPush (pq : ReminderPriorityQueue) (x : Reminder) :
    (heapPush pq x).length = pq.length + 1 := by
  simp [heapPush, up, length_upLoop]

theorem heapPush_perm (pq : ReminderPriorityQueue) (x : Reminder) :
    (heapPush pq x).Perm (x :: pq) := by
  unfold heapPush up
  simp only []
  refine (upLoop_perm _ _ _ (by simp)).trans ?_
  exact List.perm_append_comm

theorem heapPush_ordered (pq : ReminderPriorityQueue) (x : Reminder)
    (h : HeapOrdered pq pq.length) :
    HeapOrdered (heapPush pq x) (pq.length + 1) := by
  unfold heapPush up
  simp only []
  have hl : (pq ++ [x]).length - 1 = pq.length := by simp
  rw [hl]
  apply upLoop_ordered
  · exact le_refl _
  · omega
  · simp
  · intro c hc hcn hne
    unfold timeAt
    rw [entryAt_append_left pq x _ (by omega), entryAt_append_left pq x _ (by omega)]
    exact h c hc (by omega)
  · intro c hc hcn hp
    omega

theorem heapPop_spec (pq : ReminderPriorityQueue) (h : pq ≠ []) :
    ∃ rest, heapPop pq = some (entryAt pq 0, rest) ∧ (entryAt pq 0 :: rest).Perm pq ∧
      rest.length + 1 = pq.length ∧
      (HeapOrdered pq pq.length → HeapOrdered rest rest.length) := by
  have hlen : 0 < pq.length := List.length_pos.mpr h
  have hn : pq.length - 1 < pq.length := by omega
  have hl1 : (Swap pq 0 (pq.length - 1)).length = pq.length := length_Swap _ _ _
  have hl2 : (downLoop (pq.length - 1) (Swap pq 0 (pq.length - 1)) 0 (pq.length - 1)).1.length
      = (pq.length - 1) + 1 := by
    rw [length_downLoop, hl1]; omega
  have hfr : entryAt (downLoop (pq.length - 1) (Swap pq 0 (pq.length - 1)) 0
      (pq.length - 1)).1 (pq.length - 1) = entryAt pq 0 := by
    rw [downLoop_frame _ _ _ _ _ (by omega) (le_refl _), entryAt_Swap pq _ _ _ hlen hn]
    simp
  refine ⟨(downLoop (pq.length - 1) (Swap pq 0 (pq.length - 1)) 0 (pq.length - 1)).1.take
    (pq.length - 1), ?_, ?_, ?_, ?_⟩
  · unfold heapPop down
    simp only []
    rw [if_neg (by omega), hfr]
  · have hp := take_append_entryAt _ _ hl2
    rw [hfr] at hp
    have h1 : (entryAt pq 0 :: (downLoop (pq.length - 1) (Swap pq 0 (pq.length - 1)) 0
        (pq.length - 1)).1.take (pq.length - 1)).Perm
        (downLoop (pq.length - 1) (Swap pq 0 (pq.length - 1)) 0 (pq.length - 1)).1 := by
      conv => rhs; rw [← hp]
      exact (List.perm_append_singleton _ _).symm
    exact h1.trans ((downLoop_perm _ _ _ _ (by omega)).trans (Swap_perm pq _ _ hlen hn))
  · rw [List.length_take, hl2]; omega
  · intro ho
    have hlt : ((downLoop (pq.length - 1) (Swap pq 0 (pq.length - 1)) 0
        (pq.length - 1)).1.take (pq.length - 1)).length = pq.length - 1 := by
      rw [List.length_take, hl2]; omega
    rw [hlt]
    apply HeapOrdered_take
    apply downLoop_ordered
    · omega
    · omega
    · intro c hc hcn hp
      rw [timeAt_Swap pq _ _ _ hlen hn, timeAt_Swap pq _ _ _ hlen hn]
      rw [if_neg (by omega), if_neg (by omega), if_neg (by omega), if_neg (by omega)]
      exact ho c hc (by omega)
    · intro c hc hcn hp h0
      omega

theorem downLoop_stay (fuel : Nat) (pq : ReminderPriorityQueue) (i n : Nat)
    (h : ∀ c, 0 < c → c < n → (c - 1) / 2 = i → timeAt pq i ≤ timeAt pq c) :
    downLoop fuel pq i n = (pq, i) := by
  cases fuel with
  | zero => rfl
  | succ fuel =>
    unfold downLoop
    simp only []
    split
    · rfl
    · split
      · rfl
      · rename_i hj1 hgo
        exfalso
        have hless : timeAt pq (smallerChild pq (2 * i + 1) n) < timeAt pq i := by
          rw [← Less_iff]
          simpa using hgo
        have hc := smallerChild_cases pq (2 * i + 1) n
        have := h (smallerChild pq (2 * i + 1) n) (by omega) (by omega) (by omega)
        exact absurd hless (not_lt.mpr this)

/-- The repair `heap.Remove` makes after it has swapped entry `i` with the last
entry. -/
theorem remove_repair (pq : ReminderPriorityQueue) (i n : Nat) (hn : pq.length = n + 1)
    (hi : i < n) :
    (if !(down (Swap pq i n) i n).2 then up (down (Swap pq i n) i n).1 i
      else (down (Swap pq i n) i n).1).length = n + 1 ∧
    entryAt (if !(down (Swap pq i n) i n).2 then up (down (Swap pq i n) i n).1 i
      else (down (Swap pq i n) i n).1) n = entryAt pq i ∧
    (if !(down (Swap pq i n) i n).2 then up (down (Swap pq i n) i n).1 i
      else (down (Swap pq i n) i n).1).Perm pq ∧
    (HeapOrdered pq (n + 1) →
      HeapOrdered (if !(down (Swap pq i n) i n).2 then up (down (Swap pq i n) i n).1 i
        else (down (Swap pq i n) i n).1) n) := by
  have hil : i < pq.length := by omega
  have hnl : n < pq.length := by omega
  have hl1 : (Swap pq i n).length = n + 1 := by rw [length_Swap, hn]
  have hld : (downLoop n (Swap pq i n) i n).1.length = n + 1 := by
    rw [length_downLoop, hl1]
  have hfd : entryAt (downLoop n (Swap pq i n) i n).1 n = entryAt pq i := by
    rw [downLoop_frame _ _ _ _ _ (by omega) (le_refl _), entryAt_Swap pq _ _ _ hil hnl]
    simp
  have hpd : (downLoop n (Swap pq i n) i n).1.Perm pq :=
    (downLoop_perm _ _ _ _ (by omega)).trans (Swap_perm pq _ _ hil hnl)
  have ht : ∀ c, c < n → timeAt (Swap pq i n) c =
      if c = i then timeAt pq n else timeAt pq c := by
    intro c hc
    rw [timeAt_Swap pq _ _ _ hil hnl, if_neg (by omega)]
  unfold down up
  simp only []
  refine ⟨?_, ?_, ?_, ?_⟩
  · split
    · rw [length_upLoop, hld]
    · exact hld
  · split
    · rw [upLoop_frame _ _ _ _ (by omega) hi, hfd]
    · exact hfd
  · split
    · exact (upLoop_perm _ _ _ (by omega)).trans hpd
    · exact hpd
  · intro ho
    by_cases hB : 0 < i ∧ timeAt pq n < timeAt pq ((i - 1) / 2)
    · obtain ⟨hi0, hlt⟩ := hB
      have hpar := ho i hi0 (by omega)
      have hstay : downLoop n (Swap pq i n) i n = (Swap pq i n, i) := by
        apply downLoop_stay
        intro c hc hcn hp
        rw [ht c hcn, ht i hi, if_pos rfl, if_neg (by omega)]
        have h1 := ho c hc (by omega)
        rw [hp] at h1
        exact le_trans (le_of_lt hlt) (le_trans hpar h1)
      rw [hstay]
      simp only [gt_iff_lt, lt_self_iff_false, decide_False, Bool.not_false, if_true]
      apply upLoop_ordered
      · exact le_refl _
      · exact hi
      · omega
      · intro c hc hcn hne
        rw [ht c hcn, ht _ (by omega), if_neg hne]
        by_cases hp : (c - 1) / 2 = i
        · rw [if_pos hp]
          have h1 := ho c hc (by omega)
          rw [hp] at h1
          exact le_trans (le_of_lt hlt) (le_trans hpar h1)
        · rw [if_neg hp]
          exact ho c hc (by omega)
      · intro c hc hcn hp _
        rw [ht c hcn, ht _ (by omega), if_neg (by omega), if_neg (by omega)]
        have h1 := ho c hc (by omega)
        rw [hp] at h1
        exact le_trans hpar h1
    · have hA : 0 < i → timeAt pq ((i - 1) / 2) ≤ timeAt pq n := by
        intro hi0
        by_contra hcon
        exact hB ⟨hi0, not_le.mp hcon⟩
      have hord : HeapOrdered (downLoop n (Swap pq i n) i n).1 n := by
        apply downLoop_ordered
        · omega
        · omega
        · intro c hc hcn hp
          rw [ht c hcn, ht _ (by omega), if_neg hp]
          by_cases hci : c = i
          · subst hci
            rw [if_pos rfl]
            exact hA hc
          · rw [if_neg hci]
            exact ho c hc (by omega)
        · intro c hc hcn hp hi0
          rw [ht c hcn, ht _ (by omega), if_neg (by omega), if_neg (by omega)]
          have h1 := ho c hc (by omega)
          rw [hp] at h1
          exact le_trans (ho i hi0 (by omega)) h1
      split
      · apply upLoop_ordered
        · exact le_refl _
        · exact hi
        · omega
        · intro c hc hcn _
          exact hord c hc hcn
        · intro c hc hcn hp hi0
          have h1 := hord c hc hcn
          rw [hp] at h1
          exact le_trans (hord i hi0 hi) h1
      · exact hord

theorem heapRemove_spec (pq : ReminderPriorityQueue) (i : Nat) (hi : i < pq.length) :
    ∃ rest, heapRemove pq i = some (entryAt pq i, rest) ∧ (entryAt pq i :: rest).Perm pq ∧
      rest.length + 1 = pq.length ∧
      (HeapOrdered pq pq.length → HeapOrdered rest rest.length) := by
  have hn : pq.length = (pq.length - 1) + 1 := by omega
  have finish : ∀ pq2 : ReminderPriorityQueue, pq2.length = (pq.length - 1) + 1 →
      entryAt pq2 (pq.length - 1) = entryAt pq i → pq2.Perm pq →
      (HeapOrdered pq pq.length → HeapOrdered pq2 (pq.length - 1)) →
      (entryAt pq i :: pq2.take (pq.length - 1)).Perm pq ∧
      (pq2.take (pq.length - 1)).length + 1 = pq.length ∧
      (HeapOrdered pq pq.length →
        HeapOrdered (pq2.take (pq.length - 1)) (pq2.take (pq.length - 1)).length) := by
    intro pq2 hl he hp ho
    have hlt : (pq2.take (pq.length - 1)).length = pq.length - 1 := by
      rw [List.length_take, hl]; omega
    refine ⟨?_, by omega, ?_⟩
    · have h1 := take_append_entryAt pq2 _ hl
      rw [he] at h1
      have h2 : (entryAt pq i :: pq2.take (pq.length - 1)).Perm pq2 := by
        conv => rhs; rw [← h1]
        exact (List.perm_append_singleton _ _).symm
      exact h2.trans hp
    · intro h
      rw [hlt]
      exact HeapOrdered_take _ _ (ho h)
  by_cases hni : pq.length - 1 = i
  · refine ⟨pq.take (pq.length - 1), ?_, ?_⟩
    · unfold heapRemove
      simp only []
      rw [if_neg (by omega), if_neg (by simpa using hni), hni]
    · apply finish pq hn (by rw [hni]) (List.Perm.refl _)
      intro h c hc hcn
      exact h c hc (by omega)
  · have hrep := remove_repair pq i (pq.length - 1) hn (by omega)
    obtain ⟨h1, h2, h3, h4⟩ := hrep
    refine ⟨_, ?_, finish _ h1 h2 h3 (by rw [← hn] at h4; exact h4)⟩
    unfold heapRemove
    simp only []
    rw [if_neg (by omega), if_pos (by simpa using hni), h2]

/-! ## C10: the head of the queue is the earliest entry -/

theorem HeapOrdered_head_le (pq : ReminderPriorityQueue) (n : Nat) (h : HeapOrdered pq n) :
    ∀ c, c < n → timeAt pq 0 ≤ timeAt pq c := by
  intro c
  induction c using Nat.strong_induction_on with
  | _ c ih =>
    intro hc
    by_cases h0 : c = 0
    · subst h0; exact le_refl _
    · exact le_trans (ih ((c - 1) / 2) (by omega) (by omega)) (h c (by omega) hc)

theorem applyHeapOp_ordered (pq pq1 : ReminderPriorityQueue) (op : HeapOp)
    (h : HeapOrdered pq pq.length) (hop : applyHeapOp pq op = some pq1) :
    HeapOrdered pq1 pq1.length := by
  cases op with
  | push x =>
    simp only [applyHeapOp, Option.some.injEq] at hop
    subst hop
    rw [length_heapPush]
    exact heapPush_ordered pq x h
  | pop =>
    by_cases hne : pq = []
    · subst hne
      simp [applyHeapOp, heapPop] at hop
    · obtain ⟨rest, hr, _, _, ho⟩ := heapPop_spec pq hne
      simp only [applyHeapOp, hr, Option.map_some', Option.some.injEq] at hop
      subst hop
      exact ho h
  | remove i =>
    by_cases hi : i < pq.length
    · obtain ⟨rest, hr, _, _, ho⟩ := heapRemove_spec pq i hi
      simp only [applyHeapOp, hr, Option.map_some', Option.some.injEq] at hop
      subst hop
      exact ho h
    · simp [applyHeapOp, heapRemove, Nat.le_of_not_lt hi] at hop

theorem runHeapOps_ordered (ops : List HeapOp) (pq pq1 : ReminderPriorityQueue)
    (h : HeapOrdered pq pq.length) (hrun : runHeapOps pq ops = some pq1) :
    HeapOrdered pq1 pq1.length := by
  induction ops generalizing pq with
  | nil =>
    simp only [runHeapOps, Option.some.injEq] at hrun
    subst hrun
    exact h
  | cons op ops ih =>
    unfold runHeapOps at hrun
    cases hop : applyHeapOp pq op with
    | none => simp [hop] at hrun
    | some pq2 =>
      simp only [hop] at hrun
      exact ih pq2 (applyHeapOp_ordered pq pq2 op h hop) hrun

/-- C10: starting from the empty queue, after every sequence of `heap.Push`,
`heap.Pop` and `heap.Remove` calls (none of which panics), the entry at index 0
has a `RemindTime` that is not after the `RemindTime` of any entry of the
queue. -/
theorem head_is_earliest (ops : List HeapOp) (pq : ReminderPriorityQueue)
    (hrun : runHeapOps [] ops = some pq) :
    ∀ x ∈ pq, (entryAt pq 0).RemindTime ≤ x.RemindTime := by
  have ho : HeapOrdered pq pq.length :=
    runHeapOps_ordered ops [] pq (fun c _ hc => absurd hc (by simp)) hrun
  intro x hx
  obtain ⟨c, hc, rfl⟩ := List.getElem_of_mem hx
  have := HeapOrdered_head_le pq pq.length ho c hc
  unfold timeAt at this
  rw [entryAt_eq_getElem pq c hc] at this
  exact this

theorem head_is_earliest_witness :
    runHeapOps []
      [.push (pendingAt "a" 5), .push (pendingAt "b" 3), .push (pendingAt "c" 8),
       .push (pendingAt "d" 1), .remove 1, .pop, .push (pendingAt "e" 4)] =
      some [pendingAt "e" 4, pendingAt "c" 8, pendingAt "a" 5] ∧
    ∀ x ∈ [pendingAt "e" 4, pendingAt "c" 8, pendingAt "a" 5],
      (entryAt [pendingAt "e" 4, pendingAt "c" 8, pendingAt "a" 5] 0).RemindTime
        ≤ x.RemindTime :=
  ⟨by decide, head_is_earliest
    [.push (pendingAt "a" 5), .push (pendingAt "b" 3), .push (pendingAt "c" 8),
     .push (pendingAt "d" 1), .remove 1, .pop, .push (pendingAt "e" 4)] _ (by decide)⟩

/-! ### Removal by key -/

theorem findKey_none (pq : ReminderPriorityQueue) (key : String)
    (h : findKey pq key = none) : ∀ x ∈ pq, x.Key ≠ key := by
  induction pq with
  | nil => intro x hx; cases hx
  | cons item rest ih =>
    unfold findKey at h
    split at h
    · cases h
    · rename_i hne
      intro x hx
      rcases List.mem_cons.mp hx with hx | hx
      · subst hx; exact hne
      · exact ih (by simpa using h) x hx

theorem findKey_some (pq : ReminderPriorityQueue) (key : String) (i : Nat)
    (h : findKey pq key = some i) : i < pq.length ∧ (entryAt pq i).Key = key := by
  induction pq generalizing i with
  | nil => simp [findKey] at h
  | cons item rest ih =>
    unfold findKey at h
    split at h
    · rename_i hk
      cases h
      exact ⟨by simp, by simpa [entryAt] using hk⟩
    · cases hf : findKey rest key with
      | none => simp [hf] at h
      | some j =>
        simp only [hf, Option.map_some', Option.some.injEq] at h
        subst h
        obtain ⟨h1, h2⟩ := ih j hf
        exact ⟨by simpa using h1, by simpa [entryAt] using h2⟩

/-- The loop that removes the entry of `key`: either no entry has that key and
the queue is untouched, or one entry with that key is taken out. -/
theorem removeKey_spec (pq : ReminderPriorityQueue) (key : String) :
    ((∀ x ∈ pq, x.Key ≠ key) ∧ removeKey pq key = pq) ∨
    (∃ x, x.Key = key ∧ (x :: removeKey pq key).Perm pq) := by
  unfold removeKey
  cases hf : findKey pq key with
  | none => exact Or.inl ⟨findKey_none pq key hf, rfl⟩
  | some i =>
    obtain ⟨hi, hk⟩ := findKey_some pq key i hf
    obtain ⟨rest, hr, hp, _, _⟩ := heapRemove_spec pq i hi
    right
    refine ⟨entryAt pq i, hk, ?_⟩
    simp only [hr]
    exact hp

theorem removeKey_ordered (pq : ReminderPriorityQueue) (key : String)
    (h : HeapOrdered pq pq.length) :
    HeapOrdered (removeKey pq key) (removeKey pq key).length := by
  unfold removeKey
  cases hf : findKey pq key with
  | none => exact h
  | some i =>
    obtain ⟨hi, _⟩ := findKey_some pq key i hf
    obtain ⟨rest, hr, _, _, ho⟩ := heapRemove_spec pq i hi
    simp only [hr]
    exact ho h

theorem keyCount_perm {pq pq1 : ReminderPriorityQueue} (h : pq.Perm pq1) (key : String) :
    keyCount pq key = keyCount pq1 key :=
  h.countP_eq _

theorem keyCount_cons (x : Reminder) (pq : ReminderPriorityQueue) (key : String) :
    keyCount (x :: pq) key = keyCount pq key + (if x.Key = key then 1 else 0) := by
  simp [keyCount, List.countP_cons]

theorem keyCount_eq_zero (pq : ReminderPriorityQueue) (key : String) :
    keyCount pq key = 0 ↔ ∀ x ∈ pq, x.Key ≠ key := by
  simp [keyCount, List.countP_eq_zero]

theorem keyCount_removeKey (pq : ReminderPriorityQueue) (key : String) :
    keyCount (removeKey pq key) key = keyCount pq key - 1 := by
  rcases removeKey_spec pq key with ⟨hno, heq⟩ | ⟨x, hx, hp⟩
  · rw [heq, (keyCount_eq_zero pq key).mpr hno]
  · rw [← keyCount_perm hp key, keyCount_cons, if_pos hx]
    omega

theorem keyCount_removeKey_other (pq : ReminderPriorityQueue) (key other : String)
    (h : other ≠ key) : keyCount (removeKey pq key) other = keyCount pq other := by
  rcases removeKey_spec pq key with ⟨_, heq⟩ | ⟨x, hx, hp⟩
  · rw [heq]
  · rw [← keyCount_perm hp other, keyCount_cons, if_neg (by rw [hx]; exact Ne.symm h)]
    rfl

theorem mem_removeKey (pq : ReminderPriorityQueue) (key : String) (x : Reminder)
    (h : x ∈ removeKey pq key) : x ∈ pq := by
  rcases removeKey_spec pq key with ⟨_, heq⟩ | ⟨y, _, hp⟩
  · rw [heq] at h; exact h
  · exact hp.subset (List.mem_cons_of_mem _ h)

theorem mem_removeKey_of_ne (pq : ReminderPriorityQueue) (key : String) (x : Reminder)
    (h : x ∈ pq) (hk : x.Key ≠ key) : x ∈ removeKey pq key := by
  rcases removeKey_spec pq key with ⟨_, heq⟩ | ⟨y, hy, hp⟩
  · rw [heq]; exact h
  · rcases List.mem_cons.mp (hp.symm.subset h) with hxy | hxr
    · subst hxy; exact absurd hy hk
    · exact hxr

theorem mem_heapPush (pq : ReminderPriorityQueue) (x y : Reminder) :
    y ∈ heapPush pq x ↔ y = x ∨ y ∈ pq := by
  rw [(heapPush_perm pq x).mem_iff, List.mem_cons]

/-! ## C5: recovery -/

theorem lookupEntry_mem_keys (l : List (String × KVEntry)) (key : String) (e : KVEntry)
    (h : lookupEntry l key = some e) : key ∈ l.map Prod.fst := by
  induction l with
  | nil => simp [lookupEntry] at h
  | cons p rest ih =>
    obtain ⟨k, x⟩ := p
    unfold lookupEntry at h
    split at h
    · rename_i hk
      simp [hk]
    · simp [ih h]

theorem lookupEntry_of_mem_keys (l : List (String × KVEntry)) (key : String)
    (h : key ∈ l.map Prod.fst) : ∃ e, lookupEntry l key = some e := by
  induction l with
  | nil => simp at h
  | cons p rest ih =>
    obtain ⟨k, x⟩ := p
    unfold lookupEntry
    by_cases hk : k = key
    · exact ⟨x, by simp [hk]⟩
    · have : key ∈ rest.map Prod.fst := by
        rcases List.mem_cons.mp h with h1 | h1
        · exact absurd h1.symm hk
        · exact h1
      simpa [hk] using ih this

theorem KV_loadExistingReminder (env : Env) (n : NATSClient) (key : String) :
    (loadExistingReminder env n key).KV = n.KV := by
  unfold loadExistingReminder
  simp only [NATSClient.record]
  split
  · rfl
  · split
    · rfl
    · split <;> rfl

theorem mem_loadExistingReminder (env : Env) (n : NATSClient) (key : String) (x : Reminder) :
    x ∈ (loadExistingReminder env n key).pq ↔
      x ∈ n.pq ∨ ∃ e, kvGet env n.KV key = some e ∧ jsonUnmarshal e.value = (x, true) ∧
        x.Status = "pending" := by
  unfold loadExistingReminder
  simp only [NATSClient.record]
  cases hg : kvGet env n.KV key with
  | none => simp
  | some entry =>
    simp only [Option.some.injEq, exists_eq_left']
    generalize jsonUnmarshal entry.value = dec
    obtain ⟨r, ok⟩ := dec
    cases ok with
    | false => simp
    | true =>
      simp only [Bool.not_true, Bool.false_eq_true, if_false, Prod.mk.injEq, and_true]
      by_cases hs : r.Status = "pending"
      · rw [if_pos hs]
        simp only [mem_heapPush]
        constructor
        · rintro (h | h)
          · right; subst h; exact ⟨rfl, hs⟩
          · left; exact h
        · rintro (h | ⟨h, _⟩)
          · right; exact h
          · left; exact h.symm
      · rw [if_neg hs]
        constructor
        · intro h; left; exact h
        · rintro (h | ⟨h, h2⟩)
          · exact h
          · subst h; exact absurd h2 hs

theorem mem_foldl_loadExistingReminder (env : Env) (keys : List String) (n : NATSClient)
    (x : Reminder) :
    ((keys.foldl (loadExistingReminder env) n).KV = n.KV) ∧
    (x ∈ (keys.foldl (loadExistingReminder env) n).pq ↔
      x ∈ n.pq ∨ ∃ key ∈ keys, ∃ e, kvGet env n.KV key = some e ∧
        jsonUnmarshal e.value = (x, true) ∧ x.Status = "pending") := by
  induction keys generalizing n with
  | nil => simp
  | cons key keys ih =>
    simp only [List.foldl_cons]
    obtain ⟨h1, h2⟩ := ih (loadExistingReminder env n key)
    refine ⟨by rw [h1, KV_loadExistingReminder], ?_⟩
    rw [h2, mem_loadExistingReminder]
    simp only [KV_loadExistingReminder, List.mem_cons, exists_eq_or_imp]
    exact or_assoc

/-- C5: when `loadExistingReminders` runs on an empty queue, the listing of the
keys and every `Get` succeed, and every decodable record has its `Key` field
equal to the key it is stored under, then the keys of the entries in the queue
are exactly the KV keys whose record decodes with status `pending`. -/
theorem loadExistingReminders_keys (env : Env) (n : NATSClient) (hpq : n.pq = [])
    (hkeys : env.keysFails = false) (hget : ∀ key, env.getFails key = false)
    (hkey : ∀ key e r, n.KV.find key = some e → jsonUnmarshal e.value = (r, true) →
      r.Key = key)
    (key : String) :
    (∃ x ∈ (loadExistingReminders env n).pq, x.Key = key) ↔
      ∃ e r, n.KV.find key = some e ∧ jsonUnmarshal e.value = (r, true) ∧
        r.Status = "pending" := by
  unfold loadExistingReminders
  simp only [hkeys, Bool.false_eq_true, if_false]
  have hg : ∀ k, kvGet env n.KV k = n.KV.find k := by
    intro k
    simp [kvGet, hget k]
  constructor
  · rintro ⟨x, hx, hxk⟩
    rw [(mem_foldl_loadExistingReminder env _ _ x).2] at hx
    simp only [NATSClient.record, hpq, List.not_mem_nil, false_or] at hx
    obtain ⟨k, _, e, he, hd, hs⟩ := hx
    rw [hg] at he
    have := hkey k e x he hd
    rw [hxk] at this
    subst this
    exact ⟨e, x, he, hd, hs⟩
  · rintro ⟨e, r, he, hd, hs⟩
    refine ⟨r, ?_, hkey key e r he hd⟩
    rw [(mem_foldl_loadExistingReminder env _ _ r).2]
    right
    refine ⟨key, ?_, e, ?_, hd, hs⟩
    · exact lookupEntry_mem_keys _ _ _ he
    · simp only [NATSClient.record]
      rw [hg]; exact he

theorem loadExistingReminders_keys_witness :
    (loadExistingReminders Env.calm coldClient).pq =
      [⟨"reminder_T4_U1", [4], 200, "pending", 0⟩,
       ⟨"reminder_T1_U1", [1], 300, "pending", 0⟩] ∧
    ((∃ x ∈ (loadExistingReminders Env.calm coldClient).pq, x.Key = "reminder_T4_U1") ↔
      ∃ e r, coldClient.KV.find "reminder_T4_U1" = some e ∧
        jsonUnmarshal e.value = (r, true) ∧ r.Status = "pending") :=
  ⟨by decide,
   loadExistingReminders_keys Env.calm coldClient rfl rfl (fun _ => rfl)
    (by
      intro key e r hf hd
      simp only [coldClient, KVStore.find, lookupEntry] at hf
      split at hf
      · cases hf; simp [jsonUnmarshal] at hd; subst hd; simp_all
      · split at hf
        · cases hf; simp [jsonUnmarshal] at hd; subst hd; simp_all
        · split at hf
          · cases hf; simp [jsonUnmarshal] at hd
          · split at hf
            · cases hf; simp [jsonUnmarshal] at hd; subst hd; simp_all
            · cases hf)
    "reminder_T4_U1"⟩

/-! ## C6: the time `SnoozeReminder` sets -/

/-- With at most one entry for `key` in the queue: for a decodable record `r`
under `key` whose `Key` field is `key`, a successful `SnoozeReminder(key, d)`
leaves under `key` the record `r` with `RemindTime = r.RemindTime + d` (key,
payload, status and revision field as in `r`), and the queue then has an entry
for `key`, and every entry for `key` is that same reminder; nothing depends on
whether the new time is in the past. -/
theorem SnoozeReminder_adds_duration (env : Env) (n : NATSClient) (key : String)
    (d : Duration) (r : Reminder) (rev : Nat)
    (h : n.KV.find key = some ⟨.json r, rev⟩) (hk : r.Key = key)
    (huniq : keyCount n.pq key ≤ 1)
    (hok : (SnoozeReminder env n key d).1 = none) :
    (SnoozeReminder env n key d).2.KV.find key =
      some ⟨.json ⟨r.Key, r.EventData, r.RemindTime + d, r.Status, r.Revision⟩,
        n.KV.seq + 1⟩ ∧
    (∃ x ∈ (SnoozeReminder env n key d).2.pq, x.Key = key) ∧
    (∀ x ∈ (SnoozeReminder env n key d).2.pq, x.Key = key →
      x = ⟨r.Key, r.EventData, r.RemindTime + d, r.Status, r.Revision⟩) := by
  unfold SnoozeReminder at hok ⊢
  cases hg : kvGet env n.KV key with
  | none => simp [hg] at hok
  | some entry =>
    have hf := kvGet_eq_some hg
    rw [h] at hf
    cases hf
    cases hp : kvPut env n.KV key (.json { r with RemindTime := r.RemindTime + d }) with
    | none => simp [hg, hp, jsonUnmarshal, jsonMarshalStored] at hok
    | some kv =>
      simp only [hp, jsonUnmarshal, jsonMarshalStored, NATSClient.record]
      simp only [Bool.not_true, Bool.false_eq_true, if_false]
      refine ⟨?_, ?_, ?_⟩
      · rw [kvPut_eq_some hp]
        exact find_write_self _ _ _
      · exact ⟨_, (mem_heapPush _ _ _).mpr (Or.inl rfl), hk⟩
      · intro x hx hxk
        rcases (mem_heapPush _ _ _).mp hx with hx | hx
        · exact hx
        · exfalso
          have h0 : keyCount (removeKey n.pq key) key = 0 := by
            rw [keyCount_removeKey]; omega
          exact (keyCount_eq_zero _ _).mp h0 x hx hxk

theorem SnoozeReminder_adds_duration_witness :
    (SnoozeReminder Env.calm pendingClient "reminder_T1_U1" (-250)).2.KV.find "reminder_T1_U1" =
      some ⟨.json ⟨"reminder_T1_U1", [1], 300 + -250, "pending", 0⟩, pendingClient.KV.seq + 1⟩ ∧
    (∃ x ∈ (SnoozeReminder Env.calm pendingClient "reminder_T1_U1" (-250)).2.pq,
      x.Key = "reminder_T1_U1") ∧
    (∀ x ∈ (SnoozeReminder Env.calm pendingClient "reminder_T1_U1" (-250)).2.pq,
      x.Key = "reminder_T1_U1" →
      x = ⟨"reminder_T1_U1", [1], 300 + -250, "pending", 0⟩) :=
  SnoozeReminder_adds_duration Env.calm pendingClient "reminder_T1_U1" (-250)
    ⟨"reminder_T1_U1", [1], 300, "pending", 0⟩ 1 (by decide) rfl (by decide) (by decide)

/-- C6 on a queue that holds two entries for the key, the state the watch
loop leaves when a snooze falls between its removal and its push (the defect
of C11): the record has time 800 and both entries have time 800; a successful
`SnoozeReminder` by 100 writes the record with time 900, removes one entry
and pushes the entry with time 900, so an entry with the old time 800 stays
in the queue next to it, and the fire loop then fires the key twice. -/
theorem snooze_leaves_stale_entry :
    duplicatedClient.KV.find "reminder_T1_U1" =
      some ⟨.json ⟨"reminder_T1_U1", [1], 800, "pending", 0⟩, 2⟩ ∧
    duplicatedClient.pq =
      [⟨"reminder_T1_U1", [1], 800, "pending", 0⟩,
       ⟨"reminder_T1_U1", [1], 800, "pending", 0⟩] ∧
    (SnoozeReminder Env.calm duplicatedClient "reminder_T1_U1" 100).1 = none ∧
    (SnoozeReminder Env.calm duplicatedClient "reminder_T1_U1" 100).2.KV.find
      "reminder_T1_U1" = some ⟨.json ⟨"reminder_T1_U1", [1], 900, "pending", 0⟩, 3⟩ ∧
    (SnoozeReminder Env.calm duplicatedClient "reminder_T1_U1" 100).2.pq =
      [⟨"reminder_T1_U1", [1], 800, "pending", 0⟩,
       ⟨"reminder_T1_U1", [1], 900, "pending", 0⟩] ∧
    (processReminders Env.calm [900, 900]
      (SnoozeReminder Env.calm duplicatedClient "reminder_T1_U1" 100).2).1 =
      ["reminder_T1_U1", "reminder_T1_U1"] := by
  decide

/-! ## C8: create, then cancel -/

theorem pq_markReminderCompleted (env : Env) (n : NATSClient) (key : String) :
    (markReminderCompleted env n key).pq = n.pq := by
  unfold markReminderCompleted
  simp only [jsonMarshalStored, NATSClient.record, triggerReminder, PublishEvent]
  split
  · rfl
  · split
    · rfl
    · split <;> rfl

theorem processRemindersRound_fired (env : Env) (now : Time) (n : NATSClient) :
    (∀ key, (processRemindersRound env now n).1 = some key → ∃ x ∈ n.pq, x.Key = key) ∧
    (∀ x ∈ (processRemindersRound env now n).2.pq, x ∈ n.pq) := by
  unfold processRemindersRound
  by_cases hlen : n.pq.length = 0
  · simp [hlen]
  · simp only [hlen, if_false]
    split
    · have hne : n.pq ≠ [] := fun h => hlen (by simp [h])
      obtain ⟨rest, hr, hp, _, _⟩ := heapPop_spec n.pq hne
      simp only [hr]
      refine ⟨?_, ?_⟩
      · intro key hkey
        cases hkey
        exact ⟨entryAt n.pq 0, hp.subset (List.mem_cons_self _ _), rfl⟩
      · intro x hx
        rw [pq_markReminderCompleted] at hx
        exact hp.subset (List.mem_cons_of_mem _ hx)
    · exact ⟨fun key hkey => (by cases hkey), fun x hx => hx⟩

theorem processReminders_fired (env : Env) (nows : List Time) (n : NATSClient) :
    ∀ key ∈ (processReminders env nows n).1, ∃ x ∈ n.pq, x.Key = key := by
  induction nows generalizing n with
  | nil => intro key hkey; simp [processReminders] at hkey
  | cons now later ih =>
    intro key hkey
    unfold processReminders at hkey
    split at hkey
    · simp at hkey
    · simp only [List.mem_append, Option.mem_toList, Option.mem_def] at hkey
      rcases hkey with hkey | hkey
      · exact (processRemindersRound_fired env now n).1 key hkey
      · obtain ⟨x, hx, hxk⟩ := ih _ key hkey
        exact ⟨x, (processRemindersRound_fired env now n).2 x hx, hxk⟩

theorem StoreReminderInKV_ok (env : Env) (n : NATSClient) (key : String) (t : Time)
    (payload : Bytes) (hok : (StoreReminderInKV env n key t payload).1 = none) :
    ∃ stored, jsonRawMessage payload = some stored ∧
      (∃ rev, (StoreReminderInKV env n key t payload).2.KV.find key =
        some ⟨.json ⟨key, stored, t, "pending", 0⟩, rev⟩) ∧
      (StoreReminderInKV env n key t payload).2.pq = n.pq := by
  unfold StoreReminderInKV at hok ⊢
  simp only [] at hok ⊢
  cases hm : jsonMarshal ⟨key, payload, t, "pending", 0⟩ with
  | none => simp [hm] at hok
  | some v =>
    obtain ⟨stored, hp, -, hv⟩ := jsonMarshal_eq_some _ _ hm
    subst hv
    refine ⟨stored, hp, ?_⟩
    simp only [hm, NATSClient.record] at hok ⊢
    cases hg : kvGet env n.KV key with
    | none =>
      simp only [hg] at hok ⊢
      cases hc : kvCreate env (env.concurrent n.KV) key
          (.json ⟨key, stored, t, "pending", 0⟩) with
      | none => simp [hc] at hok
      | some kv1 =>
        simp only []
        refine ⟨⟨(env.concurrent n.KV).seq + 1, ?_⟩, trivial⟩
        unfold kvCreate at hc
        split at hc
        · cases hc
        · split at hc
          · cases hc
          · cases hc
            exact find_write_self _ _ _
    | some entry =>
      simp only [hg] at hok ⊢
      cases hc : kvUpdate env (env.concurrent n.KV) key
          (.json ⟨key, stored, t, "pending", 0⟩) entry.revision with
      | none => simp [hc] at hok
      | some kv1 =>
        simp only []
        refine ⟨⟨(env.concurrent n.KV).seq + 1, ?_⟩, trivial⟩
        unfold kvUpdate at hc
        split at hc
        · cases hc
        · split at hc
          · split at hc
            · cases hc
              exact find_write_self _ _ _
            · cases hc
          · split at hc
            · cases hc
              exact find_write_self _ _ _
            · cases hc

theorem watchCurrent_json (n : NATSClient) (key : String) (r : Reminder) (rev : Nat)
    (h : n.KV.find key = some ⟨.json r, rev⟩) :
    (watchCurrent n key).KV = n.KV ∧
    (watchCurrent n key).pq =
      if r.Status = "pending" then heapPush (removeKey n.pq key) r else removeKey n.pq key := by
  unfold watchCurrent watchKVUpdate
  simp only [h, Value.isEmpty, jsonUnmarshal]
  simp only [Bool.false_eq_true, if_false, Bool.not_true]
  split <;> exact ⟨rfl, rfl⟩

theorem CancelReminder_result (env : Env) (n : NATSClient) (key : String) (eventData : Bytes)
    (r : Reminder) (hput : env.writeFails = false) :
    (CancelReminder env n key eventData r).1 = none ∧
    (CancelReminder env n key eventData r).2.pq = removeKey n.pq key ∧
    (CancelReminder env n key eventData r).2.KV =
      n.KV.write key (.json { r with Status := "canceled" }) := by
  simp [CancelReminder, jsonMarshalStored, kvPut, hput, NATSClient.record]

theorem CancelTicketReminder_success (env : Env) (c : HandlerCtx) (n : NATSClient)
    (key : String) (r : Reminder) (rev : Nat) (hput : env.writeFails = false)
    (hf : n.KV.find key = some ⟨.json r, rev⟩)
    (hresp : (CancelTicketReminder env c n (some ⟨key⟩)).1 =
      .success "Reminder canceled successfully") :
    (CancelTicketReminder env c n (some ⟨key⟩)).2.pq = removeKey n.pq key ∧
    (CancelTicketReminder env c n (some ⟨key⟩)).2.KV =
      n.KV.write key (.json { r with Status := "canceled" }) := by
  unfold CancelTicketReminder at hresp ⊢
  simp only [] at hresp ⊢
  split at hresp
  · cases hresp
  · rename_i hid
    rw [if_neg hid]
    cases ht : c.ticket with
    | none => simp [ht] at hresp
    | some ticket =>
      cases hu : c.loggedInUser with
      | none => simp [ht, hu] at hresp
      | some user =>
        cases hg : kvGet env n.KV key with
        | none => simp [ht, hu, hg] at hresp
        | some e =>
          have he := kvGet_eq_some hg
          rw [hf] at he
          cases he
          cases hul : c.ulid with
          | none => simp [ht, hu, hg, hul] at hresp
          | some eventId =>
            simp only [jsonUnmarshal, Bool.not_true, Bool.false_eq_true, if_false]
            have hc := CancelReminder_result env (n.record (.kvGet key)) key
              (c.marshalEvent
                { EventID := eventId, EventType := "ticket.reminder.cancel",
                  Timestamp := c.format c.now, Actor := ⟨user⟩,
                  Ticket := ⟨ticket.ID, "", "", "", ""⟩,
                  ReminderDetails := ⟨"", "", []⟩,
                  Changes := ⟨"cancel reminder", ""⟩ }) r hput
            obtain ⟨h1, h2, h3⟩ := hc
            split
            · rename_i err n2 heq
              rw [heq] at h1
              cases h1
            · rename_i n2 heq
              rw [heq] at h2 h3
              exact ⟨h2, h3⟩

theorem keyCount_heapPush (pq : ReminderPriorityQueue) (x : Reminder) (key : String) :
    keyCount (heapPush pq x) key = keyCount pq key + (if x.Key = key then 1 else 0) := by
  rw [keyCount_perm (heapPush_perm pq x) key, keyCount_cons]

/-- Let the queue hold at most one entry for `key`.  After a successful
`StoreReminderInKV(key, t, payload)`, which writes the payload as `stored`,
and the processing of its watch event the
queue holds the pending reminder; after the cancel path for `key`
(`CancelTicketReminder` answering with success, its `Put` going through), with
or without the watch event of the cancel being processed (`seen`), the queue
holds no entry for `key`, the record under `key` is the reminder with status
`canceled`, and no run of the fire loop, whatever the clock readings, fires
`key`. -/
theorem cancel_before_fire (env1 env2 : Env) (c : HandlerCtx) (n : NATSClient) (key : String)
    (t : Time) (payload stored : Bytes) (seen : Bool)
    (hp : jsonRawMessage payload = some stored)
    (huniq : keyCount n.pq key ≤ 1)
    (hstore : (StoreReminderInKV env1 n key t payload).1 = none)
    (hput : env2.writeFails = false)
    (hresp : (CancelTicketReminder env2 c (afterCreate env1 n key t payload) (some ⟨key⟩)).1 =
      .success "Reminder canceled successfully") :
    ⟨key, stored, t, "pending", 0⟩ ∈ (afterCreate env1 n key t payload).pq ∧
    (∀ x ∈ (afterCancel env1 env2 c n key t payload seen).pq, x.Key ≠ key) ∧
    (∃ rev, (afterCancel env1 env2 c n key t payload seen).KV.find key =
      some ⟨.json ⟨key, stored, t, "canceled", 0⟩, rev⟩) ∧
    (∀ env3 nows,
      key ∉ (processReminders env3 nows (afterCancel env1 env2 c n key t payload seen)).1) := by
  obtain ⟨stored1, hp1, ⟨rev, hfind⟩, hpq⟩ := StoreReminderInKV_ok env1 n key t payload hstore
  rw [hp] at hp1
  cases hp1
  obtain ⟨hkv1, hpq1⟩ := watchCurrent_json _ key _ rev hfind
  rw [if_pos rfl, hpq] at hpq1
  have hfind1 : (afterCreate env1 n key t payload).KV.find key =
      some ⟨.json ⟨key, stored, t, "pending", 0⟩, rev⟩ := by
    unfold afterCreate
    rw [hkv1]; exact hfind
  have hpqc : (afterCreate env1 n key t payload).pq =
      heapPush (removeKey n.pq key) ⟨key, stored, t, "pending", 0⟩ := hpq1
  obtain ⟨hpq2, hkv2⟩ := CancelTicketReminder_success env2 c _ key _ rev hput hfind1 hresp
  have hcount2 : keyCount (CancelTicketReminder env2 c (afterCreate env1 n key t payload)
      (some ⟨key⟩)).2.pq key = 0 := by
    rw [hpq2, keyCount_removeKey, hpqc, keyCount_heapPush, keyCount_removeKey, if_pos rfl]
    omega
  have hfind2 : (CancelTicketReminder env2 c (afterCreate env1 n key t payload)
      (some ⟨key⟩)).2.KV.find key = some ⟨.json ⟨key, stored, t, "canceled", 0⟩,
        (afterCreate env1 n key t payload).KV.seq + 1⟩ := by
    rw [hkv2]
    exact find_write_self _ _ _
  have hfinal : (∀ x ∈ (afterCancel env1 env2 c n key t payload seen).pq, x.Key ≠ key) ∧
      (∃ rev, (afterCancel env1 env2 c n key t payload seen).KV.find key =
        some ⟨.json ⟨key, stored, t, "canceled", 0⟩, rev⟩) := by
    unfold afterCancel
    simp only []
    cases seen with
    | false =>
      simp only [Bool.false_eq_true, if_false]
      exact ⟨(keyCount_eq_zero _ _).mp hcount2, _, hfind2⟩
    | true =>
      simp only [if_true]
      obtain ⟨hkv3, hpq3⟩ := watchCurrent_json _ key _ _ hfind2
      rw [if_neg (by simp)] at hpq3
      refine ⟨?_, _, by rw [hkv3]; exact hfind2⟩
      apply (keyCount_eq_zero _ _).mp
      rw [hpq3, keyCount_removeKey, hcount2]
  refine ⟨?_, hfinal.1, hfinal.2, ?_⟩
  · rw [hpqc]
    exact (mem_heapPush _ _ _).mpr (Or.inl rfl)
  · intro env3 nows hmem
    obtain ⟨x, hx, hxk⟩ := processReminders_fired env3 nows _ key hmem
    exact hfinal.1 x hx hxk

theorem cancel_before_fire_witness :
    (⟨"reminder_T1_U1", [55], 5000, "pending", 0⟩ : Reminder) ∈
      (afterCreate Env.calm pendingClient "reminder_T1_U1" 5000 [55]).pq ∧
    (∀ x ∈ (afterCancel Env.calm Env.calm sampleCtx pendingClient "reminder_T1_U1" 5000 [55]
      true).pq, x.Key ≠ "reminder_T1_U1") ∧
    (∃ rev, (afterCancel Env.calm Env.calm sampleCtx pendingClient "reminder_T1_U1" 5000 [55]
      true).KV.find "reminder_T1_U1" =
        some ⟨.json ⟨"reminder_T1_U1", [55], 5000, "canceled", 0⟩, rev⟩) ∧
    (∀ env3 nows, "reminder_T1_U1" ∉ (processReminders env3 nows
      (afterCancel Env.calm Env.calm sampleCtx pendingClient "reminder_T1_U1" 5000 [55]
        true)).1) :=
  cancel_before_fire Env.calm Env.calm sampleCtx pendingClient "reminder_T1_U1" 5000 [55] [55]
    true (by decide) (by decide) (by decide) rfl (by decide)

/-- C8 on a queue that holds two entries for the key, the state the watch
loop leaves when a snooze falls between its removal and its push (the defect
of C11): `StoreReminderInKV` for the key and the time 8000 succeeds and its
watch event is processed, then the cancel path answers with success and writes
the status `canceled`; the removal of `CancelReminder` takes out one entry
only, so the queue still holds the entry for the key with time 8000, and the
fire loop, at 8000, pops it, writes `completed` over the canceled record and
publishes the reminder. -/
theorem cancel_leaves_entry_that_fires :
    keyCount duplicatedClient.pq "reminder_T1_U1" = 2 ∧
    (StoreReminderInKV Env.calm duplicatedClient "reminder_T1_U1" 8000 [55]).1 = none ∧
    (CancelTicketReminder Env.calm sampleCtx
      (afterCreate Env.calm duplicatedClient "reminder_T1_U1" 8000 [55])
      (some ⟨"reminder_T1_U1"⟩)).1 = .success "Reminder canceled successfully" ∧
    (afterCancel Env.calm Env.calm sampleCtx duplicatedClient "reminder_T1_U1" 8000 [55]
      false).KV.find "reminder_T1_U1" =
      some ⟨.json ⟨"reminder_T1_U1", [55], 8000, "canceled", 0⟩, 4⟩ ∧
    (afterCancel Env.calm Env.calm sampleCtx duplicatedClient "reminder_T1_U1" 8000 [55]
      false).pq = [⟨"reminder_T1_U1", [55], 8000, "pending", 0⟩] ∧
    (processReminders Env.calm [8000]
      (afterCancel Env.calm Env.calm sampleCtx duplicatedClient "reminder_T1_U1" 8000 [55]
        false)).1 = ["reminder_T1_U1"] ∧
    (newCalls (afterCancel Env.calm Env.calm sampleCtx duplicatedClient "reminder_T1_U1" 8000
        [55] false)
      (processReminders Env.calm [8000]
        (afterCancel Env.calm Env.calm sampleCtx duplicatedClient "reminder_T1_U1" 8000 [55]
          false)).2) =
      [.kvGet "reminder_T1_U1",
       .kvPut "reminder_T1_U1" (.json ⟨"reminder_T1_U1", [55], 8000, "completed", 4⟩),
       .publish "crm.tickets.reminder.T1_U1" [55]] := by
  decide

/-! ## C11: one heap entry per key -/

theorem watchKVUpdate_sections (n : NATSClient) (key : String) (rawValue : Value) :
    watchKVUpdate n (some (key, rawValue)) =
      runScheduler n [.watchRemove key, .watchPush rawValue] := by
  simp only [watchKVUpdate, runScheduler, List.foldl, stepScheduler]

/-- C11 on a run: recovery loads the pending reminder of `reminder_T1_U1` into
the empty heap; the watch loop takes the update of that key and runs its
removal section; `SnoozeReminder` for the key runs (one section: Put, removal,
push); the watch loop runs its push section.  The heap then holds two entries
whose `Key` is `reminder_T1_U1`. -/
theorem snooze_between_watch_sections_duplicates :
    (loadExistingReminders Env.calm { pendingClient with pq := [] }).pq =
      [⟨"reminder_T1_U1", [1], 300, "pending", 0⟩] ∧
    (runScheduler (loadExistingReminders Env.calm { pendingClient with pq := [] })
      [.watchRemove "reminder_T1_U1", .snooze Env.calm "reminder_T1_U1" 500,
       .watchPush (.json ⟨"reminder_T1_U1", [1], 300, "pending", 0⟩)]).pq =
      [⟨"reminder_T1_U1", [1], 300, "pending", 0⟩,
       ⟨"reminder_T1_U1", [1], 800, "pending", 0⟩] ∧
    keyCount (runScheduler (loadExistingReminders Env.calm { pendingClient with pq := [] })
      [.watchRemove "reminder_T1_U1", .snooze Env.calm "reminder_T1_U1" 500,
       .watchPush (.json ⟨"reminder_T1_U1", [1], 300, "pending", 0⟩)]).pq
      "reminder_T1_U1" = 2 := by
  decide

/-! ## C12: acknowledgement of a delivery -/

/-- The acknowledgements of one delivery, for any processing function: when
processing returns an error the handler sends the Nak and the `msg.Ack()` of
the callback finds the message acknowledged and sends nothing; when processing
returns nil the handler sends the Ack and the second `msg.Ack()` sends
nothing. -/
theorem QueueSubscribe_acks (process : Clients → Msg → Option GoError × Clients)
    (cl : Clients) (msg : Msg) (hfresh : msg.acks = [])
    (hrun : (process cl msg).2.exited = false) :
    ((process cl msg).1 ≠ none →
      (QueueSubscribe (consumerHandler process) cl msg).2.acks = [.nak]) ∧
    ((process cl msg).1 = none →
      (QueueSubscribe (consumerHandler process) cl msg).2.acks = [.ack]) := by
  unfold QueueSubscribe consumerHandler
  simp only [hrun, Bool.false_eq_true, if_false]
  cases hp : (process cl msg).1 with
  | none => simp [Msg.Ack, hfresh]
  | some e => simp [Msg.Ack, Msg.Nak, hfresh]

/-- C12: on a delivery (a message not yet acknowledged) to the created, the
assigned or the reassigned consumer, whose processing returns: when the
processing function returns an error, exactly a Nak is sent for the message
and no Ack; when it returns nil, exactly one Ack is sent. -/
theorem delivery_acknowledgement (env : Env) (ce : ConsumerEnv) (cl : Clients) (msg : Msg)
    (hfresh : msg.acks = []) :
    ((processTicketCreated env ce cl msg).2.exited = false →
      ((processTicketCreated env ce cl msg).1 ≠ none →
        (StartTicketCreatedConsumer env ce cl msg).2.acks = [.nak]) ∧
      ((processTicketCreated env ce cl msg).1 = none →
        (StartTicketCreatedConsumer env ce cl msg).2.acks = [.ack])) ∧
    ((processTicketAssigned env ce cl msg).2.exited = false →
      ((processTicketAssigned env ce cl msg).1 ≠ none →
        (StartTicketAssignedConsumer env ce cl msg).2.acks = [.nak]) ∧
      ((processTicketAssigned env ce cl msg).1 = none →
        (StartTicketAssignedConsumer env ce cl msg).2.acks = [.ack])) ∧
    ((processTicketReassigned env ce cl msg).2.exited = false →
      ((processTicketReassigned env ce cl msg).1 ≠ none →
        (StartTicketReassignedConsumer env ce cl msg).2.acks = [.nak]) ∧
      ((processTicketReassigned env ce cl msg).1 = none →
        (StartTicketReassignedConsumer env ce cl msg).2.acks = [.ack])) :=
  ⟨fun hrun => QueueSubscribe_acks (processTicketCreated env ce) cl msg hfresh hrun,
   fun hrun => QueueSubscribe_acks (processTicketAssigned env ce) cl msg hfresh hrun,
   fun hrun => QueueSubscribe_acks (processTicketReassigned env ce) cl msg hfresh hrun⟩

theorem delivery_acknowledgement_witness :
    (processTicketCreated Env.calm sampleConsumerEnv sampleClients sampleMsg).1 =
      some (.text "failed to send email to: [a@x.io]") ∧
    (StartTicketCreatedConsumer Env.calm sampleConsumerEnv sampleClients sampleMsg).2.acks =
      [.nak] ∧
    (processTicketCreated Env.calm quietConsumerEnv sampleClients sampleMsg).1 = none ∧
    (StartTicketCreatedConsumer Env.calm quietConsumerEnv sampleClients sampleMsg).2.acks =
      [.ack] :=
  ⟨by decide,
   ((delivery_acknowledgement Env.calm sampleConsumerEnv sampleClients sampleMsg rfl).1
      (by decide)).1 (by decide),
   by decide,
   ((delivery_acknowledgement Env.calm quietConsumerEnv sampleClients sampleMsg rfl).1
      (by decide)).2 (by decide)⟩

/-! ## C16: a failed DLQ publish -/

/-- C16 on a failed DLQ publish: the send to `a@x.io` fails and the publish of
the DLQ event fails; `PublishEvent` logs the failure with `logger.Fatal`, so the
process has exited, and the delivery ends without any acknowledgement call:
the message is not negatively acknowledged. -/
theorem failed_dlq_publish_exits :
    (StartTicketCreatedConsumer publishDownEnv sampleConsumerEnv sampleClients
      sampleMsg).1.exited = true ∧
    (publishedOn (StartTicketCreatedConsumer publishDownEnv sampleConsumerEnv sampleClients
      sampleMsg).1 "crm.dlq.T2").length = 1 ∧
    (StartTicketCreatedConsumer publishDownEnv sampleConsumerEnv sampleClients
      sampleMsg).2.acks = [] := by
  decide

/-! ## C17: a failed Put in `CancelReminder` -/

/-- C17 on a failed Put: the KV `Put` of `CancelReminder` fails, yet
`CancelReminder` returns nil and `CancelTicketReminder` answers with success;
the record under `reminder_T1_U1` is still `pending`, and its heap entry is
gone. -/
theorem CancelReminder_swallows_put_error :
    kvPut writeDownEnv pendingClient.KV "reminder_T1_U1"
      (.json ⟨"reminder_T1_U1", [1], 300, "canceled", 0⟩) = none ∧
    (CancelReminder writeDownEnv pendingClient "reminder_T1_U1" []
      ⟨"reminder_T1_U1", [1], 300, "pending", 0⟩).1 = none ∧
    (CancelTicketReminder writeDownEnv sampleCtx pendingClient
      (some ⟨"reminder_T1_U1"⟩)).1 = .success "Reminder canceled successfully" ∧
    (CancelTicketReminder writeDownEnv sampleCtx pendingClient
      (some ⟨"reminder_T1_U1"⟩)).2.KV.find "reminder_T1_U1" =
      some ⟨.json ⟨"reminder_T1_U1", [1], 300, "pending", 0⟩, 1⟩ ∧
    keyCount (CancelTicketReminder writeDownEnv sampleCtx pendingClient
      (some ⟨"reminder_T1_U1"⟩)).2.pq "reminder_T1_U1" = 0 := by
  decide

/-! ### The notification loop -/

theorem roleStr_customer (w : Watcher) :
    ((match w.Role with
      | some s => s
      | none => "unknown") = "customer") ↔ w.Role = some "customer" := by
  cases h : w.Role with
  | none => simp
  | some s => simp

/-- The loop of the consumers: an email is attempted, in order, to every
watcher that is not skipped, and the failed recipients are, in order, the
emails of the attempted watchers whose send fails. -/
theorem notifyWatchers_spec (ce : ConsumerEnv) (skipCustomer : Bool) (subject message : String)
    (watchers : List Watcher) : ∀ (i : Nat) (cl : Clients) (failedWatchers : List String),
    notifyWatchers ce skipCustomer subject message i watchers cl failedWatchers =
      (⟨cl.NATSClient, cl.emails ++
          (watchers.filter (fun w => !(skipCustomer && decide (w.Role = some "customer")))).map
            (fun w => ⟨w.Email, subject, message⟩)⟩,
       failedWatchers ++
          ((watchers.enumFrom i).filter (fun p =>
            !(skipCustomer && decide (p.2.Role = some "customer")) &&
              ce.sendFails p.1 p.2.Email)).map (fun p => p.2.Email)) := by
  induction watchers with
  | nil => intro i cl failedWatchers; simp [notifyWatchers]
  | cons w rest ih =>
    intro i cl failedWatchers
    unfold notifyWatchers
    simp only [List.enumFrom_cons, List.filter_cons]
    by_cases hskip : (skipCustomer && decide (w.Role = some "customer")) = true
    · have hs : (skipCustomer && decide ((match w.Role with
          | some s => s
          | none => "unknown") = "customer")) = true := by
        simpa [roleStr_customer] using hskip
      rw [if_pos hs, ih]
      simp [hskip]
    · have hs : ¬ (skipCustomer && decide ((match w.Role with
          | some s => s
          | none => "unknown") = "customer")) = true := by
        simpa [roleStr_customer] using hskip
      rw [if_neg hs]
      have hskip2 : (skipCustomer && decide (w.Role = some "customer")) = false := by
        simpa using hskip
      by_cases hf : ce.sendFails i w.Email = true
      · rw [if_pos hf, ih]
        simp [hskip2, hf]
      · rw [if_neg hf, ih]
        simp [hskip2, hf]

theorem finishNotify_spec (env : Env) (ce : ConsumerEnv) (msg : Msg) (event : TicketEvent)
    (n : NATSClient) (emails : List EmailCall) (failed : List String) (eventId : String)
    (hid : ce.ulid = some eventId) :
    (failed ≠ [] →
      (finishNotify env ce msg event (⟨some n, emails⟩, failed)).1 =
        some (.text ("failed to send email to: " ++ formatStrings failed)) ∧
      (finishNotify env ce msg event (⟨some n, emails⟩, failed)).2.emails = emails ∧
      (finishNotify env ce msg event (⟨some n, emails⟩, failed)).2.NATSClient.map (·.calls) =
        some (n.calls ++ [.publish
          ("crm.dlq." ++
            (if event.Ticket.TicketID ≠ "" then event.Ticket.TicketID else "unknown_ticket"))
          (ce.marshalDLQ ⟨eventId, msg.Subject, ce.format ce.now, event,
            "failed to send email to: " ++ formatStrings failed, 5⟩)])) ∧
    (failed = [] →
      finishNotify env ce msg event (⟨some n, emails⟩, failed) = (none, ⟨some n, emails⟩)) := by
  constructor
  · intro hne
    have hlen : failed.length > 0 := List.length_pos.mpr hne
    unfold finishNotify
    simp only [hlen, if_true, moveToDLQ, hid, PublishEvent, NATSClient.record]
    refine ⟨?_, ?_, ?_⟩
    all_goals first | trivial | rfl | (split <;> rfl)
  · intro he
    subst he
    simp [finishNotify]

/-! ## C13: `processTicketCreated` -/

/-- C13: for a message that decodes to `event`, the watcher list of its ticket,
a NATS client and a ULID at hand, and any outcomes of the sends:
`processTicketCreated` attempts one email to every watcher, in order; when the
list of failed recipients (the emails of the watchers whose send failed, in
watcher order) is not empty it returns the error naming them and makes exactly
one publish, on `crm.dlq.<ticketId>`, of the `DLQEvent` that wraps the event
with that failure reason and `RetryAttempts = 5`; when no send fails it returns
nil and the NATS client is untouched. -/
theorem processTicketCreated_spec (env : Env) (ce : ConsumerEnv) (cl : Clients) (msg : Msg)
    (event : TicketEvent) (watchers : List Watcher) (n : NATSClient) (eventId : String)
    (hdec : ce.unmarshalEvent msg.Data = (event, true))
    (hw : ce.watchers event.Ticket.TicketID = some watchers)
    (hn : cl.NATSClient = some n) (hid : ce.ulid = some eventId) :
    (∃ subject message, (processTicketCreated env ce cl msg).2.emails =
      cl.emails ++ watchers.map (fun w => ⟨w.Email, subject, message⟩)) ∧
    ((watchers.enum.filter (fun p => ce.sendFails p.1 p.2.Email)).map (fun p => p.2.Email) ≠ [] →
      (processTicketCreated env ce cl msg).1 =
        some (.text ("failed to send email to: " ++ formatStrings
          ((watchers.enum.filter (fun p => ce.sendFails p.1 p.2.Email)).map
            (fun p => p.2.Email)))) ∧
      (processTicketCreated env ce cl msg).2.NATSClient.map (·.calls) =
        some (n.calls ++ [.publish
          ("crm.dlq." ++
            (if event.Ticket.TicketID ≠ "" then event.Ticket.TicketID else "unknown_ticket"))
          (ce.marshalDLQ ⟨eventId, msg.Subject, ce.format ce.now, event,
            "failed to send email to: " ++ formatStrings
              ((watchers.enum.filter (fun p => ce.sendFails p.1 p.2.Email)).map
                (fun p => p.2.Email)), 5⟩)])) ∧
    ((watchers.enum.filter (fun p => ce.sendFails p.1 p.2.Email)).map (fun p => p.2.Email) = [] →
      (processTicketCreated env ce cl msg).1 = none ∧
      (processTicketCreated env ce cl msg).2.NATSClient = some n) := by
  unfold processTicketCreated
  simp only [hdec, hw, Bool.not_true, Bool.false_eq_true, if_false]
  rw [notifyWatchers_spec]
  simp only [Bool.false_and, Bool.not_false, List.filter_true, Bool.true_and, List.nil_append,
    hn]
  have hspec := finishNotify_spec env ce msg event n
  refine ⟨?_, ?_, ?_⟩
  · refine ⟨"[Ticket ID: " ++ event.Ticket.TicketID ++ "] Status Update",
      "A new support ticket has been created.\n\nTicket ID: " ++
        event.Ticket.TicketID ++ "\nStatus: " ++ event.Ticket.Status ++ "\nPriority: " ++
        event.Ticket.Priority ++ ".", ?_⟩
    by_cases hf : (watchers.enum.filter (fun p => ce.sendFails p.1 p.2.Email)).map
        (fun p => p.2.Email) = []
    · rw [List.enum] at hf
      rw [(hspec _ _ eventId hid).2 hf]
    · rw [List.enum] at hf
      rw [((hspec _ _ eventId hid).1 hf).2.1]
  · intro hf
    rw [List.enum] at hf ⊢
    exact ⟨((hspec _ _ eventId hid).1 hf).1, ((hspec _ _ eventId hid).1 hf).2.2⟩
  · intro hf
    rw [List.enum] at hf
    rw [(hspec _ _ eventId hid).2 hf]
    exact ⟨rfl, rfl⟩

theorem processTicketCreated_spec_witness :
    (processTicketCreated Env.calm sampleConsumerEnv sampleClients sampleMsg).1 =
      some (.text "failed to send email to: [a@x.io]") ∧
    (processTicketCreated Env.calm sampleConsumerEnv sampleClients sampleMsg).2.NATSClient.map
      (·.calls) = some [.publish "crm.dlq.T2" [5, 33]] := by
  have h := (processTicketCreated_spec Env.calm sampleConsumerEnv sampleClients sampleMsg
    sampleEvent
    [⟨"a@x.io", some "employee"⟩, ⟨"b@x.io", some "customer"⟩, ⟨"c@x.io", none⟩]
    emptyClient "01D" (by decide) (by decide) rfl rfl).2.1 (by decide)
  exact ⟨h.1.trans (by decide), h.2.trans (by decide)⟩

/-! ## C14: DLQ messages for one message -/

/-- The clients after one delivery are those the processing function leaves. -/
theorem QueueSubscribe_clients (process : Clients → Msg → Option GoError × Clients)
    (cl : Clients) (msg : Msg) :
    (QueueSubscribe (consumerHandler process) cl msg).1 = (process cl msg).2 := by
  unfold QueueSubscribe consumerHandler
  generalize process cl msg = r
  obtain ⟨e, c⟩ := r
  cases hx : c.exited <;> cases e <;> simp [hx]

/-- The calls of the NATS client after `processTicketCreated`, when a send has
failed: those made before and the publish of the DLQ event. -/
theorem processTicketCreated_calls (env : Env) (ce : ConsumerEnv) (cl : Clients) (msg : Msg)
    (event : TicketEvent) (watchers : List Watcher) (n : NATSClient) (eventId : String)
    (hdec : ce.unmarshalEvent msg.Data = (event, true))
    (hw : ce.watchers event.Ticket.TicketID = some watchers)
    (hn : cl.NATSClient = some n) (hid : ce.ulid = some eventId)
    (hfail : (watchers.enum.filter (fun p => ce.sendFails p.1 p.2.Email)).map
      (fun p => p.2.Email) ≠ []) :
    ∃ payload, (processTicketCreated env ce cl msg).2.NATSClient.map (·.calls) =
      some (n.calls ++ [.publish
        ("crm.dlq." ++
          (if event.Ticket.TicketID ≠ "" then event.Ticket.TicketID else "unknown_ticket"))
        payload]) := by
  unfold processTicketCreated
  simp only [hdec, hw, Bool.not_true, Bool.false_eq_true, if_false]
  rw [notifyWatchers_spec]
  simp only [Bool.false_and, Bool.not_false, List.filter_true, Bool.true_and, List.nil_append,
    hn]
  rw [List.enum] at hfail
  exact ⟨_, ((finishNotify_spec env ce msg event n _ _ eventId hid).1 hfail).2.2⟩

/-- The publishes on a subject, after one more publish on it. -/
theorem publishedOn_append (cl cl1 : Clients) (n : NATSClient) (subject : String)
    (payload : Bytes) (hn : cl.NATSClient = some n)
    (h1 : cl1.NATSClient.map (·.calls) = some (n.calls ++ [.publish subject payload])) :
    publishedOn cl1 subject = publishedOn cl subject ++ [.publish subject payload] := by
  unfold publishedOn
  rw [hn]
  cases hc : cl1.NATSClient with
  | none => simp [hc] at h1
  | some n1 =>
    simp only [hc, Option.map_some', Option.some.injEq] at h1
    simp [h1]

/-- C14: the subscription hands a message published on
`crm.tickets.created.<ticketId>` to the callback once and never delivers it
again (so it is delivered at most five times); when a send fails on that
delivery, the run of the subscription on the message publishes exactly one
message on `crm.dlq.<ticketId>`: the publishes on that subject are those made
before the message and one more. -/
theorem dlq_once_per_message (env : Env) (ce : ConsumerEnv) (cl : Clients) (msg : Msg)
    (event : TicketEvent) (watchers : List Watcher) (n : NATSClient) (eventId : String)
    (hdec : ce.unmarshalEvent msg.Data = (event, true))
    (hw : ce.watchers event.Ticket.TicketID = some watchers)
    (hn : cl.NATSClient = some n) (hid : ce.ulid = some eventId)
    (hfail : (watchers.enum.filter (fun p => ce.sendFails p.1 p.2.Email)).map
      (fun p => p.2.Email) ≠ []) :
    deliverPublished (StartTicketCreatedConsumer env ce) cl [msg] =
      (StartTicketCreatedConsumer env ce cl msg).1 ∧
    (publishedOn (deliverPublished (StartTicketCreatedConsumer env ce) cl [msg])
      ("crm.dlq." ++
        (if event.Ticket.TicketID ≠ "" then event.Ticket.TicketID else "unknown_ticket"))).length =
      (publishedOn cl ("crm.dlq." ++
        (if event.Ticket.TicketID ≠ "" then event.Ticket.TicketID
          else "unknown_ticket"))).length + 1 := by
  obtain ⟨payload, hcalls⟩ := processTicketCreated_calls env ce cl msg event watchers n eventId
    hdec hw hn hid hfail
  refine ⟨rfl, ?_⟩
  have hrun : deliverPublished (StartTicketCreatedConsumer env ce) cl [msg] =
      (processTicketCreated env ce cl msg).2 := by
    simp only [deliverPublished, List.foldl_cons, List.foldl_nil, StartTicketCreatedConsumer]
    exact QueueSubscribe_clients _ _ _
  rw [hrun, publishedOn_append cl _ n _ payload hn hcalls]
  simp

theorem dlq_once_per_message_witness :
    (publishedOn sampleClients "crm.dlq.T2").length = 0 ∧
    (publishedOn (deliverPublished (StartTicketCreatedConsumer Env.calm sampleConsumerEnv)
      sampleClients [sampleMsg]) "crm.dlq.T2").length = 1 := by
  have h := (dlq_once_per_message Env.calm sampleConsumerEnv sampleClients sampleMsg
    sampleEvent
    [⟨"a@x.io", some "employee"⟩, ⟨"b@x.io", some "customer"⟩, ⟨"c@x.io", none⟩]
    emptyClient "01D" (by decide) (by decide) rfl rfl (by decide)).2
  exact ⟨by decide, h.trans (by decide)⟩

/-! ## C15: a payload that does not decode -/

/-- C15, as stated, fails: the data `[2]` does not decode, and a delivery of it
to each of the three consumers publishes nothing (no DLQ event) and sends no
email; the only effect is the Nak that the handler sends (the `msg.Ack()` of
`QueueSubscribe` that follows finds the message acknowledged and sends
nothing). -/
theorem undecodable_is_not_sent_to_dlq :
    (sampleConsumerEnv.unmarshalEvent [2]).2 = false ∧
    StartTicketCreatedConsumer Env.calm sampleConsumerEnv sampleClients
      ⟨"crm.tickets.created.T2", [2], []⟩ =
      (sampleClients, ⟨"crm.tickets.created.T2", [2], [.nak]⟩) ∧
    StartTicketAssignedConsumer Env.calm sampleConsumerEnv sampleClients
      ⟨"crm.tickets.assigned.T2", [2], []⟩ =
      (sampleClients, ⟨"crm.tickets.assigned.T2", [2], [.nak]⟩) ∧
    StartTicketReassignedConsumer Env.calm sampleConsumerEnv sampleClients
      ⟨"crm.tickets.reassigned.T2", [2], []⟩ =
      (sampleClients, ⟨"crm.tickets.reassigned.T2", [2], [.nak]⟩) ∧
    sampleClients.NATSClient.map (·.calls) = some [] := by
  decide

/-- C15, amended: for every message whose payload does not decode as a
`TicketEvent`, each of the three consumers returns the decode error on that
delivery and leaves the clients as they were: no DLQ event is published and no
email is sent; the handler then calls `msg.Nak()`. -/
theorem undecodable_returns_error (env : Env) (ce : ConsumerEnv) (cl : Clients) (msg : Msg)
    (hdec : (ce.unmarshalEvent msg.Data).2 = false) :
    processTicketCreated env ce cl msg = (some .unmarshal, cl) ∧
    processTicketAssigned env ce cl msg = (some .unmarshal, cl) ∧
    processTicketReassigned env ce cl msg = (some .unmarshal, cl) ∧
    (cl.exited = false →
      consumerHandler (processTicketCreated env ce) cl msg = (cl, msg.Nak) ∧
      consumerHandler (processTicketAssigned env ce) cl msg = (cl, msg.Nak) ∧
      consumerHandler (processTicketReassigned env ce) cl msg = (cl, msg.Nak)) := by
  have h1 : processTicketCreated env ce cl msg = (some .unmarshal, cl) := by
    simp [processTicketCreated, hdec]
  have h2 : processTicketAssigned env ce cl msg = (some .unmarshal, cl) := by
    simp [processTicketAssigned, hdec]
  have h3 : processTicketReassigned env ce cl msg = (some .unmarshal, cl) := by
    simp [processTicketReassigned, hdec]
  refine ⟨h1, h2, h3, ?_⟩
  intro hx
  simp [consumerHandler, h1, h2, h3, hx]

theorem undecodable_returns_error_witness :
    processTicketCreated Env.calm sampleConsumerEnv sampleClients
      ⟨"crm.tickets.created.T2", [2], []⟩ = (some .unmarshal, sampleClients) :=
  (undecodable_returns_error Env.calm sampleConsumerEnv sampleClients
    ⟨"crm.tickets.created.T2", [2], []⟩ (by decide)).1

/-! ## C20: the assigned and the reassigned consumer skip customers -/

/-- C20: for a message that decodes to `event` and the watcher list of its
ticket, the assigned and the reassigned consumer attempt exactly one email, in
order, to every watcher whose role is not the string `customer` (a role that is
not a string included) and none to the others, with the subject
`[Ticket ID: <id>] Assignment Update`, respectively
`[Ticket ID: <id>] Reassignment Update`; and the error they return names
exactly the attempted watchers whose send failed, so never a skipped
customer: it is nil when none of those sends fails. -/
theorem assigned_reassigned_skip_customers (env : Env) (ce : ConsumerEnv) (cl : Clients)
    (msg : Msg) (event : TicketEvent) (watchers : List Watcher)
    (hdec : ce.unmarshalEvent msg.Data = (event, true))
    (hw : ce.watchers event.Ticket.TicketID = some watchers) :
    (∃ message, (processTicketAssigned env ce cl msg).2.emails =
      cl.emails ++ (watchers.filter (fun w => decide (w.Role ≠ some "customer"))).map
        (fun w => ⟨w.Email, "[Ticket ID: " ++ event.Ticket.TicketID ++ "] Assignment Update",
          message⟩)) ∧
    (∃ message, (processTicketReassigned env ce cl msg).2.emails =
      cl.emails ++ (watchers.filter (fun w => decide (w.Role ≠ some "customer"))).map
        (fun w => ⟨w.Email, "[Ticket ID: " ++ event.Ticket.TicketID ++ "] Reassignment Update",
          message⟩)) ∧
    (processTicketAssigned env ce cl msg).1 =
      (if (watchers.enum.filter (fun p => decide (p.2.Role ≠ some "customer") &&
          ce.sendFails p.1 p.2.Email)).map (fun p => p.2.Email) = [] then none
       else some (.text ("failed to send email to: " ++ formatStrings
        ((watchers.enum.filter (fun p => decide (p.2.Role ≠ some "customer") &&
          ce.sendFails p.1 p.2.Email)).map (fun p => p.2.Email))))) ∧
    (processTicketReassigned env ce cl msg).1 =
      (if (watchers.enum.filter (fun p => decide (p.2.Role ≠ some "customer") &&
          ce.sendFails p.1 p.2.Email)).map (fun p => p.2.Email) = [] then none
       else some (.text ("failed to send email to: " ++ formatStrings
        ((watchers.enum.filter (fun p => decide (p.2.Role ≠ some "customer") &&
          ce.sendFails p.1 p.2.Email)).map (fun p => p.2.Email))))) := by
  have hfin : ∀ (r : Clients × List String),
      (finishNotify env ce msg event r).2.emails = r.1.emails ∧
      (finishNotify env ce msg event r).1 =
        (if r.2 = [] then none
         else some (.text ("failed to send email to: " ++ formatStrings r.2))) := by
    intro r
    unfold finishNotify
    by_cases hr : r.2 = []
    · simp [hr]
    · have hlen : r.2.length > 0 := List.length_pos.mpr hr
      simp only [hlen, if_true, hr, if_false, moveToDLQ, and_true]
      split
      · rfl
      · split <;> rfl
  have hfilter : ∀ w : Watcher,
      (!(true && decide (w.Role = some "customer"))) = decide (w.Role ≠ some "customer") := by
    intro w
    by_cases h : w.Role = some "customer" <;> simp [h]
  unfold processTicketAssigned processTicketReassigned
  simp only [hdec, hw, Bool.not_true, Bool.false_eq_true, if_false]
  rw [notifyWatchers_spec, notifyWatchers_spec]
  simp only [hfilter, List.nil_append, List.enum]
  refine ⟨⟨_, (hfin _).1⟩, ⟨_, (hfin _).1⟩, (hfin _).2, (hfin _).2⟩

theorem assigned_reassigned_skip_customers_witness :
    (processTicketAssigned Env.calm sampleConsumerEnv sampleClients sampleMsg).1 =
      some (.text "failed to send email to: [a@x.io]") ∧
    ((processTicketAssigned Env.calm sampleConsumerEnv sampleClients sampleMsg).2.emails.map
      (fun e => (e.recipient, e.subject))) =
      [("a@x.io", "[Ticket ID: T2] Assignment Update"),
       ("c@x.io", "[Ticket ID: T2] Assignment Update")] := by
  have h := assigned_reassigned_skip_customers Env.calm sampleConsumerEnv sampleClients
    sampleMsg sampleEvent
    [⟨"a@x.io", some "employee"⟩, ⟨"b@x.io", some "customer"⟩, ⟨"c@x.io", none⟩]
    (by decide) (by decide)
  exact ⟨h.2.2.1.trans (by decide), by decide⟩

/-! ## C18: the errors of `SnoozeReminder` -/

/-- C18: `SnoozeReminder(key, d)` returns `reminder not found` when the KV
`Get` fails and `invalid reminder data` when the stored value does not decode,
having made no call but the `Get` (so no KV write) and changed nothing else;
and whenever it returns an error, the heap and the bucket are exactly as
before the call. -/
theorem SnoozeReminder_errors (env : Env) (n : NATSClient) (key : String) (d : Duration) :
    (kvGet env n.KV key = none →
      SnoozeReminder env n key d =
        (some (.text "reminder not found"), n.record (.kvGet key))) ∧
    (∀ e, kvGet env n.KV key = some e → (jsonUnmarshal e.value).2 = false →
      SnoozeReminder env n key d =
        (some (.text "invalid reminder data"), n.record (.kvGet key))) ∧
    (∀ e, kvGet env n.KV key = some e → (jsonUnmarshal e.value).2 = true →
      env.writeFails = true →
      (SnoozeReminder env n key d).1 = some (.text "failed to save updated reminder")) ∧
    ((SnoozeReminder env n key d).1 ≠ none →
      (SnoozeReminder env n key d).2.pq = n.pq ∧
      (SnoozeReminder env n key d).2.KV = n.KV) := by
  refine ⟨?_, ?_, ?_, ?_⟩
  · intro hg
    simp [SnoozeReminder, hg]
  · intro e hg hd
    simp [SnoozeReminder, hg, hd]
  · intro e hg hd hw
    simp [SnoozeReminder, hg, hd, jsonMarshalStored, kvPut, hw]
  · intro herr
    unfold SnoozeReminder at herr ⊢
    cases hg : kvGet env n.KV key with
    | none => simp [NATSClient.record]
    | some e =>
      cases hd : (jsonUnmarshal e.value).2 with
      | false => simp [hd, NATSClient.record]
      | true =>
        cases hp : kvPut env n.KV key
            (.json { (jsonUnmarshal e.value).1 with
              RemindTime := (jsonUnmarshal e.value).1.RemindTime + d }) with
        | none => simp [hd, hp, jsonMarshalStored, NATSClient.record]
        | some kv => simp [hg, hd, hp, jsonMarshalStored] at herr

theorem SnoozeReminder_errors_witness :
    SnoozeReminder getDownEnv pendingClient "reminder_T1_U1" 5 =
      (some (.text "reminder not found"), pendingClient.record (.kvGet "reminder_T1_U1")) ∧
    SnoozeReminder Env.calm coldClient "reminder_T3_U1" 5 =
      (some (.text "invalid reminder data"), coldClient.record (.kvGet "reminder_T3_U1")) ∧
    (SnoozeReminder writeDownEnv pendingClient "reminder_T1_U1" 5).2.pq = pendingClient.pq :=
  ⟨(SnoozeReminder_errors getDownEnv pendingClient "reminder_T1_U1" 5).1 (by decide),
   (SnoozeReminder_errors Env.calm coldClient "reminder_T3_U1" 5).2.1
     ⟨.malformed Reminder.zero, 4⟩ (by decide) (by decide),
   ((SnoozeReminder_errors writeDownEnv pendingClient "reminder_T1_U1" 5).2.2.2
     (by decide)).1⟩

/-! ## C19: an undecodable record during recovery -/

theorem loadExistingReminder_congr (env : Env) (n m : NATSClient) (key : String)
    (hkv : n.KV = m.KV) (hpq : n.pq = m.pq) :
    (loadExistingReminder env n key).KV = (loadExistingReminder env m key).KV ∧
    (loadExistingReminder env n key).pq = (loadExistingReminder env m key).pq := by
  unfold loadExistingReminder
  simp only [NATSClient.record, hkv, hpq]
  split
  · exact ⟨rfl, rfl⟩
  · split
    · exact ⟨rfl, rfl⟩
    · split <;> exact ⟨rfl, rfl⟩

theorem foldl_loadExistingReminder_congr (env : Env) (keys : List String) (n m : NATSClient)
    (hkv : n.KV = m.KV) (hpq : n.pq = m.pq) :
    (keys.foldl (loadExistingReminder env) n).pq =
      (keys.foldl (loadExistingReminder env) m).pq := by
  induction keys generalizing n m with
  | nil => exact hpq
  | cons key keys ih =>
    simp only [List.foldl_cons]
    obtain ⟨h1, h2⟩ := loadExistingReminder_congr env n m key hkv hpq
    exact ih _ _ h1 h2

theorem loadExistingReminder_undecodable (env : Env) (n : NATSClient) (key : String)
    (hbad : ∀ e, kvGet env n.KV key = some e → (jsonUnmarshal e.value).2 = false) :
    (loadExistingReminder env n key).pq = n.pq := by
  unfold loadExistingReminder
  simp only [NATSClient.record]
  cases hg : kvGet env n.KV key with
  | none => rfl
  | some e => simp [hbad e hg]

/-- C19: let the bucket list the key `bad`, whose value does not decode,
between the keys `before` and the keys `after`.  The heap after
`loadExistingReminders` is the heap the same loop builds over `before` and
`after` alone, so the undecodable record contributes no entry and does not
stop the loop: every record that is listed after it, is read and decodes as
pending is in the heap. -/
theorem loadExistingReminders_skips_undecodable (env : Env) (n : NATSClient)
    (before after : List String) (bad : String)
    (hkeys : env.keysFails = false)
    (hlist : n.KV.keys = before ++ bad :: after)
    (hbad : ∀ e, kvGet env n.KV bad = some e → (jsonUnmarshal e.value).2 = false) :
    (loadExistingReminders env n).pq =
      ((before ++ after).foldl (loadExistingReminder env) (n.record .kvKeys)).pq ∧
    (∀ key ∈ after, ∀ e r, kvGet env n.KV key = some e →
      jsonUnmarshal e.value = (r, true) → r.Status = "pending" →
      r ∈ (loadExistingReminders env n).pq) := by
  unfold loadExistingReminders
  simp only [hkeys, Bool.false_eq_true, if_false, hlist]
  constructor
  · rw [List.foldl_append, List.foldl_append, List.foldl_cons]
    have hkv := (mem_foldl_loadExistingReminder env before (n.record .kvKeys)
      ⟨"", [], 0, "", 0⟩).1
    apply foldl_loadExistingReminder_congr
    · rw [KV_loadExistingReminder]
    · apply loadExistingReminder_undecodable
      intro e he
      rw [hkv] at he
      exact hbad e he
  · intro key hkey e r hg hd hs
    rw [(mem_foldl_loadExistingReminder env _ _ r).2]
    right
    exact ⟨key, by simp [hkey], e, hg, hd, hs⟩

theorem loadExistingReminders_skips_undecodable_witness :
    (loadExistingReminders Env.calm coldClient).pq =
      ((["reminder_T1_U1", "reminder_T2_U1"] ++ ["reminder_T4_U1"]).foldl
        (loadExistingReminder Env.calm) (coldClient.record .kvKeys)).pq ∧
    (⟨"reminder_T4_U1", [4], 200, "pending", 0⟩ : Reminder) ∈
      (loadExistingReminders Env.calm coldClient).pq := by
  have h := loadExistingReminders_skips_undecodable Env.calm coldClient
    ["reminder_T1_U1", "reminder_T2_U1"] ["reminder_T4_U1"] "reminder_T3_U1" rfl
    (by decide) (by decide)
  exact ⟨h.1, h.2 "reminder_T4_U1" (by decide)
    ⟨.json ⟨"reminder_T4_U1", [4], 200, "pending", 0⟩, 5⟩ _ (by decide) (by decide) rfl⟩

/-! ## C21: the statuses in the heap -/

/-- C21 on a run: the bucket holds a `completed` record under
`reminder_T1_U1`; recovery into the empty heap pushes nothing; then
`SnoozeReminder` for that key succeeds and pushes the reminder as it read it,
so the heap holds an entry whose `Status` is `completed`, and the next round of
the fire loop fires it once more. -/
theorem snooze_pushes_completed :
    (loadExistingReminders Env.calm completedClient).pq = [] ∧
    (SnoozeReminder Env.calm (loadExistingReminders Env.calm completedClient)
      "reminder_T1_U1" 5).1 = none ∧
    (runScheduler (loadExistingReminders Env.calm completedClient)
      [.snooze Env.calm "reminder_T1_U1" 5]).pq =
      [⟨"reminder_T1_U1", [1, 2], 105, "completed", 1⟩] ∧
    (processReminders Env.calm [105]
      (runScheduler (loadExistingReminders Env.calm completedClient)
        [.snooze Env.calm "reminder_T1_U1" 5])).1 = ["reminder_T1_U1"] := by
  decide

/-! ## C27 and C28: what happens between the peek and the pop -/

theorem processRemindersRound_sections (env : Env) (now : Time) (n : NATSClient) :
    processRemindersRound env now n =
      match fireRoundInterleaved env now n [] with
      | .idle n1 => (none, n1)
      | .panicked n1 => (none, n1)
      | .fired key _ n1 => (some key, n1) := by
  unfold processRemindersRound fireRoundInterleaved firePeek fireAfterPeek runScheduler
  simp only [List.foldl]
  by_cases hlen : n.pq.length = 0
  · simp [hlen]
  · simp only [hlen, if_false]
    by_cases hdue : Sub (entryAt n.pq 0).RemindTime now ≤ 0
    · simp only [hdue, if_true]
      cases heapPop n.pq <;> rfl
    · simp [hdue]

/-- C27 on an interleaving: the heap holds the one reminder of
`reminder_T1_U1`, due at 300, and the clock reads 1000.  The fire loop peeks it
and releases the mutex; `CancelReminder` for that key runs and removes the
entry; the fire loop takes the mutex again and calls `heap.Pop` on the empty
queue, which panics. -/
theorem pop_after_cancel_panics :
    firePeek 1000 dueClient = some ⟨"reminder_T1_U1", [1], 300, "pending", 0⟩ ∧
    (runScheduler dueClient
      [.cancel Env.calm "reminder_T1_U1" [] ⟨"reminder_T1_U1", [1], 300, "pending", 0⟩]).pq
      = [] ∧
    heapPop ([] : ReminderPriorityQueue) = none ∧
    (∃ n1, fireRoundInterleaved Env.calm 1000 dueClient
      [.cancel Env.calm "reminder_T1_U1" [] ⟨"reminder_T1_U1", [1], 300, "pending", 0⟩] =
        .panicked n1) := by
  refine ⟨by decide, by decide, by decide, ⟨_, rfl⟩⟩

/-- C28 on an interleaving: the heap holds the reminder of `reminder_T1_U1`,
due at 300, and the clock reads 1000.  The fire loop peeks it and releases the
mutex; the watch loop processes an update for `reminder_T2_U1`, due at 100, and
pushes it; the fire loop takes the mutex again: `heap.Pop` removes the entry
of `reminder_T2_U1`, and `markReminderCompleted` is called with
`reminder_T1_U1`.  The entry of `reminder_T2_U1` is gone without having been
fired, and the entry of `reminder_T1_U1` is still in the heap. -/
theorem pop_removes_another_entry :
    (∃ n1, fireRoundInterleaved Env.calm 1000 dueClient
      [.watchRemove "reminder_T2_U1",
       .watchPush (.json ⟨"reminder_T2_U1", [2], 100, "pending", 0⟩)] =
        .fired "reminder_T1_U1" ⟨"reminder_T2_U1", [2], 100, "pending", 0⟩ n1 ∧
      n1.pq = [⟨"reminder_T1_U1", [1], 300, "pending", 0⟩] ∧
      n1.calls = [.kvGet "reminder_T1_U1",
        .kvPut "reminder_T1_U1" (.json ⟨"reminder_T1_U1", [1], 300, "completed", 1⟩),
        .publish "crm.tickets.reminder.T1_U1" [1]]) ∧
    (⟨"reminder_T2_U1", [2], 100, "pending", 0⟩ : Reminder).Key ≠ "reminder_T1_U1" := by
  refine ⟨⟨_, rfl, by decide, by decide⟩, by decide⟩

/-! ## C22 and C23: one watch update -/

theorem count_removeKey_other (pq : ReminderPriorityQueue) (key : String) (x : Reminder)
    (hx : x.Key ≠ key) : (removeKey pq key).count x = pq.count x := by
  rcases removeKey_spec pq key with ⟨_, heq⟩ | ⟨y, hy, hp⟩
  · rw [heq]
  · rw [← hp.count_eq x, List.count_cons]
    have : (y == x) = false := by
      rw [beq_eq_false_iff_ne]
      intro h
      exact hx (h ▸ hy)
    simp [this]

theorem count_heapPush_other (pq : ReminderPriorityQueue) (r x : Reminder) (hx : x ≠ r) :
    (heapPush pq r).count x = pq.count x := by
  rw [(heapPush_perm pq r).count_eq x, List.count_cons]
  have : (r == x) = false := by
    rw [beq_eq_false_iff_ne]
    exact Ne.symm hx
  simp [this]

/-- C22: let the heap hold at most one entry for `key`, and let the value of
the update be non-empty and, if it decodes, carry `key` in its `Key` field.
After the watch loop has processed the update `(key, rawValue)`, the heap holds
an entry for `key` if and only if the value decodes as a reminder with status
`pending`; that entry is then the decoded value, and it is the only one for
`key`; and every entry of another key is in the heap as many times as
before. -/
theorem watchKVUpdate_spec (n : NATSClient) (key : String) (rawValue : Value)
    (hne : rawValue.isEmpty = false) (huniq : keyCount n.pq key ≤ 1)
    (hkey : ∀ r, jsonUnmarshal rawValue = (r, true) → r.Key = key) :
    ((∃ x ∈ (watchKVUpdate n (some (key, rawValue))).pq, x.Key = key) ↔
      ∃ r, jsonUnmarshal rawValue = (r, true) ∧ r.Status = "pending") ∧
    (∀ r, jsonUnmarshal rawValue = (r, true) → r.Status = "pending" →
      r ∈ (watchKVUpdate n (some (key, rawValue))).pq ∧
      keyCount (watchKVUpdate n (some (key, rawValue))).pq key = 1 ∧
      ∀ x ∈ (watchKVUpdate n (some (key, rawValue))).pq, x.Key = key → x = r) ∧
    (∀ x : Reminder, x.Key ≠ key →
      (watchKVUpdate n (some (key, rawValue))).pq.count x = n.pq.count x) := by
  have h0 : keyCount (removeKey n.pq key) key = 0 := by
    rw [keyCount_removeKey]; omega
  have hno := (keyCount_eq_zero _ _).mp h0
  unfold watchKVUpdate
  simp only [hne, Bool.false_eq_true, if_false]
  generalize hdec : jsonUnmarshal rawValue = dec at hkey
  obtain ⟨r, ok⟩ := dec
  cases ok with
  | false =>
    simp only [Bool.not_false, if_true, Prod.mk.injEq, Bool.false_eq_true, and_false,
      false_and, exists_false, iff_false, not_exists, not_and, false_implies, implies_true,
      true_and]
    exact ⟨fun x hx => hno x hx, fun x hx => count_removeKey_other _ _ _ hx⟩
  | true =>
    have hrk : r.Key = key := hkey r rfl
    simp only [Bool.not_true, Bool.false_eq_true, if_false, Prod.mk.injEq, and_true]
    by_cases hs : r.Status = "pending"
    · simp only [hs, if_true]
      refine ⟨?_, ?_, ?_⟩
      · constructor
        · intro _; exact ⟨r, rfl, hs⟩
        · intro _; exact ⟨r, (mem_heapPush _ _ _).mpr (Or.inl rfl), hrk⟩
      · intro r1 hr1 _
        subst hr1
        refine ⟨(mem_heapPush _ _ _).mpr (Or.inl rfl), ?_, ?_⟩
        · rw [keyCount_heapPush, h0, if_pos hrk]
        · intro x hx hxk
          rcases (mem_heapPush _ _ _).mp hx with h | h
          · exact h
          · exact absurd hxk (hno x h)
      · intro x hx
        rw [count_heapPush_other _ _ _ (fun h => hx (by rw [h]; exact hrk)),
          count_removeKey_other _ _ _ hx]
    · simp only [hs, if_false]
      refine ⟨?_, ?_, ?_⟩
      · constructor
        · rintro ⟨x, hx, hxk⟩; exact absurd hxk (hno x hx)
        · rintro ⟨r1, hr1, hs1⟩; subst hr1; exact absurd hs1 hs
      · intro r1 hr1 hs1
        subst hr1
        exact absurd hs1 hs
      · intro x hx
        exact count_removeKey_other _ _ _ hx

theorem watchKVUpdate_spec_witness :
    (⟨"reminder_T1_U1", [1], 900, "pending", 0⟩ : Reminder) ∈
      (watchKVUpdate pendingClient
        (some ("reminder_T1_U1", .json ⟨"reminder_T1_U1", [1], 900, "pending", 0⟩))).pq ∧
    keyCount (watchKVUpdate pendingClient
        (some ("reminder_T1_U1", .json ⟨"reminder_T1_U1", [1], 900, "pending", 0⟩))).pq
      "reminder_T1_U1" = 1 :=
  ⟨((watchKVUpdate_spec pendingClient "reminder_T1_U1"
      (.json ⟨"reminder_T1_U1", [1], 900, "pending", 0⟩) rfl (by decide)
      (by intro r h; simp [jsonUnmarshal] at h; rw [← h])).2.1 _ rfl rfl).1,
   ((watchKVUpdate_spec pendingClient "reminder_T1_U1"
      (.json ⟨"reminder_T1_U1", [1], 900, "pending", 0⟩) rfl (by decide)
      (by intro r h; simp [jsonUnmarshal] at h; rw [← h])).2.1 _ rfl rfl).2.1⟩

/-- C23, as stated, fails: the heap holds the entry of `reminder_T1_U1`; after
the watch event for that key with an empty value the entry is gone. -/
theorem empty_update_removes_entry :
    keyCount pendingClient.pq "reminder_T1_U1" = 1 ∧
    (watchKVUpdate pendingClient (some ("reminder_T1_U1", .empty))).pq =
      [⟨"reminder_T2_U1", [2], 200, "pending", 0⟩] ∧
    (watchKVUpdate pendingClient (some ("reminder_T1_U1", .empty))).pq ≠ pendingClient.pq := by
  decide

/-- C23, amended: a watch event for `key` with an empty value pushes nothing
and touches nothing but the heap: the loop removes one heap entry of `key` if
there is one, every entry of another key is in the heap as many times as
before, and a heap without an entry for `key` is left identical. -/
theorem empty_update_spec (n : NATSClient) (key : String) :
    watchKVUpdate n (some (key, .empty)) = { n with pq := removeKey n.pq key } ∧
    keyCount (watchKVUpdate n (some (key, .empty))).pq key = keyCount n.pq key - 1 ∧
    (∀ x : Reminder, x.Key ≠ key →
      (watchKVUpdate n (some (key, .empty))).pq.count x = n.pq.count x) ∧
    (keyCount n.pq key = 0 → watchKVUpdate n (some (key, .empty)) = n) := by
  have h : watchKVUpdate n (some (key, .empty)) = { n with pq := removeKey n.pq key } := by
    simp [watchKVUpdate, Value.isEmpty]
  rw [h]
  refine ⟨rfl, keyCount_removeKey _ _, fun x hx => count_removeKey_other _ _ _ hx, ?_⟩
  intro h0
  rcases removeKey_spec n.pq key with ⟨_, heq⟩ | ⟨y, hy, hp⟩
  · rw [heq]
  · exfalso
    have := (keyCount_eq_zero _ _).mp h0 y (hp.subset (List.mem_cons_self _ _))
    exact this hy

theorem empty_update_spec_witness :
    watchKVUpdate pendingClient (some ("reminder_T9_U9", .empty)) = pendingClient :=
  (empty_update_spec pendingClient "reminder_T9_U9").2.2.2 (by decide)

/-! ## C24 and C29: `markReminderCompleted` on a record that is present -/

theorem markReminderCompleted_present (env : Env) (n : NATSClient) (key : String)
    (e : KVEntry) (hg : kvGet env n.KV key = some e) :
    (env.writeFails = false →
      (markReminderCompleted env n key).calls = n.calls ++
        [.kvGet key,
         .kvPut key (.json { (jsonUnmarshal e.value).1 with
            Status := "completed", Revision := e.revision }),
         .publish ("crm.tickets.reminder." ++ TrimPrefix key "reminder_")
            (jsonUnmarshal e.value).1.EventData] ∧
      (markReminderCompleted env n key).KV.find key =
        some ⟨.json { (jsonUnmarshal e.value).1 with
            Status := "completed", Revision := e.revision }, n.KV.seq + 1⟩) ∧
    (env.writeFails = true →
      (markReminderCompleted env n key).calls = n.calls ++
        [.kvGet key,
         .kvPut key (.json { (jsonUnmarshal e.value).1 with
            Status := "completed", Revision := e.revision })] ∧
      (markReminderCompleted env n key).KV = n.KV) := by
  constructor
  · intro hw
    unfold markReminderCompleted
    simp only [hg, jsonMarshalStored, kvPut, hw, Bool.false_eq_true, if_false, NATSClient.record,
      triggerReminder, PublishEvent]
    refine ⟨?_, ?_⟩
    · split <;> simp
    · have := find_write_self n.KV key (.json { (jsonUnmarshal e.value).1 with
        Status := "completed", Revision := e.revision })
      split <;> simpa using this
  · intro hw
    unfold markReminderCompleted
    simp [hg, jsonMarshalStored, kvPut, hw, NATSClient.record]

/-- C24: for a record `r` stored under `key` (pending, or of any other status)
that the `Get` returns with revision `rev`, `markReminderCompleted(key)` Puts
under `key` the record with `r`'s key, payload and remind time and the status
`completed`; when the Put succeeds its next and last call is one publish, of
exactly `r`'s payload, and when the Put fails it makes no further call, so
nothing is published. -/
theorem markReminderCompleted_pending (env : Env) (n : NATSClient) (key : String)
    (r : Reminder) (rev : Nat) (hg : kvGet env n.KV key = some ⟨.json r, rev⟩) :
    (env.writeFails = false →
      (markReminderCompleted env n key).calls = n.calls ++
        [.kvGet key,
         .kvPut key (.json ⟨r.Key, r.EventData, r.RemindTime, "completed", rev⟩),
         .publish ("crm.tickets.reminder." ++ TrimPrefix key "reminder_") r.EventData] ∧
      (markReminderCompleted env n key).KV.find key =
        some ⟨.json ⟨r.Key, r.EventData, r.RemindTime, "completed", rev⟩, n.KV.seq + 1⟩) ∧
    (env.writeFails = true →
      (markReminderCompleted env n key).calls = n.calls ++
        [.kvGet key,
         .kvPut key (.json ⟨r.Key, r.EventData, r.RemindTime, "completed", rev⟩)] ∧
      (markReminderCompleted env n key).KV = n.KV) :=
  markReminderCompleted_present env n key ⟨.json r, rev⟩ hg

theorem markReminderCompleted_pending_witness :
    (markReminderCompleted Env.calm dueClient "reminder_T1_U1").calls = dueClient.calls ++
      [.kvGet "reminder_T1_U1",
       .kvPut "reminder_T1_U1" (.json ⟨"reminder_T1_U1", [1], 300, "completed", 1⟩),
       .publish ("crm.tickets.reminder." ++ TrimPrefix "reminder_T1_U1" "reminder_") [1]] ∧
    (markReminderCompleted writeDownEnv dueClient "reminder_T1_U1").calls = dueClient.calls ++
      [.kvGet "reminder_T1_U1",
       .kvPut "reminder_T1_U1" (.json ⟨"reminder_T1_U1", [1], 300, "completed", 1⟩)] :=
  ⟨((markReminderCompleted_pending Env.calm dueClient "reminder_T1_U1"
      ⟨"reminder_T1_U1", [1], 300, "pending", 0⟩ 1 (by decide)).1 rfl).1,
   ((markReminderCompleted_pending writeDownEnv dueClient "reminder_T1_U1"
      ⟨"reminder_T1_U1", [1], 300, "pending", 0⟩ 1 (by decide)).2 rfl).1⟩

/-- C29: when the value the `Get` returns for `key` does not decode,
`markReminderCompleted(key)` goes on with the struct the failed decode left:
it Puts it under `key` with the status `completed`, and, the Put having
succeeded, publishes its payload on the subject derived from `key`. -/
theorem markReminderCompleted_undecodable (env : Env) (n : NATSClient) (key : String)
    (e : KVEntry) (hg : kvGet env n.KV key = some e)
    (_hdec : (jsonUnmarshal e.value).2 = false) (hw : env.writeFails = false) :
    (markReminderCompleted env n key).calls = n.calls ++
      [.kvGet key,
       .kvPut key (.json { (jsonUnmarshal e.value).1 with
          Status := "completed", Revision := e.revision }),
       .publish ("crm.tickets.reminder." ++ TrimPrefix key "reminder_")
          (jsonUnmarshal e.value).1.EventData] ∧
    ∃ w, (markReminderCompleted env n key).KV.find key = some ⟨.json w, n.KV.seq + 1⟩ ∧
      w.Status = "completed" :=
  ⟨((markReminderCompleted_present env n key e hg).1 hw).1,
   _, ((markReminderCompleted_present env n key e hg).1 hw).2, rfl⟩

theorem markReminderCompleted_undecodable_witness :
    (markReminderCompleted Env.calm malformedClient "reminder_T3_U1").calls =
      malformedClient.calls ++
      [.kvGet "reminder_T3_U1",
       .kvPut "reminder_T3_U1" (.json ⟨"", [3], 0, "completed", 4⟩),
       .publish ("crm.tickets.reminder." ++ TrimPrefix "reminder_T3_U1" "reminder_") [3]] :=
  (markReminderCompleted_undecodable Env.calm malformedClient "reminder_T3_U1"
    ⟨.malformed ⟨"", [3], 0, "", 0⟩, 4⟩ (by decide) rfl rfl).1

/-! ## C25: one round of the fire loop -/

theorem Sub_nonpos (t u : Int) : Sub t u ≤ 0 ↔ t - u ≤ 0 := by
  have hmin : minDuration < 0 := by unfold minDuration; norm_num
  have hmax : 0 < maxDuration := by unfold maxDuration; norm_num
  unfold Sub
  split
  · rename_i h
    exact ⟨fun _ => le_of_lt (lt_trans h hmin), fun _ => le_of_lt hmin⟩
  · split
    · rename_i h
      exact ⟨fun h0 => absurd h0 (not_le.mpr hmax),
        fun h0 => absurd (lt_of_lt_of_le (lt_trans hmax h) h0) (lt_irrefl _)⟩
    · exact Iff.rfl

/-- C25: for a non-empty heap and a clock reading `now`, a round of the fire
loop with nothing running in between fires exactly when
`head.RemindTime - now ≤ 0`: the round then hands the head's key to
`markReminderCompleted` and the heap afterwards is the former heap without the
head entry; otherwise nothing is fired and the client is unchanged.  So the
entry of a fired key has a remind time that is not after `now`. -/
theorem processRemindersRound_spec (env : Env) (now : Time) (n : NATSClient)
    (hne : n.pq ≠ []) :
    ((entryAt n.pq 0).RemindTime - now ≤ 0 →
      (processRemindersRound env now n).1 = some (entryAt n.pq 0).Key ∧
      (entryAt n.pq 0 :: (processRemindersRound env now n).2.pq).Perm n.pq ∧
      ∃ rest, (processRemindersRound env now n).2 =
        markReminderCompleted env { n with pq := rest } (entryAt n.pq 0).Key) ∧
    (¬ ((entryAt n.pq 0).RemindTime - now ≤ 0) →
      processRemindersRound env now n = (none, n)) ∧
    (∀ key, (processRemindersRound env now n).1 = some key →
      key = (entryAt n.pq 0).Key ∧ (entryAt n.pq 0).RemindTime ≤ now) := by
  have hlen : ¬ n.pq.length = 0 := fun h => hne (List.length_eq_zero.mp h)
  obtain ⟨rest, hr, hp, _, _⟩ := heapPop_spec n.pq hne
  refine ⟨?_, ?_, ?_⟩
  · intro hdue
    have hsub := (Sub_nonpos _ _).mpr hdue
    unfold processRemindersRound
    simp only [hlen, if_false, hsub, if_true, hr]
    refine ⟨by trivial, by rw [pq_markReminderCompleted]; exact hp, rest, rfl⟩
  · intro hnot
    have hsub : ¬ Sub (entryAt n.pq 0).RemindTime now ≤ 0 := fun h =>
      hnot ((Sub_nonpos _ _).mp h)
    unfold processRemindersRound
    simp only [hlen, if_false, hsub]
  · intro key hkey
    unfold processRemindersRound at hkey
    simp only [hlen, if_false, hr] at hkey
    split at hkey
    · rename_i hsub
      have := (Sub_nonpos _ _).mp hsub
      simp only [Option.some.injEq] at hkey
      exact ⟨hkey.symm, sub_nonpos.mp this⟩
    · cases hkey

theorem processRemindersRound_spec_witness :
    (processRemindersRound Env.calm 300 dueClient).1 = some (entryAt dueClient.pq 0).Key ∧
    processRemindersRound Env.calm 299 dueClient = (none, dueClient) :=
  ⟨((processRemindersRound_spec Env.calm 300 dueClient (by decide)).1 (by decide)).1,
   (processRemindersRound_spec Env.calm 299 dueClient (by decide)).2.1 (by decide)⟩

/-! ## C30: records stay under their own key -/

theorem KeysMatch_write (kv : KVStore) (key : String) (r : Reminder) (h : KeysMatch kv)
    (hr : r.Key = key) : KeysMatch (kv.write key (.json r)) := by
  intro k e hf
  by_cases hk : k = key
  · subst hk
    rw [find_write_self] at hf
    cases hf
    exact ⟨r, rfl, hr⟩
  · rw [find_write_other _ _ _ _ hk] at hf
    exact h k e hf

theorem KeysMatch_kvPut (env : Env) (kv : KVStore) (key : String) (r : Reminder)
    (h : KeysMatch kv) (hr : r.Key = key) :
    KeysMatch (match kvPut env kv key (.json r) with
      | none => kv
      | some kv1 => kv1) := by
  unfold kvPut
  split
  · rename_i hc
    split at hc
    · exact h
    · cases hc
  · rename_i kv1 hc
    split at hc
    · cases hc
    · cases hc
      exact KeysMatch_write kv key r h hr

theorem KV_CancelReminder (env : Env) (n : NATSClient) (key : String) (eventData : Bytes)
    (r : Reminder) :
    (CancelReminder env n key eventData r).2.KV = n.KV ∨
    (CancelReminder env n key eventData r).2.KV =
      n.KV.write key (.json { r with Status := "canceled" }) := by
  unfold CancelReminder
  simp only [jsonMarshalStored, NATSClient.record, kvPut]
  by_cases hw : env.writeFails = true
  · left; simp [hw]
  · right; simp [hw]

theorem KV_CancelTicketReminder (env : Env) (c : HandlerCtx) (n : NATSClient)
    (req : Option CancelReminderRequest) :
    (CancelTicketReminder env c n req).2.KV = n.KV ∨
    ∃ key e r, req = some ⟨key⟩ ∧ kvGet env n.KV key = some e ∧
      jsonUnmarshal e.value = (r, true) ∧
      (CancelTicketReminder env c n req).2.KV =
        n.KV.write key (.json { r with Status := "canceled" }) := by
  unfold CancelTicketReminder
  cases req with
  | none => left; rfl
  | some req =>
    simp only []
    split
    · left; rfl
    · cases c.ticket with
      | none => left; rfl
      | some ticket =>
        cases c.loggedInUser with
        | none => left; rfl
        | some user =>
          cases hg : kvGet env n.KV req.ReminderID with
          | none => left; rfl
          | some e =>
            cases c.ulid with
            | none => left; rfl
            | some eventId =>
              simp only []
              generalize hdec : jsonUnmarshal e.value = dec
              obtain ⟨r, ok⟩ := dec
              cases ok with
              | false => left; rfl
              | true =>
                simp only [Bool.not_true, Bool.false_eq_true, if_false]
                have hkv := KV_CancelReminder env (n.record (.kvGet req.ReminderID))
                  req.ReminderID
                  (c.marshalEvent
                    { EventID := eventId, EventType := "ticket.reminder.cancel",
                      Timestamp := c.format c.now, Actor := ⟨user⟩,
                      Ticket := ⟨ticket.ID, "", "", "", ""⟩,
                      ReminderDetails := ⟨"", "", []⟩,
                      Changes := ⟨"cancel reminder", ""⟩ }) r
                split
                · rename_i err n2 heq
                  rw [heq] at hkv
                  rcases hkv with hkv | hkv
                  · left; exact hkv
                  · right; exact ⟨req.ReminderID, e, r, rfl, hg, hdec, hkv⟩
                · rename_i n2 heq
                  rw [heq] at hkv
                  rcases hkv with hkv | hkv
                  · left; exact hkv
                  · right; exact ⟨req.ReminderID, e, r, rfl, hg, hdec, hkv⟩

/-- C30: if every record of the bucket decodes and has its `Key` field equal to
the key it is stored under, the same holds after `StoreReminderInKV` (the other
writers of the bucket keeping the property as well), after `SnoozeReminder`,
after `markReminderCompleted` and after the cancel path `CancelTicketReminder`,
whatever their arguments and whether their calls fail or not. -/
theorem KeysMatch_preserved (env : Env) (n : NATSClient) (key : String)
    (h : KeysMatch n.KV) :
    (∀ t payload, KeysMatch (env.concurrent n.KV) →
      KeysMatch (StoreReminderInKV env n key t payload).2.KV) ∧
    (∀ d, KeysMatch (SnoozeReminder env n key d).2.KV) ∧
    KeysMatch (markReminderCompleted env n key).KV ∧
    (∀ c req, KeysMatch (CancelTicketReminder env c n req).2.KV) := by
  refine ⟨?_, ?_, ?_, ?_⟩
  · intro t payload hc
    rcases KV_StoreReminderInKV env n key t payload with hkv | ⟨stored, -, hkv⟩
    · rw [hkv]; exact hc
    · rw [hkv]; exact KeysMatch_write _ _ _ hc rfl
  · intro d
    unfold SnoozeReminder
    cases hg : kvGet env n.KV key with
    | none => exact h
    | some e =>
      obtain ⟨r, hv, hk⟩ := h key e (kvGet_eq_some hg)
      simp only [hv, jsonUnmarshal, jsonMarshalStored, Bool.not_true, Bool.false_eq_true, if_false,
        NATSClient.record]
      have := KeysMatch_kvPut env n.KV key { r with RemindTime := r.RemindTime + d } h hk
      split <;> simp_all
  · unfold markReminderCompleted
    cases hg : kvGet env n.KV key with
    | none => exact h
    | some e =>
      obtain ⟨r, hv, hk⟩ := h key e (kvGet_eq_some hg)
      simp only [hv, jsonUnmarshal, jsonMarshalStored, NATSClient.record, triggerReminder,
        PublishEvent]
      have := KeysMatch_kvPut env n.KV key
        { r with Status := "completed", Revision := e.revision } h hk
      split
      · simp_all
      · split <;> simp_all
  · intro c req
    rcases KV_CancelTicketReminder env c n req with hkv | ⟨k, e, r, _, hg, hd, hkv⟩
    · rw [hkv]; exact h
    · rw [hkv]
      obtain ⟨r1, hv, hk⟩ := h k e (kvGet_eq_some hg)
      rw [hv] at hd
      simp only [jsonUnmarshal, Prod.mk.injEq, and_true] at hd
      subst hd
      exact KeysMatch_write _ _ _ h hk

theorem KeysMatch_preserved_witness :
    KeysMatch (SnoozeReminder Env.calm dueClient "reminder_T1_U1" 5).2.KV :=
  (KeysMatch_preserved Env.calm dueClient "reminder_T1_U1"
    (by
      intro key e hf
      simp only [dueClient, KVStore.find, lookupEntry] at hf
      split at hf
      · rename_i hk
        cases hf
        exact ⟨_, rfl, hk⟩
      · cases hf)).2.1 5

/-! ## C26: the mutex and the KV operations -/

theorem heldAcross_calls (l : List Call) : heldAcross false (l.map .call) = false := by
  induction l with
  | nil => rfl
  | cons c rest ih => simp [heldAcross, ih]

theorem heldAcross_lock_call (c : Call) (rest : List MutexEvent) (hc : c.isKV = true) :
    heldAcross false (.lock :: .call c :: rest) = true := by
  simp [heldAcross, hc]

theorem newCalls_append (n m : NATSClient) (l : List Call) (h : m.calls = n.calls ++ l) :
    newCalls n m = l := by
  simp [newCalls, h]

theorem calls_SnoozeReminder (env : Env) (n : NATSClient) (key : String) (d : Duration) :
    ∃ more, (SnoozeReminder env n key d).2.calls = n.calls ++ .kvGet key :: more := by
  unfold SnoozeReminder
  simp only [jsonMarshalStored, NATSClient.record]
  split
  · exact ⟨[], rfl⟩
  · split
    · exact ⟨[], rfl⟩
    · split
      · exact ⟨[_], List.append_assoc _ _ _⟩
      · exact ⟨[_], List.append_assoc _ _ _⟩

theorem calls_CancelReminder (env : Env) (n : NATSClient) (key : String) (eventData : Bytes)
    (r : Reminder) :
    (CancelReminder env n key eventData r).2.calls =
      n.calls ++ [.kvPut key (.json { r with Status := "canceled" })] := by
  unfold CancelReminder
  simp only [jsonMarshalStored, NATSClient.record]
  split <;> rfl

/-- C26, as stated, fails: `SnoozeReminder` and `CancelReminder` take
`pqMutex` first and release it last, so their KV `Get` and `Put` are issued
with the mutex held. -/
theorem snooze_and_cancel_hold_mutex :
    SnoozeReminderEvents Env.calm pendingClient "reminder_T1_U1" 5 =
      [.lock, .call (.kvGet "reminder_T1_U1"),
       .call (.kvPut "reminder_T1_U1" (.json ⟨"reminder_T1_U1", [1], 305, "pending", 0⟩)),
       .unlock] ∧
    heldAcross false (SnoozeReminderEvents Env.calm pendingClient "reminder_T1_U1" 5) = true ∧
    CancelReminderEvents Env.calm pendingClient "reminder_T1_U1" []
        ⟨"reminder_T1_U1", [1], 300, "pending", 0⟩ =
      [.lock,
       .call (.kvPut "reminder_T1_U1" (.json ⟨"reminder_T1_U1", [1], 300, "canceled", 0⟩)),
       .unlock] ∧
    heldAcross false (CancelReminderEvents Env.calm pendingClient "reminder_T1_U1" []
        ⟨"reminder_T1_U1", [1], 300, "pending", 0⟩) = true := by
  decide

/-- C26, amended: `StoreReminderInKV`, `markReminderCompleted`, the body of the
recovery loop, the body of the watch loop and a round of the fire loop never
issue a KV operation while `pqMutex` is held; `SnoozeReminder` and
`CancelReminder` hold it for their whole body and on every call issue a KV
operation (the `Get`, respectively the `Put`) with the mutex held. -/
theorem mutex_and_kv_operations (env : Env) (n : NATSClient) (key : String) (t : Time)
    (payload : Bytes) (now : Time) (update : Option (String × Value)) (d : Duration)
    (r : Reminder) :
    heldAcross false (StoreReminderInKVEvents env n key t payload) = false ∧
    heldAcross false (markReminderCompletedEvents env n key) = false ∧
    heldAcross false (loadExistingReminderEvents env n key) = false ∧
    heldAcross false (watchKVUpdateEvents update) = false ∧
    heldAcross false (processRemindersRoundEvents env now n) = false ∧
    heldAcross false (SnoozeReminderEvents env n key d) = true ∧
    heldAcross false (CancelReminderEvents env n key payload r) = true := by
  refine ⟨heldAcross_calls _, heldAcross_calls _, ?_, ?_, ?_, ?_, ?_⟩
  · unfold loadExistingReminderEvents
    split
    · simp [heldAcross]
    · simp only []
      split
      · simp [heldAcross]
      · split <;> simp [heldAcross]
  · unfold watchKVUpdateEvents
    split
    · rfl
    · simp only []
      split
      · simp [heldAcross]
      · split
        · simp [heldAcross]
        · split <;> simp [heldAcross]
  · unfold processRemindersRoundEvents
    split
    · simp [heldAcross]
    · split
      · simp [heldAcross]
      · simp only [List.cons_append, List.nil_append, heldAcross]
        exact heldAcross_calls _
  · obtain ⟨more, hm⟩ := calls_SnoozeReminder env n key d
    unfold SnoozeReminderEvents
    rw [newCalls_append _ _ _ hm]
    exact heldAcross_lock_call _ _ rfl
  · unfold CancelReminderEvents
    rw [newCalls_append _ _ _ (calls_CancelReminder env n key payload r)]
    exact heldAcross_lock_call _ _ rfl

end ClientNest
